import Mathlib

/-!
Gophermart: order-number validation and the balance ledger.

A shallow embedding of `internal/service/service.go`, `internal/storage/balance.go`,
`internal/storage/order.go`, `internal/accrual/client.go`, the order and withdraw
handlers of `internal/handlers/handlers.go` and the accrual ticker of
`cmd/gophermart/main.go`.

Modelling conventions.

* A Go `string` is a Lean `String`; `len(s)` is the UTF-8 byte size, a `range` loop
  visits the characters (runes) and `s[i]` is a byte.  The byte loop of
  `validateOrderNumber` is only reached once every rune is an ASCII digit, where
  bytes and runes coincide, so it is modelled over the characters in reverse.
* A Go `error` is its message (`err.Error()`); `nil` is `none`.  The repository
  itself dispatches on the message text.
* The `float64` amounts are exact rationals: rounding, infinities and NaN are not
  modelled.  The one exception is the section on float64 arithmetic, where sums and
  differences of finite values are rounded to nearest, ties to even; it is used for
  the sum `current + withdrawn` of a balance.
* The database is a record of tables (lists of rows).  The `id` and timestamp
  columns, which the database assigns, are left out.  Each SQL statement takes an
  optional driver failure; a failed statement has no effect.
* A reconciliation cycle meets an environment: the outcome of the `httpClient.Get`
  call made for each order number and the driver failures of its store statements.
  Where the HTTP requests of one call are counted, the call is given the single
  HTTP exchange instead, and `Get` follows redirects as `http.Client` does.  The cycle
  returns, besides the database, the order numbers it called the gateway for.
* Time is counted in milliseconds since the accrual ticker was created.
-/

namespace Gophermart

/-! ## Order identifier validator (`service.go`) -/

/-- `strings.ReplaceAll(number, " ", "")`: every U+0020 is removed. -/
def replaceAllSpaces (number : String) : String :=
  ⟨number.data.filter (fun c => c != ' ')⟩

/-- The rune test `char < '0' || char > '9'` of the digit loop. -/
def notDigit (char : Char) : Bool :=
  decide (char.toNat < '0'.toNat) || decide (char.toNat > '9'.toNat)

/-- `digit, _ := strconv.Atoi(string(number[i]))`: the value of a one-digit
string, and `0` (the error being dropped) for anything else. -/
def atoiByte (b : Char) : Nat :=
  if notDigit b then 0 else b.toNat - '0'.toNat

/-- One pass of the loop `for i := len(number) - 1; i >= 0; i--` over the bytes
still to be visited (rightmost first), carrying `sum` and `alternate`. -/
def luhnLoop : List Char → Nat → Bool → Nat
  | [], sum, _ => sum
  | b :: rest, sum, alternate =>
    let digit := atoiByte b
    let digit :=
      if alternate then
        let digit := digit * 2
        if digit > 9 then digit % 10 + digit / 10 else digit
      else digit
    luhnLoop rest (sum + digit) (!alternate)

/-- `func (s *Service) validateOrderNumber(number string) bool`. -/
def validateOrderNumber (number : String) : Bool :=
  let number := replaceAllSpaces number
  if number.utf8ByteSize < 2 then false
  else if number.data.any notDigit then false
  else luhnLoop number.data.reverse 0 false % 10 == 0

/-- `func (s *Service) ValidateOrderNumber(number string) bool`. -/
def ValidateOrderNumber (number : String) : Bool :=
  validateOrderNumber number

/-! ### The validation rule as the specification words it -/

/-- The characters the specification calls whitespace: space, tab, newline
(and carriage return). -/
def specIsWhitespace (c : Char) : Bool :=
  c == ' ' || c == Char.ofNat 9 || c == Char.ofNat 10 || c == Char.ofNat 13

/-- The contribution of the digit `d` found `i` places from the right end:
every second digit, starting with the second from the right, is doubled, and a
doubled value above 9 is replaced by `d*2 - 9`. -/
def specLuhnTerm (i d : Nat) : Nat :=
  if i % 2 = 1 then (if d * 2 > 9 then d * 2 - 9 else d * 2) else d

/-- The standard Luhn sum of a digit sequence, scanned right to left. -/
def specLuhnSum (digits : List Nat) : Nat :=
  (digits.reverse.enum.map (fun p => specLuhnTerm p.1 p.2)).sum

/-- The value of a decimal digit character. -/
def specDigitValue (c : Char) : Nat := c.toNat - 48

/-- The rule on a string that has already been stripped: at least 2 characters,
decimal digits only, Luhn sum divisible by 10. -/
def SpecLuhnValid (t : List Char) : Prop :=
  2 ≤ t.length ∧ (∀ c ∈ t, c.isDigit = true) ∧ specLuhnSum (t.map specDigitValue) % 10 = 0

/-- The rule with every whitespace character stripped. -/
def SpecValidWhitespace (s : String) : Prop :=
  SpecLuhnValid (s.data.filter (fun c => !specIsWhitespace c))

/-- The rule with only the space characters (U+0020) stripped. -/
def SpecValidSpaces (s : String) : Prop :=
  SpecLuhnValid (s.data.filter (fun c => c != ' '))

/-- A string made of decimal digits only. -/
def IsDigitString (d : String) : Prop := ∀ c ∈ d.data, c.isDigit = true

/-- A string made of whitespace characters only. -/
def IsWhitespaceString (p : String) : Prop := ∀ c ∈ p.data, specIsWhitespace c = true

/-- A string made of space characters (U+0020) only. -/
def IsSpaceString (p : String) : Prop := ∀ c ∈ p.data, c = ' '

/-! ## The ledger store (`storage/balance.go`) -/

/-- A row of `balances(user_id, current, withdrawn)`. -/
structure BalanceRow where
  userID : Int
  current : ℚ
  withdrawn : ℚ
deriving DecidableEq

/-- A row of `withdrawals(user_id, order_number, sum)`. -/
structure WithdrawalRow where
  userID : Int
  orderNumber : String
  sum : ℚ
deriving DecidableEq

/-- A row of `orders(user_id, number, status, accrual)`; `accrual` is nullable. -/
structure OrderRow where
  userID : Int
  number : String
  status : String
  accrual : Option ℚ
deriving DecidableEq

/-- The tables behind the `*sql.DB` handle. -/
structure Database where
  balances : List BalanceRow := []
  withdrawals : List WithdrawalRow := []
  orders : List OrderRow := []
deriving DecidableEq

/-- `models.BalanceResponse`. -/
structure BalanceResponse where
  Current : ℚ
  Withdrawn : ℚ
deriving DecidableEq

/-- The message of `sql.ErrNoRows`. -/
def sqlErrNoRows : String := "sql: no rows in result set"

/-- `QueryRow` on `... FROM balances WHERE user_id = $1`: the first matching row. -/
def Database.selectBalance (db : Database) (userID : Int) : Option BalanceRow :=
  db.balances.find? (fun r => r.userID == userID)

/-- The balance a user sees: the `current, withdrawn` columns of the user's row. -/
def Database.balanceOf (db : Database) (userID : Int) : Option BalanceResponse :=
  (db.selectBalance userID).map (fun r => ⟨r.current, r.withdrawn⟩)

/-- `func (s *BalanceStorage) GetBalance(userID int)`; `fault` is a driver failure
of the query. -/
def BalanceStorage.GetBalance (fault : Option String) (db : Database) (userID : Int) :
    Except String BalanceResponse :=
  match fault with
  | some e => .error ("failed to get balance: " ++ e)
  | none =>
    match db.balanceOf userID with
    | none => .error "balance not found"
    | some b => .ok b

/-- Driver failures of an `Exec` followed by `result.RowsAffected()`. -/
structure ExecFaults where
  exec : Option String := none
  rowsAffected : Option String := none

/-- `func (s *BalanceStorage) UpdateBalance(userID int, accrual float64) error`:
`UPDATE balances SET current = current + $1 WHERE user_id = $2`. -/
def BalanceStorage.UpdateBalance (f : ExecFaults) (db : Database) (userID : Int)
    (accrual : ℚ) : Option String × Database :=
  match f.exec with
  | some e => (some ("failed to update balance: " ++ e), db)
  | none =>
    let db1 := { db with balances := db.balances.map (fun r =>
      if r.userID == userID then { r with current := r.current + accrual } else r) }
    let rowsAffected := (db.balances.filter (fun r => r.userID == userID)).length
    match f.rowsAffected with
    | some e => (some ("failed to get rows affected: " ++ e), db1)
    | none =>
      if rowsAffected == 0 then (some "balance not found", db1)
      else (none, db1)

/-- Driver failures of the statements of the withdrawal transaction. -/
structure TxFaults where
  begin : Option String := none
  select : Option String := none
  update : Option String := none
  commit : Option String := none

/-- `func (s *BalanceStorage) WithdrawBalance(userID int, amount float64) error`:
one transaction that reads `current`, compares it with `amount` and debits.
Every return before `tx.Commit()` succeeds runs the deferred `tx.Rollback()`. -/
def BalanceStorage.WithdrawBalance (f : TxFaults) (db : Database) (userID : Int)
    (amount : ℚ) : Option String × Database :=
  match f.begin with
  | some e => (some ("failed to begin transaction: " ++ e), db)
  | none =>
    match f.select with
    | some e => (some ("failed to get current balance: " ++ e), db)
    | none =>
      match db.selectBalance userID with
      | none => (some ("failed to get current balance: " ++ sqlErrNoRows), db)
      | some row =>
        let currentBalance := row.current
        if currentBalance < amount then (some "insufficient funds", db)
        else
          match f.update with
          | some e => (some ("failed to update balance: " ++ e), db)
          | none =>
            match f.commit with
            | some e => (some e, db)
            | none =>
              (none, { db with balances := db.balances.map (fun r =>
                if r.userID == userID then
                  { r with current := r.current - amount, withdrawn := r.withdrawn + amount }
                else r) })

/-- `func (s *BalanceStorage) CreateWithdrawal(userID int, orderNumber string,
amount float64) error`: `INSERT INTO withdrawals (user_id, order_number, sum)`. -/
def BalanceStorage.CreateWithdrawal (fault : Option String) (db : Database) (userID : Int)
    (orderNumber : String) (amount : ℚ) : Option String × Database :=
  match fault with
  | some e => (some ("failed to create withdrawal: " ++ e), db)
  | none => (none, { db with withdrawals := db.withdrawals ++ [⟨userID, orderNumber, amount⟩] })

/-! ## The ledger service (`service.go`) -/

/-- `func (s *Service) WithdrawBalance(userID int, orderNumber string,
amount float64) error`; `fw` and `fc` are the driver failures met by the debit
transaction and by the insertion of the withdrawal record. -/
def Service.WithdrawBalance (fw : TxFaults) (fc : Option String) (db : Database)
    (userID : Int) (orderNumber : String) (amount : ℚ) : Option String × Database :=
  if !validateOrderNumber orderNumber then (some "invalid order number format", db)
  else
    match BalanceStorage.WithdrawBalance fw db userID amount with
    | (some err, db1) => (some err, db1)
    | (none, db1) =>
      match BalanceStorage.CreateWithdrawal fc db1 userID orderNumber amount with
      | (some err, db2) => (some ("failed to create withdrawal record: " ++ err), db2)
      | (none, db2) => (none, db2)

/-! ## The withdraw handler (`handlers.go`) -/

/-- `models.WithdrawRequest`. -/
structure WithdrawRequest where
  Order : String
  Sum : ℚ

/-- `func (h *Handlers) WithdrawBalance(w, r)`: the HTTP status written and the
database afterwards.  `method` is `r.Method`, `ctxUserID` the user id the auth
middleware left in the request context (if any) and `body` the decoded JSON body
(`none` when decoding fails). -/
def Handlers.WithdrawBalance (fw : TxFaults) (fc : Option String) (db : Database)
    (method : String) (ctxUserID : Option Int) (body : Option WithdrawRequest) :
    Nat × Database :=
  if method != "POST" then (405, db)
  else
    match ctxUserID with
    | none => (401, db)
    | some userID =>
      match body with
      | none => (400, db)
      | some req =>
        if req.Order == "" || decide (req.Sum ≤ 0) then (400, db)
        else
          match Service.WithdrawBalance fw fc db userID req.Order req.Sum with
          | (some err, db1) =>
            if err == "insufficient funds" then (402, db1)
            else if err == "invalid order number format" then (422, db1)
            else (500, db1)
          | (none, db1) => (200, db1)

/-! ## The two balance updates, named for the statements below -/

/-- The effect of `UPDATE balances SET current = current + $1 WHERE user_id = $2`. -/
def Database.credit (db : Database) (userID : Int) (accrual : ℚ) : Database :=
  { db with balances := db.balances.map (fun r =>
      if r.userID == userID then { r with current := r.current + accrual } else r) }

/-- The effect of `UPDATE balances SET current = current - $1,
withdrawn = withdrawn + $1 WHERE user_id = $2`. -/
def Database.debit (db : Database) (userID : Int) (amount : ℚ) : Database :=
  { db with balances := db.balances.map (fun r =>
      if r.userID == userID then
        { r with current := r.current - amount, withdrawn := r.withdrawn + amount }
      else r) }

/-- The database with one more withdrawal record. -/
def Database.record (db : Database) (userID : Int) (orderNumber : String) (amount : ℚ) :
    Database :=
  { db with withdrawals := db.withdrawals ++ [⟨userID, orderNumber, amount⟩] }

/-! ## Sequences of ledger operations on one user -/

/-- A ledger operation: a deposit (`BalanceStorage.UpdateBalance`) or a withdrawal
(`Service.WithdrawBalance`), with the driver failures it meets. -/
inductive LedgerOp where
  | deposit (f : ExecFaults) (amount : ℚ)
  | withdraw (fw : TxFaults) (fc : Option String) (orderNumber : String) (amount : ℚ)

/-- The database after one operation of user `userID`. -/
def LedgerOp.run (userID : Int) (db : Database) : LedgerOp → Database
  | .deposit f amount => (BalanceStorage.UpdateBalance f db userID amount).2
  | .withdraw fw fc orderNumber amount =>
    (Service.WithdrawBalance fw fc db userID orderNumber amount).2

/-- The database after a sequence of operations of user `userID`, applied one
after another. -/
def runOps (userID : Int) (db : Database) (ops : List LedgerOp) : Database :=
  ops.foldl (LedgerOp.run userID) db

/-! ## The accrual gateway (`accrual/client.go`) -/

/-- `strings.HasPrefix` on character lists. -/
def hasPrefixChars : List Char → List Char → Bool
  | _, [] => true
  | [], _ :: _ => false
  | c :: cs, p :: ps => c == p && hasPrefixChars cs ps

/-- `strings.Contains` on character lists. -/
def containsChars : List Char → List Char → Bool
  | [], substr => substr.isEmpty
  | c :: cs, substr => hasPrefixChars (c :: cs) substr || containsChars cs substr

/-- `strings.Contains(s, substr)`. -/
def stringsContains (s substr : String) : Bool :=
  containsChars s.data substr.data

/-- `accrual.AccrualResponse`; `Accrual` is `0` when the JSON field is absent. -/
structure AccrualResponse where
  Order : String
  Status : String
  Accrual : ℚ
deriving DecidableEq

/-- What `GetOrderInfo` reads of an `*http.Response`: the status code, the
`Retry-After` header, the outcome of decoding the body as JSON (the decoder's
error message when it fails) and the raw body. -/
structure HttpResponse where
  StatusCode : Nat
  retryAfter : String := ""
  decoded : Except String AccrualResponse := .error "EOF"
  body : String := ""

/-- The outcome of `c.httpClient.Get(url)` for one order number: the message of
the transport error, or the response. -/
abbrev HttpReply := Except String HttpResponse

/-- `func (c *AccrualClient) GetOrderInfo(orderNumber string)
(*AccrualResponse, error)`, given the outcome of its one `httpClient.Get`. -/
def AccrualClient.GetOrderInfo (reply : HttpReply) : Except String AccrualResponse :=
  match reply with
  | .error err => .error ("failed to make request: " ++ err)
  | .ok resp =>
    if resp.StatusCode == 200 then
      match resp.decoded with
      | .error err => .error ("failed to decode response: " ++ err)
      | .ok accrualResp => .ok accrualResp
    else if resp.StatusCode == 204 then
      .error "order not found in accrual system"
    else if resp.StatusCode == 429 then
      .error ("rate limit exceeded, retry after: " ++ resp.retryAfter)
    else if resp.StatusCode == 500 then
      .error "internal server error in accrual system"
    else
      .error ("unexpected status code " ++ toString resp.StatusCode ++ ": " ++ resp.body)

/-! ## The order store (`storage/order.go`) -/

/-- `models.OrderStatusNew`. -/
def OrderStatusNew : String := "NEW"

/-- `models.OrderStatusProcessing`. -/
def OrderStatusProcessing : String := "PROCESSING"

/-- `models.OrderStatusInvalid`. -/
def OrderStatusInvalid : String := "INVALID"

/-- `models.OrderStatusProcessed`. -/
def OrderStatusProcessed : String := "PROCESSED"

/-- `QueryRow` on `... FROM orders WHERE number = $1`: the first matching row. -/
def Database.selectOrder (db : Database) (number : String) : Option OrderRow :=
  db.orders.find? (fun r => r.number == number)

/-- `func (s *OrderStorage) GetOrderByNumber(number string) (*models.Order, error)`;
`fault` is a driver failure of the query. -/
def OrderStorage.GetOrderByNumber (fault : Option String) (db : Database) (number : String) :
    Except String OrderRow :=
  match fault with
  | some e => .error ("failed to get order: " ++ e)
  | none =>
    match db.selectOrder number with
    | none => .error "order not found"
    | some order => .ok order

/-- Modelled from the spec: the migrations are not part of the sources; the
persisted layout `orders(id, user_id, number unique, status, accrual nullable,
uploaded_at)` makes an `INSERT` of a number that a row already carries fail.  This
is the driver's message for that failure. -/
def uniqueViolation : String :=
  "pq: duplicate key value violates unique constraint"

/-- `func (s *OrderStorage) CreateOrder(userID int, number string)
(*models.Order, error)`: `INSERT INTO orders (user_id, number, status)` with status
`NEW`; the `accrual` column is left `NULL`.  Returns the error and the database. -/
def OrderStorage.CreateOrder (fault : Option String) (db : Database) (userID : Int)
    (number : String) : Option String × Database :=
  match fault with
  | some e => (some ("failed to create order: " ++ e), db)
  | none =>
    if db.orders.any (fun r => r.number == number) then
      (some ("failed to create order: " ++ uniqueViolation), db)
    else
      (none, { db with orders := db.orders ++ [⟨userID, number, OrderStatusNew, none⟩] })

/-- `func (s *OrderStorage) UpdateOrderStatus(number, status string,
accrual float64) error`: `UPDATE orders SET status = $1, accrual = $2
WHERE number = $3`. -/
def OrderStorage.UpdateOrderStatus (f : ExecFaults) (db : Database) (number status : String)
    (accrual : ℚ) : Option String × Database :=
  match f.exec with
  | some e => (some ("failed to update order: " ++ e), db)
  | none =>
    let db1 := { db with orders := db.orders.map (fun r =>
      if r.number == number then { r with status := status, accrual := some accrual } else r) }
    let rowsAffected := (db.orders.filter (fun r => r.number == number)).length
    match f.rowsAffected with
    | some e => (some ("failed to get rows affected: " ++ e), db1)
    | none =>
      if rowsAffected == 0 then (some "order not found", db1)
      else (none, db1)

/-- Driver failures of a `Query` and of the iteration over its rows.
`rowsErrAfter = some k` is an iteration failure after `k` rows: `rows.Next()`
returns false, and `GetProcessingOrders` does not look at `rows.Err()`. -/
structure QueryFaults where
  query : Option String := none
  scan : Option String := none
  rowsErrAfter : Option Nat := none

/-- The rows matched by `... FROM orders WHERE status IN ('NEW', 'PROCESSING')`, in
table order (the query has no `ORDER BY`). -/
def Database.openOrders (db : Database) : List OrderRow :=
  db.orders.filter (fun r => r.status == OrderStatusNew || r.status == OrderStatusProcessing)

/-- `func (s *OrderStorage) GetProcessingOrders() ([]models.Order, error)`. -/
def OrderStorage.GetProcessingOrders (f : QueryFaults) (db : Database) :
    Except String (List OrderRow) :=
  match f.query with
  | some e => .error ("failed to get processing orders: " ++ e)
  | none =>
    let rows :=
      match f.rowsErrAfter with
      | none => db.openOrders
      | some k => db.openOrders.take k
    match f.scan with
    | some e => if rows.isEmpty then .ok rows else .error ("failed to scan order: " ++ e)
    | none => .ok rows

/-! ## The reconciliation cycle (`service.go`) -/

/-- What the cycle meets outside the service: the outcome of the HTTP request made
for an order number, and the driver failures of the store statements (those of the
status update and of the balance credit are given per order number). -/
structure CycleEnv where
  gateway : String → HttpReply
  select : QueryFaults := {}
  status : String → ExecFaults := fun _ => {}
  balance : String → ExecFaults := fun _ => {}

/-- The body of the loop `for _, order := range orders` of `ProcessAccruals`: the
database after the iteration, and `false` when the iteration ends in `break`. -/
def processOrder (env : CycleEnv) (order : OrderRow) (db : Database) : Database × Bool :=
  match AccrualClient.GetOrderInfo (env.gateway order.number) with
  | .error err =>
    if stringsContains err "order not found" then (db, true)
    else if stringsContains err "rate limit exceeded" then (db, false)
    else (db, true)
  | .ok accrualInfo =>
    match OrderStorage.UpdateOrderStatus (env.status order.number) db order.number
        accrualInfo.Status accrualInfo.Accrual with
    | (some _, db1) => (db1, true)
    | (none, db1) =>
      if accrualInfo.Status == OrderStatusProcessed && decide (accrualInfo.Accrual > 0) then
        match BalanceStorage.UpdateBalance (env.balance order.number) db1 order.userID
            accrualInfo.Accrual with
        | (some _, db2) => (db2, true)
        | (none, db2) => (db2, true)
      else (db1, true)

/-- The loop of `ProcessAccruals` over the loaded orders: the database afterwards
and the order numbers the gateway was called for, in call order. -/
def processOrders (env : CycleEnv) : List OrderRow → Database → Database × List String
  | [], db => (db, [])
  | order :: rest, db =>
    match processOrder env order db with
    | (db1, false) => (db1, [order.number])
    | (db1, true) =>
      ((processOrders env rest db1).1, order.number :: (processOrders env rest db1).2)

/-- The outcome of one call of `ProcessAccruals`: the returned error, the database
afterwards and the gateway calls made. -/
structure CycleResult where
  err : Option String
  db : Database
  calls : List String

/-- `func (s *Service) ProcessAccruals() error`. -/
def Service.ProcessAccruals (env : CycleEnv) (db : Database) : CycleResult :=
  match OrderStorage.GetProcessingOrders env.select db with
  | .error err => ⟨some ("failed to get processing orders: " ++ err), db, []⟩
  | .ok orders =>
    ⟨none, (processOrders env orders db).1, (processOrders env orders db).2⟩

/-! ## Order admission (`service.go`, `handlers.go`) -/

/-- `func (s *Service) AddOrder(userID int, orderNumber string) error`; `fg` and
`fc` are the driver failures met by the lookup and by the insertion. -/
def Service.AddOrder (fg fc : Option String) (db : Database) (userID : Int)
    (orderNumber : String) : Option String × Database :=
  if !validateOrderNumber orderNumber then (some "invalid order number format", db)
  else
    match OrderStorage.GetOrderByNumber fg db orderNumber with
    | .ok existingOrder =>
      if existingOrder.userID == userID then (some "order already uploaded by this user", db)
      else (some "order already uploaded by another user", db)
    | .error _ =>
      match OrderStorage.CreateOrder fc db userID orderNumber with
      | (some err, db1) => (some ("failed to create order: " ++ err), db1)
      | (none, db1) => (none, db1)

/-- `func (h *Handlers) AddOrder(w, r)`: the HTTP status written and the database
afterwards.  `method` is `r.Method`, `ctxUserID` the user id found in the request
context (if any) and `body` the request body (`none` when reading it fails). -/
def Handlers.AddOrder (fg fc : Option String) (db : Database) (method : String)
    (ctxUserID : Option Int) (body : Option String) : Nat × Database :=
  if method != "POST" then (405, db)
  else
    match ctxUserID with
    | none => (401, db)
    | some userID =>
      match body with
      | none => (400, db)
      | some orderNumber =>
        if orderNumber == "" then (400, db)
        else
          match Service.AddOrder fg fc db userID orderNumber with
          | (some err, db1) =>
            if err == "order already uploaded by this user" then (200, db1)
            else if err == "order already uploaded by another user" then (409, db1)
            else if err == "invalid order number format" then (422, db1)
            else (500, db1)
          | (none, db1) => (202, db1)

/-- One `AddOrder` call of a sequence: who submits what, and the driver failures. -/
structure AddOrderCall where
  fg : Option String := none
  fc : Option String := none
  userID : Int
  orderNumber : String

/-- The database after a sequence of `Service.AddOrder` calls. -/
def runAddOrders (db : Database) (calls : List AddOrderCall) : Database :=
  calls.foldl (fun d c => (Service.AddOrder c.fg c.fc d c.userID c.orderNumber).2) db

/-! ## Notions used to state the claims on the cycle -/

/-- The effect of `UPDATE orders SET status = $1, accrual = $2 WHERE number = $3`. -/
def Database.setStatus (db : Database) (number status : String) (accrual : ℚ) : Database :=
  { db with orders := db.orders.map (fun r =>
      if r.number == number then { r with status := status, accrual := some accrual } else r) }

/-- The order numbers of the table are pairwise distinct (`number unique`). -/
def Database.UniqueNumbers (db : Database) : Prop :=
  (db.orders.map (fun r => r.number)).Nodup

/-- The reply for this order makes the loop `break`. -/
def stopsCycle (env : CycleEnv) (order : OrderRow) : Bool :=
  match AccrualClient.GetOrderInfo (env.gateway order.number) with
  | .error err =>
    !stringsContains err "order not found" && stringsContains err "rate limit exceeded"
  | .ok _ => false

/-- The reply for this order is a result with status `PROCESSED` and a positive
accrual: the only replies after which the cycle credits a balance. -/
def creditsOrder (env : CycleEnv) (order : OrderRow) : Bool :=
  match AccrualClient.GetOrderInfo (env.gateway order.number) with
  | .error _ => false
  | .ok accrualInfo =>
    accrualInfo.Status == OrderStatusProcessed && decide (accrualInfo.Accrual > 0)

/-- The reply for this order is a result with a terminal status. -/
def finalizesOrder (env : CycleEnv) (order : OrderRow) : Bool :=
  match AccrualClient.GetOrderInfo (env.gateway order.number) with
  | .error _ => false
  | .ok accrualInfo =>
    accrualInfo.Status == OrderStatusProcessed || accrualInfo.Status == OrderStatusInvalid


/-- The HTTP reply `200` whose body decodes to `info`. -/
def replyFound (info : AccrualResponse) : HttpReply :=
  .ok { StatusCode := 200, decoded := .ok info }

/-- The HTTP reply with status `code`, an undecodable (empty) body and the given
`Retry-After` header. -/
def replyStatus (code : Nat) (retryAfter : String) : HttpReply :=
  .ok { StatusCode := code, retryAfter := retryAfter }

/-- The request failing in transport with the message `msg`. -/
def replyTransportError (msg : String) : HttpReply :=
  .error msg


/-! ## A small database used in the worked instances -/

/-- User 1 holds `{0, 0}` and owns the new order `18`; user 2 holds `{7, 0}` and
owns the order `26`, in processing, and the order `34`, processed with accrual 40. -/
def sampleDb : Database :=
  { balances := [⟨1, 0, 0⟩, ⟨2, 7, 0⟩],
    orders := [⟨1, "18", "NEW", none⟩, ⟨2, "26", "PROCESSING", none⟩,
      ⟨2, "34", "PROCESSED", some 40⟩] }

/-- The accrual system answers PROCESSED with accrual 100 for `18` and 204 for
every other number; the store works. -/
def sampleEnv : CycleEnv :=
  { gateway := fun n =>
      if n == "18" then replyFound ⟨"18", "PROCESSED", 100⟩ else replyStatus 204 "" }


/-! ## The gateway call with its transport, and the scheduler (`cmd/gophermart/main.go`) -/

/-- What one HTTP exchange gives the client: the response, and the value of its
`Location` header resolved against the URL of the request (`""` when the header is
absent). -/
structure RoundTrip where
  response : HttpResponse
  location : String := ""

/-- The status codes on which `http.Client` redirects a GET: 301, 302, 303, 307
and 308. -/
def isRedirectStatus (code : Nat) : Bool :=
  code == 301 || code == 302 || code == 303 || code == 307 || code == 308

/-- Whether `http.Client` goes on to a further request after this exchange: the
status is a redirect and the response carries a `Location`. -/
def followsRedirect (rt : RoundTrip) : Bool :=
  isRedirectStatus rt.response.StatusCode && rt.location != ""

/-- The message of the error `http.Client` returns when its redirect policy refuses
the request to `url`: `Get "url": stopped after 10 redirects`. -/
def stoppedAfterRedirects (url : String) : String :=
  "Get " ++ String.singleton (Char.ofNat 34) ++ url ++ String.singleton (Char.ofNat 34)
    ++ ": stopped after 10 redirects"

/-- `c.httpClient.Get(url)` for the client built by `NewAccrualClient`, which sets
only `Timeout` and so keeps the default redirect policy of `http.Client`.  `send`
is one HTTP exchange: the message of the error `Get` returns when the exchange
fails, or the response.  A redirect response with a `Location` is answered by a
further request to that location; the policy allows `allowed` more requests and
refuses the one after them.  A `Location` that does not parse as a URL is not
modelled.  Returns the outcome of `Get` and the URLs requested, in order. -/
def HttpClient.Get (send : String → Except String RoundTrip) :
    Nat → String → HttpReply × List String
  | 0, url => (.error (stoppedAfterRedirects url), [])
  | allowed + 1, url =>
    match send url with
    | .error err => (.error err, [url])
    | .ok rt =>
      if followsRedirect rt then
        let next := HttpClient.Get send allowed rt.location
        (next.1, url :: next.2)
      else (.ok rt.response, [url])

/-- The default redirect policy stops at ten requests (`len(via) >= 10`). -/
def maxRequests : Nat := 10

/-- `func (c *AccrualClient) GetOrderInfo(orderNumber string)` with the HTTP
exchange as a parameter: the one call `c.httpClient.Get(url)` and the
classification of its outcome.  Returns the result and the URLs requested during
the call, in order. -/
def AccrualClient.GetOrderInfoVia (send : String → Except String RoundTrip)
    (baseURL orderNumber : String) : Except String AccrualResponse × List String :=
  let url := baseURL ++ "/api/orders/" ++ orderNumber
  let got := HttpClient.Get send maxRequests url
  (AccrualClient.GetOrderInfo got.1, got.2)

/-- The two results `(*AccrualResponse, error)` of `GetOrderInfo` as its `return`
statements give them, `nil` being `none`: every error path is `return nil,
fmt.Errorf(...)`, and the one success path is `return &accrualResp, nil`. -/
def AccrualClient.GetOrderInfoReturns (reply : HttpReply) :
    Option AccrualResponse × Option String :=
  match reply with
  | .error err => (none, some ("failed to make request: " ++ err))
  | .ok resp =>
    if resp.StatusCode == 200 then
      match resp.decoded with
      | .error err => (none, some ("failed to decode response: " ++ err))
      | .ok accrualResp => (some accrualResp, none)
    else if resp.StatusCode == 204 then (none, some "order not found in accrual system")
    else if resp.StatusCode == 429 then
      (none, some ("rate limit exceeded, retry after: " ++ resp.retryAfter))
    else if resp.StatusCode == 500 then
      (none, some "internal server error in accrual system")
    else
      (none, some
        ("unexpected status code " ++ toString resp.StatusCode ++ ": " ++ resp.body))

/-- `time.NewTicker(5 * time.Second)`: the period of the accrual ticker, in
milliseconds. -/
def accrualTickerPeriod : Nat := 5000

/-- The loop `for range ticker.C { svc.ProcessAccruals() }` of `main`: the time at
which the next cycle starts, given the times (in milliseconds since the ticker was
created) at which the running cycle started and returned.  The ticker fires at
every multiple of its period; a tick that fires while a cycle runs is kept (the
channel holds one tick) and starts the next cycle as soon as the running one
returns; otherwise the loop waits for the next tick.  What `ProcessAccruals`
returns is only logged. -/
def nextCycleStart (started returned : Nat) : Nat :=
  let nextTick := (started / accrualTickerPeriod + 1) * accrualTickerPeriod
  if nextTick ≤ returned then returned else nextTick



/-! ## float64 arithmetic, for the sum of a balance (`balance.go`, `models.go`) -/

/-- A finite float64 value, `mant * 2 ^ exp`.  The exponent is not bounded:
overflow to an infinity and the subnormal range are not modelled. -/
structure Float64 where
  mant : Int
  exp : Int
deriving DecidableEq

/-- The number of binary digits of `n`, given at least that many steps. -/
def bitLength : Nat → Nat → Nat
  | 0, _ => 0
  | steps + 1, n => if n = 0 then 0 else bitLength steps (n / 2) + 1

/-- The float64 nearest to the rational `n / d` (`d` positive), ties going to the
even significand: the significand is the 53-bit integer nearest to
`n / (d * 2 ^ exp)`.  This is how a decimal such as `349.94` is read (`n = 34994`,
`d = 100`) and how every arithmetic result is rounded. -/
def Float64.round (n d : Nat) : Float64 :=
  if n = 0 then ⟨0, 0⟩
  else
    let e0 : Int := (bitLength n n : Int) - (bitLength d d : Int) - 53
    let q0 := (n * 2 ^ (-e0).toNat) / (d * 2 ^ e0.toNat)
    let e : Int := if q0 < 2 ^ 53 then e0 else e0 + 1
    let num := n * 2 ^ (-e).toNat
    let den := d * 2 ^ e.toNat
    let q := num / den
    let r := num % den
    if den < 2 * r ∨ (2 * r = den ∧ q % 2 = 1) then ⟨(q + 1 : Nat), e⟩ else ⟨(q : Nat), e⟩

/-- The float64 nearest to the exact value `m * 2 ^ e`. -/
def Float64.ofExact (m e : Int) : Float64 :=
  let r := Float64.round (m.natAbs * 2 ^ e.toNat) (2 ^ (-e).toNat)
  if m < 0 then ⟨-r.mant, r.exp⟩ else r

/-- The float64 sum `x + y`: the exact sum, rounded. -/
def Float64.add (x y : Float64) : Float64 :=
  let e := min x.exp y.exp
  Float64.ofExact (x.mant * 2 ^ (x.exp - e).toNat + y.mant * 2 ^ (y.exp - e).toNat) e

/-- The float64 difference `x - y`: the exact difference, rounded. -/
def Float64.sub (x y : Float64) : Float64 :=
  Float64.add x ⟨-y.mant, y.exp⟩

/-- The float64 comparison `x < y`, which is exact. -/
def Float64.lt (x y : Float64) : Bool :=
  let e := min x.exp y.exp
  decide (x.mant * 2 ^ (x.exp - e).toNat < y.mant * 2 ^ (y.exp - e).toNat)

/-- The balance row `(current, withdrawn)` of the user under
`BalanceStorage.WithdrawBalance` when no statement fails, in float64: `none` when
`currentBalance < amount` (insufficient funds), otherwise the row after
`UPDATE balances SET current = current - $1, withdrawn = withdrawn + $1`. -/
def withdrawRowFloat64 (current withdrawn amount : Float64) : Option (Float64 × Float64) :=
  let currentBalance := current
  if Float64.lt currentBalance amount then none
  else some (Float64.sub current amount, Float64.add withdrawn amount)


/-- Whether, in one `Get`, the request to `v` follows the request to `u`: the
exchange for `u` gave a redirect that is followed, to the location `v`. -/
def redirectsTo (send : String → Except String RoundTrip) (u v : String) : Bool :=
  match send u with
  | .error _ => false
  | .ok rt => followsRedirect rt && rt.location == v

/-- An accrual system that answers the request for order `18` with a 302 to the
address of order `26`, and every other request with the result of order `26`. -/
def redirectingSend (url : String) : Except String RoundTrip :=
  if url == "http://accrual/api/orders/18" then
    .ok { response := { StatusCode := 302 }, location := "http://accrual/api/orders/26" }
  else
    .ok { response := { StatusCode := 200, decoded := .ok ⟨"26", "PROCESSED", 100⟩ } }


end Gophermart

namespace Gophermart

/-! ## Lemmas on the validator -/

theorem notDigit_eq_false_iff (c : Char) : notDigit c = false ↔ c.isDigit = true := by
  have h0 : '0'.toNat = 48 := rfl
  have h9 : '9'.toNat = 57 := rfl
  have e1 : (c.val ≥ 48) ↔ (48 ≤ c.toNat) := Iff.rfl
  have e2 : (c.val ≤ 57) ↔ (c.toNat ≤ 57) := Iff.rfl
  unfold notDigit Char.isDigit
  rw [h0, h9]
  simp only [Bool.or_eq_false_iff, decide_eq_false_iff_not, Bool.and_eq_true, decide_eq_true_eq,
    e1, e2]
  omega

theorem utf8Size_of_isDigit (c : Char) (h : c.isDigit = true) : c.utf8Size = 1 := by
  have e1 : (c.val ≥ 48) ↔ (48 ≤ c.toNat) := Iff.rfl
  have e2 : (c.val ≤ 57) ↔ (c.toNat ≤ 57) := Iff.rfl
  have e3 : (c.val ≤ UInt32.ofNatCore 127 (by decide)) ↔ (c.toNat ≤ 127) := Iff.rfl
  unfold Char.isDigit at h
  simp only [Bool.and_eq_true, decide_eq_true_eq, e1, e2] at h
  unfold Char.utf8Size
  rw [if_pos (e3.mpr (by omega))]

theorem utf8ByteSize_go_of_digits (l : List Char) (h : ∀ c ∈ l, c.isDigit = true) :
    String.utf8ByteSize.go l = l.length := by
  induction l with
  | nil => rfl
  | cons c cs ih =>
    have hc := utf8Size_of_isDigit c (h c (List.mem_cons_self _ _))
    have hcs := ih (fun x hx => h x (List.mem_cons_of_mem _ hx))
    show String.utf8ByteSize.go cs + c.utf8Size = cs.length + 1
    rw [hc, hcs]

theorem utf8ByteSize_of_digits (l : List Char) (h : ∀ c ∈ l, c.isDigit = true) :
    (String.mk l).utf8ByteSize = l.length := by
  show String.utf8ByteSize.go l = l.length
  exact utf8ByteSize_go_of_digits l h

theorem atoiByte_of_isDigit (c : Char) (h : c.isDigit = true) :
    atoiByte c = specDigitValue c ∧ specDigitValue c ≤ 9 := by
  have hn := (notDigit_eq_false_iff c).mpr h
  have e1 : (c.val ≥ 48) ↔ (48 ≤ c.toNat) := Iff.rfl
  have e2 : (c.val ≤ 57) ↔ (c.toNat ≤ 57) := Iff.rfl
  have h0 : '0'.toNat = 48 := rfl
  unfold Char.isDigit at h
  simp only [Bool.and_eq_true, decide_eq_true_eq, e1, e2] at h
  unfold atoiByte specDigitValue
  rw [hn, h0]
  simp only [Bool.false_eq_true, if_false, true_and]
  omega

/-- The loop adds, to the running `sum`, the specification's terms of the digits
still to be visited, the parity of the position being tracked by `alternate`. -/
theorem luhnLoop_eq (l : List Char) (h : ∀ c ∈ l, c.isDigit = true) :
    ∀ (sum : Nat) (alternate : Bool) (k : Nat), k % 2 = (if alternate then 1 else 0) →
      luhnLoop l sum alternate =
        sum + (((l.map specDigitValue).enumFrom k).map (fun p => specLuhnTerm p.1 p.2)).sum := by
  induction l with
  | nil => intro sum alternate k _; simp [luhnLoop]
  | cons c cs ih =>
    intro sum alternate k hk
    obtain ⟨hv, hle⟩ := atoiByte_of_isDigit c (h c (List.mem_cons_self _ _))
    have hcs : ∀ x ∈ cs, x.isDigit = true := fun x hx => h x (List.mem_cons_of_mem _ hx)
    have hk1 : (k + 1) % 2 = (if (!alternate) then 1 else 0) := by
      cases alternate <;> simp at hk ⊢ <;> omega
    simp only [luhnLoop, List.map_cons, List.enumFrom_cons, List.sum_cons]
    rw [ih hcs _ _ (k + 1) hk1, hv]
    have hterm : (if alternate = true then
          (if specDigitValue c * 2 > 9 then specDigitValue c * 2 % 10 + specDigitValue c * 2 / 10
            else specDigitValue c * 2)
        else specDigitValue c) = specLuhnTerm k (specDigitValue c) := by
      unfold specLuhnTerm
      cases alternate
      · simp only [Bool.false_eq_true, if_false] at hk ⊢
        rw [if_neg (by omega)]
      · simp only [if_true] at hk ⊢
        rw [if_pos hk]
        split <;> omega
    rw [hterm]
    omega

theorem luhnLoop_eq_specLuhnSum (t : List Char) (h : ∀ c ∈ t, c.isDigit = true) :
    luhnLoop t.reverse 0 false = specLuhnSum (t.map specDigitValue) := by
  have hr : ∀ c ∈ t.reverse, c.isDigit = true := fun c hc => h c (List.mem_reverse.mp hc)
  rw [luhnLoop_eq t.reverse hr 0 false 0 (by simp)]
  simp [specLuhnSum, List.enum, List.map_reverse]

theorem validateOrderNumber_iff (s : String) :
    validateOrderNumber s = true ↔ SpecLuhnValid (s.data.filter (fun c => c != ' ')) := by
  unfold validateOrderNumber replaceAllSpaces SpecLuhnValid
  generalize s.data.filter (fun c => c != ' ') = t
  by_cases hd : ∀ c ∈ t, c.isDigit = true
  · have hany : t.any notDigit = false := by
      rw [List.any_eq_false]
      intro c hc
      simp [(notDigit_eq_false_iff c).mpr (hd c hc)]
    simp only [hany, utf8ByteSize_of_digits t hd, luhnLoop_eq_specLuhnSum t hd]
    by_cases hlen : t.length < 2
    · simp [hlen]
    · have h2 : 2 ≤ t.length := by omega
      simp only [hlen, h2, if_false, Bool.false_eq_true, beq_iff_eq, true_and]
      exact ⟨fun h => ⟨hd, h⟩, fun h => h.2⟩
  · have hany : t.any notDigit = true := by
      rw [List.any_eq_true]
      push_neg at hd
      obtain ⟨c, hc, hcd⟩ := hd
      refine ⟨c, hc, ?_⟩
      cases hnd : notDigit c
      · exact absurd ((notDigit_eq_false_iff c).mp hnd) hcd
      · rfl
    simp only [hany]
    constructor
    · intro h
      split at h <;> simp at h
    · rintro ⟨_, h, _⟩
      exact absurd h hd

/-! ## Lemmas on the ledger store -/

theorem find?_map_update (l : List BalanceRow) (u v : Int) (g : BalanceRow → BalanceRow)
    (hg : ∀ r, (g r).userID = r.userID) :
    (l.map (fun r => if r.userID == u then g r else r)).find? (fun r => r.userID == v) =
      (l.find? (fun r => r.userID == v)).map (fun r => if r.userID == u then g r else r) := by
  induction l with
  | nil => rfl
  | cons r rs ih =>
    simp only [List.map_cons, List.find?_cons]
    have hid : (if r.userID == u then g r else r).userID = r.userID := by
      split
      · exact hg r
      · rfl
    rw [hid]
    cases hv : (r.userID == v)
    · simpa using ih
    · simp

theorem selectBalance_userID {db : Database} {u : Int} {row : BalanceRow}
    (h : db.selectBalance u = some row) : row.userID = u := by
  have := List.find?_some h
  simpa using this

theorem balanceOf_eq_some {db : Database} {u : Int} {c w : ℚ}
    (h : db.balanceOf u = some ⟨c, w⟩) :
    ∃ row, db.selectBalance u = some row ∧ row.current = c ∧ row.withdrawn = w := by
  unfold Database.balanceOf at h
  cases hs : db.selectBalance u with
  | none => simp [hs] at h
  | some row =>
    simp only [hs, Option.map_some', Option.some.injEq, BalanceResponse.mk.injEq] at h
    exact ⟨row, rfl, h.1, h.2⟩

theorem balanceOf_credit (db : Database) (u v : Int) (x : ℚ) :
    (db.credit u x).balanceOf v =
      (db.balanceOf v).map (fun b => if v = u then ⟨b.Current + x, b.Withdrawn⟩ else b) := by
  unfold Database.balanceOf Database.selectBalance Database.credit
  simp only
  rw [find?_map_update db.balances u v (fun r => { r with current := r.current + x })
    (fun _ => rfl)]
  cases hs : db.balances.find? (fun r => r.userID == v) with
  | none => rfl
  | some row =>
    have hid : row.userID = v := by simpa using List.find?_some hs
    by_cases huv : v = u
    · subst huv; simp [hid]
    · have : ¬ row.userID = u := by rw [hid]; exact huv
      simp [huv, this]

theorem balanceOf_debit (db : Database) (u v : Int) (x : ℚ) :
    (db.debit u x).balanceOf v =
      (db.balanceOf v).map (fun b => if v = u then ⟨b.Current - x, b.Withdrawn + x⟩ else b) := by
  unfold Database.balanceOf Database.selectBalance Database.debit
  simp only
  rw [find?_map_update db.balances u v
    (fun r => { r with current := r.current - x, withdrawn := r.withdrawn + x }) (fun _ => rfl)]
  cases hs : db.balances.find? (fun r => r.userID == v) with
  | none => rfl
  | some row =>
    have hid : row.userID = v := by simpa using List.find?_some hs
    by_cases huv : v = u
    · subst huv; simp [hid]
    · have : ¬ row.userID = u := by rw [hid]; exact huv
      simp [huv, this]

theorem balanceOf_record (db : Database) (u v : Int) (n : String) (x : ℚ) :
    (db.record u n x).balanceOf v = db.balanceOf v := rfl

theorem credit_of_no_row (db : Database) (u : Int) (x : ℚ) (h : db.selectBalance u = none) :
    db.credit u x = db ∧ (db.balances.filter (fun r => r.userID == u)).length = 0 := by
  unfold Database.selectBalance at h
  rw [List.find?_eq_none] at h
  constructor
  · unfold Database.credit
    have : db.balances.map (fun r =>
        if r.userID == u then { r with current := r.current + x } else r) = db.balances := by
      conv_rhs => rw [← List.map_id db.balances]
      apply List.map_congr_left
      intro r hr
      have := h r hr
      simp at this
      simp [this]
    rw [this]
  · rw [List.length_eq_zero, List.filter_eq_nil_iff]
    exact h

theorem filter_length_pos_of_row (db : Database) (u : Int) (row : BalanceRow)
    (h : db.selectBalance u = some row) :
    (db.balances.filter (fun r => r.userID == u)).length ≠ 0 := by
  unfold Database.selectBalance at h
  have hmem := List.mem_of_find?_eq_some h
  have hp := List.find?_some h
  intro h0
  rw [List.length_eq_zero, List.filter_eq_nil_iff] at h0
  exact h0 row hmem hp

/-- `BalanceStorage.UpdateBalance` leaves the database as it was or credited. -/
theorem updateBalance_db (f : ExecFaults) (db : Database) (u : Int) (x : ℚ) :
    (BalanceStorage.UpdateBalance f db u x).2 = db ∨
      (BalanceStorage.UpdateBalance f db u x).2 = db.credit u x := by
  unfold BalanceStorage.UpdateBalance
  cases f.exec with
  | some e => exact Or.inl rfl
  | none =>
    right
    cases f.rowsAffected with
    | some e => rfl
    | none =>
      simp only
      split <;> rfl

/-- `BalanceStorage.UpdateBalance` when no statement fails. -/
theorem updateBalance_noFault (db : Database) (u : Int) (x : ℚ) :
    BalanceStorage.UpdateBalance {} db u x =
      (if (db.balances.filter (fun r => r.userID == u)).length == 0
        then some "balance not found" else none, db.credit u x) := by
  unfold BalanceStorage.UpdateBalance Database.credit
  simp only
  split <;> rfl

/-- `BalanceStorage.WithdrawBalance` either fails and leaves the database as it
was, or finds a row with enough funds and debits it. -/
theorem storage_withdraw_cases (f : TxFaults) (db : Database) (u : Int) (a : ℚ) :
    (∃ e, BalanceStorage.WithdrawBalance f db u a = (some e, db)) ∨
      (∃ row, db.selectBalance u = some row ∧ ¬ row.current < a ∧
        BalanceStorage.WithdrawBalance f db u a = (none, db.debit u a)) := by
  unfold BalanceStorage.WithdrawBalance
  cases f.begin with
  | some e => exact Or.inl ⟨_, rfl⟩
  | none =>
    cases f.select with
    | some e => exact Or.inl ⟨_, rfl⟩
    | none =>
      cases hs : db.selectBalance u with
      | none => exact Or.inl ⟨_, rfl⟩
      | some row =>
        simp only
        by_cases hlt : row.current < a
        · rw [if_pos hlt]; exact Or.inl ⟨_, rfl⟩
        · rw [if_neg hlt]
          cases f.update with
          | some e => exact Or.inl ⟨_, rfl⟩
          | none =>
            cases f.commit with
            | some e => exact Or.inl ⟨_, rfl⟩
            | none => exact Or.inr ⟨row, rfl, hlt, rfl⟩

/-- `BalanceStorage.WithdrawBalance` when no statement fails. -/
theorem storage_withdraw_noFault (db : Database) (u : Int) (a : ℚ) (row : BalanceRow)
    (h : db.selectBalance u = some row) :
    BalanceStorage.WithdrawBalance {} db u a =
      if row.current < a then (some "insufficient funds", db) else (none, db.debit u a) := by
  unfold BalanceStorage.WithdrawBalance
  simp only [h]
  split <;> rfl

/-! ## Lemmas on the ledger service -/

theorem service_withdraw_invalid (fw : TxFaults) (fc : Option String) (db : Database)
    (u : Int) (n : String) (a : ℚ) (h : validateOrderNumber n = false) :
    Service.WithdrawBalance fw fc db u n a = (some "invalid order number format", db) := by
  unfold Service.WithdrawBalance
  simp [h]

/-- The outcomes of `Service.WithdrawBalance`: an error with the database as it
was; success with the debit and the record; or the record failing after the debit. -/
theorem service_withdraw_cases (fw : TxFaults) (fc : Option String) (db : Database)
    (u : Int) (n : String) (a : ℚ) :
    (∃ e, Service.WithdrawBalance fw fc db u n a = (some e, db)) ∨
      (∃ row, db.selectBalance u = some row ∧ ¬ row.current < a ∧
        ((fc = none ∧
            Service.WithdrawBalance fw fc db u n a = (none, (db.debit u a).record u n a)) ∨
          (∃ x, fc = some x ∧ Service.WithdrawBalance fw fc db u n a =
            (some ("failed to create withdrawal record: " ++ ("failed to create withdrawal: " ++ x)),
              db.debit u a)))) := by
  cases hv : validateOrderNumber n with
  | false => exact Or.inl ⟨_, service_withdraw_invalid fw fc db u n a hv⟩
  | true =>
    unfold Service.WithdrawBalance
    simp only [hv, Bool.not_true, Bool.false_eq_true, if_false]
    rcases storage_withdraw_cases fw db u a with ⟨e, he⟩ | ⟨row, hrow, hlt, hw⟩
    · rw [he]; exact Or.inl ⟨_, rfl⟩
    · rw [hw]
      refine Or.inr ⟨row, hrow, hlt, ?_⟩
      cases fc with
      | none => exact Or.inl ⟨rfl, rfl⟩
      | some x => exact Or.inr ⟨x, rfl, rfl⟩

/-- `Service.WithdrawBalance` when no statement fails. -/
theorem service_withdraw_noFault (db : Database) (u : Int) (n : String) (a : ℚ)
    (row : BalanceRow) (hv : validateOrderNumber n = true) (h : db.selectBalance u = some row) :
    Service.WithdrawBalance {} none db u n a =
      if row.current < a then (some "insufficient funds", db)
      else (none, (db.debit u a).record u n a) := by
  unfold Service.WithdrawBalance
  simp only [hv, Bool.not_true, Bool.false_eq_true, if_false, storage_withdraw_noFault db u a row h]
  by_cases hlt : row.current < a
  · simp only [if_pos hlt]
  · simp only [if_neg hlt]
    rfl

/-! ## The validator: claims C1 to C3 -/

/-- C1, as stated, fails: with a trailing tab the string `18` followed by a tab
satisfies the rule once whitespace is stripped, yet `ValidateOrderNumber`
rejects it, because only U+0020 is removed. -/
theorem validateOrderNumber_tab_counterexample :
    ¬ (ValidateOrderNumber "18\t" = true ↔ SpecValidWhitespace "18\t") := by
  have h1 : ValidateOrderNumber "18\t" = false := by decide
  have h2 : SpecValidWhitespace "18\t" := by
    unfold SpecValidWhitespace SpecLuhnValid
    decide
  intro h
  rw [h.mpr h2] at h1
  exact Bool.noConfusion h1

/-- C1 (amended): for every string `s`, `ValidateOrderNumber s` is true exactly
when `s` with its space characters (U+0020) removed has at least 2 characters,
consists only of decimal digits, and its standard Luhn sum (right to left, every
second digit doubled, `d*2 - 9` when `d*2 > 9`) is divisible by 10. -/
theorem validateOrderNumber_iff_luhn (s : String) :
    ValidateOrderNumber s = true ↔ SpecValidSpaces s :=
  validateOrderNumber_iff s

/-- C2: the validator accepts `12345678903`, `9278923470` and `2377225624`, and
rejects `1234567890`, the empty string, `abc123`, `1` and `123`. -/
theorem validateOrderNumber_examples :
    ValidateOrderNumber "12345678903" = true ∧
    ValidateOrderNumber "9278923470" = true ∧
    ValidateOrderNumber "2377225624" = true ∧
    ValidateOrderNumber "1234567890" = false ∧
    ValidateOrderNumber "" = false ∧
    ValidateOrderNumber "abc123" = false ∧
    ValidateOrderNumber "1" = false ∧
    ValidateOrderNumber "123" = false := by
  refine ⟨?_, ?_, ?_, ?_, ?_, ?_, ?_, ?_⟩ <;> decide

/-- C3, as stated, fails: `18` is a digit string and a tab is whitespace, but
putting a tab in front of `18` turns an accepted number into a rejected one. -/
theorem whitespace_invariance_counterexample :
    IsDigitString "18" ∧ IsWhitespaceString "\t" ∧ IsWhitespaceString "" ∧
      ValidateOrderNumber ("\t" ++ "18" ++ "") ≠ ValidateOrderNumber "18" := by
  refine ⟨?_, ?_, ?_, ?_⟩
  · unfold IsDigitString; decide
  · unfold IsWhitespaceString; decide
  · unfold IsWhitespaceString; decide
  · decide

/-- C3 (amended): for every digit string `d` and strings `p`, `q` made only of
space characters (U+0020), `ValidateOrderNumber (p ++ d ++ q)` equals
`ValidateOrderNumber d`. -/
theorem validateOrderNumber_space_invariant (d p q : String) (_hd : IsDigitString d)
    (hp : IsSpaceString p) (hq : IsSpaceString q) :
    ValidateOrderNumber (p ++ d ++ q) = ValidateOrderNumber d := by
  have hfp : p.data.filter (fun c => c != ' ') = [] := by
    rw [List.filter_eq_nil_iff]
    intro c hc
    simp [hp c hc]
  have hfq : q.data.filter (fun c => c != ' ') = [] := by
    rw [List.filter_eq_nil_iff]
    intro c hc
    simp [hq c hc]
  have hr : replaceAllSpaces (p ++ d ++ q) = replaceAllSpaces d := by
    unfold replaceAllSpaces
    rw [String.data_append, String.data_append, List.filter_append, List.filter_append, hfp, hfq]
    simp
  unfold ValidateOrderNumber validateOrderNumber
  rw [hr]

/-- Witness for C3 (amended): two spaces before and one after `18`. -/
theorem validateOrderNumber_space_invariant_witness :
    ValidateOrderNumber ("  " ++ "18" ++ " ") = ValidateOrderNumber "18" :=
  validateOrderNumber_space_invariant "18" "  " " "
    (by unfold IsDigitString; decide) (by unfold IsSpaceString; decide)
    (by unfold IsSpaceString; decide)

/-! ## Withdrawals: claims C5 to C8 -/

/-- C5: for a user with balance `{c, w}`, a Luhn-valid order number `n` and an
amount `0 < a ≤ c`, `Service.WithdrawBalance` (no store failure) succeeds, leaves
the balance at `{c - a, w + a}` and appends exactly the record `(user, n, a)` to
the withdrawal records, the existing ones being unchanged; in particular
withdrawing 400 from `{500, 0}` gives `{100, 400}`. -/
theorem withdraw_debits_and_records (db : Database) (u : Int) (n : String) (a c w : ℚ)
    (hbal : db.balanceOf u = some ⟨c, w⟩) (hvalid : ValidateOrderNumber n = true)
    (_hpos : 0 < a) (hle : a ≤ c) :
    (Service.WithdrawBalance {} none db u n a).1 = none ∧
    (Service.WithdrawBalance {} none db u n a).2.balanceOf u = some ⟨c - a, w + a⟩ ∧
    (Service.WithdrawBalance {} none db u n a).2.withdrawals = db.withdrawals ++ [⟨u, n, a⟩] ∧
    (c = 500 → w = 0 → a = 400 →
      (Service.WithdrawBalance {} none db u n a).2.balanceOf u = some ⟨100, 400⟩) := by
  obtain ⟨row, hrow, hc, hw⟩ := balanceOf_eq_some hbal
  have hnlt : ¬ row.current < a := by rw [hc]; exact not_lt.mpr hle
  have hres := service_withdraw_noFault db u n a row hvalid hrow
  rw [if_neg hnlt] at hres
  have hb : (Service.WithdrawBalance {} none db u n a).2.balanceOf u = some ⟨c - a, w + a⟩ := by
    rw [hres]
    show ((db.debit u a).record u n a).balanceOf u = _
    rw [balanceOf_record, balanceOf_debit, hbal]
    simp
  refine ⟨by rw [hres], hb, by rw [hres]; rfl, ?_⟩
  intro h1 h2 h3
  rw [hb, h1, h2, h3]
  norm_num

/-- Witness for C5: user 1 holds `{500, 0}` and withdraws 400 against the order
number `2377225624`. -/
theorem withdraw_debits_and_records_witness :
    (Service.WithdrawBalance {} none { balances := [⟨1, 500, 0⟩] } 1 "2377225624" 400).1 = none ∧
    (Service.WithdrawBalance {} none { balances := [⟨1, 500, 0⟩] } 1 "2377225624" 400).2.balanceOf 1
      = some ⟨100, 400⟩ ∧
    (Service.WithdrawBalance {} none { balances := [⟨1, 500, 0⟩] } 1 "2377225624" 400).2.withdrawals
      = [⟨1, "2377225624", 400⟩] := by
  have h := withdraw_debits_and_records { balances := [⟨1, 500, 0⟩] } 1 "2377225624" 400 500 0
    rfl (by decide) (by norm_num) (by norm_num)
  exact ⟨h.1, h.2.2.2 rfl rfl rfl, h.2.2.1⟩

theorem record_error_ne_insufficient (x : String) :
    "failed to create withdrawal record: " ++ x ≠ "insufficient funds" := by
  intro h
  have hl := congrArg String.length h
  rw [String.length_append] at hl
  have h1 : "failed to create withdrawal record: ".length = 36 := by decide
  have h2 : "insufficient funds".length = 18 := by decide
  omega

/-- C6: for a Luhn-valid order number and a user that has a balance row
`{c, w}`, `Service.WithdrawBalance` (no store failure) fails with
"insufficient funds" if and only if `c < amount`, so that `amount = c` succeeds;
and whenever it fails with that error (whatever the store does) the database,
hence the balance and the withdrawal records, is unchanged. -/
theorem insufficient_funds_iff (db : Database) (u : Int) (n : String) (a c w : ℚ)
    (hbal : db.balanceOf u = some ⟨c, w⟩) (hvalid : ValidateOrderNumber n = true) :
    ((Service.WithdrawBalance {} none db u n a).1 = some "insufficient funds" ↔ c < a) ∧
    (a = c → (Service.WithdrawBalance {} none db u n a).1 = none) ∧
    (c < a → Service.WithdrawBalance {} none db u n a = (some "insufficient funds", db)) ∧
    (∀ fw fc, (Service.WithdrawBalance fw fc db u n a).1 = some "insufficient funds" →
      (Service.WithdrawBalance fw fc db u n a).2 = db) := by
  obtain ⟨row, hrow, hc, _⟩ := balanceOf_eq_some hbal
  have hres := service_withdraw_noFault db u n a row hvalid hrow
  rw [hc] at hres
  refine ⟨?_, ?_, ?_, ?_⟩
  · by_cases hlt : c < a
    · rw [hres, if_pos hlt]; simp [hlt]
    · rw [hres, if_neg hlt]; simp [hlt]
  · intro hac
    have hlt : ¬ c < a := by rw [hac]; exact lt_irrefl c
    rw [hres, if_neg hlt]
  · intro hlt
    rw [hres, if_pos hlt]
  · intro fw fc herr
    rcases service_withdraw_cases fw fc db u n a with ⟨e, he⟩ | ⟨r, _, _, ⟨_, hok⟩ | ⟨x, _, hx⟩⟩
    · rw [he]
    · rw [hok] at herr
      exact absurd herr (by simp)
    · rw [hx] at herr
      simp only [Option.some.injEq] at herr
      exact absurd herr (record_error_ne_insufficient _)

/-- Witness for C6: user 1 holds `{500, 0}`; withdrawing 600 fails with
"insufficient funds" and changes nothing, withdrawing 500 succeeds. -/
theorem insufficient_funds_iff_witness :
    Service.WithdrawBalance {} none { balances := [⟨1, 500, 0⟩] } 1 "2377225624" 600
      = (some "insufficient funds", { balances := [⟨1, 500, 0⟩] }) ∧
    (Service.WithdrawBalance {} none { balances := [⟨1, 500, 0⟩] } 1 "2377225624" 500).1
      = none :=
  ⟨(insufficient_funds_iff { balances := [⟨1, 500, 0⟩] } 1 "2377225624" 600 500 0 rfl
      (by decide)).2.2.1 (by norm_num),
   (insufficient_funds_iff { balances := [⟨1, 500, 0⟩] } 1 "2377225624" 500 500 0 rfl
      (by decide)).2.1 rfl⟩

/-- The record failing after the debit: the error is returned and the debit stays. -/
theorem service_withdraw_record_fails (db : Database) (u : Int) (n : String) (a : ℚ)
    (row : BalanceRow) (x : String) (hv : validateOrderNumber n = true)
    (h : db.selectBalance u = some row) (hlt : ¬ row.current < a) :
    Service.WithdrawBalance {} (some x) db u n a =
      (some ("failed to create withdrawal record: " ++ ("failed to create withdrawal: " ++ x)),
        db.debit u a) := by
  unfold Service.WithdrawBalance
  simp only [hv, Bool.not_true, Bool.false_eq_true, if_false,
    storage_withdraw_noFault db u a row h, if_neg hlt]
  rfl

/-- C7, as stated, fails: user 1 holds `{500, 0}` and withdraws 400; the debit
commits, the insertion of the withdrawal record fails, an error is returned and
the balance is `{100, 400}`. -/
theorem withdraw_error_after_debit_counterexample :
    (Service.WithdrawBalance {} (some "connection lost") { balances := [⟨1, 500, 0⟩] } 1
        "2377225624" 400).1
      = some "failed to create withdrawal record: failed to create withdrawal: connection lost" ∧
    (Service.WithdrawBalance {} (some "connection lost") { balances := [⟨1, 500, 0⟩] } 1
        "2377225624" 400).2.balanceOf 1 = some ⟨100, 400⟩ ∧
    (Service.WithdrawBalance {} (some "connection lost") { balances := [⟨1, 500, 0⟩] } 1
        "2377225624" 400).2.balanceOf 1
      ≠ Database.balanceOf { balances := [⟨1, 500, 0⟩] } 1 := by
  have hres := service_withdraw_record_fails { balances := [⟨1, 500, 0⟩] } 1 "2377225624" 400
    ⟨1, 500, 0⟩ "connection lost" (by decide) rfl (by norm_num)
  have hb : (Database.debit { balances := [⟨1, 500, 0⟩] } 1 400).balanceOf 1
      = some ⟨100, 400⟩ := by
    rw [balanceOf_debit]
    show some (⟨500 - 400, 0 + 400⟩ : BalanceResponse) = some ⟨100, 400⟩
    norm_num
  refine ⟨?_, ?_, ?_⟩
  · rw [hres]; decide
  · rw [hres]; exact hb
  · rw [hres]
    show (Database.debit { balances := [⟨1, 500, 0⟩] } 1 400).balanceOf 1 ≠ some ⟨500, 0⟩
    rw [hb]
    intro h
    simp only [Option.some.injEq, BalanceResponse.mk.injEq] at h
    norm_num at h

/-- C7 (amended): whenever `Service.WithdrawBalance` returns an error other than
the failure to record the withdrawal ("failed to create withdrawal record: ..."),
the database, and so the user's balance (current and withdrawn), is the same as
before the call. -/
theorem withdraw_error_keeps_balance (fw : TxFaults) (fc : Option String) (db : Database)
    (u : Int) (n : String) (a : ℚ) (e : String)
    (herr : (Service.WithdrawBalance fw fc db u n a).1 = some e)
    (hnot : ∀ x, e ≠ "failed to create withdrawal record: " ++ x) :
    (Service.WithdrawBalance fw fc db u n a).2 = db ∧
    (Service.WithdrawBalance fw fc db u n a).2.balanceOf u = db.balanceOf u := by
  have hdb : (Service.WithdrawBalance fw fc db u n a).2 = db := by
    rcases service_withdraw_cases fw fc db u n a with ⟨e', he⟩ | ⟨r, _, _, ⟨_, hok⟩ | ⟨x, _, hx⟩⟩
    · rw [he]
    · rw [hok] at herr
      exact absurd herr (by simp)
    · rw [hx] at herr
      simp only [Option.some.injEq] at herr
      exact absurd herr.symm (hnot _)
  exact ⟨hdb, by rw [hdb]⟩

/-- Witness for C7 (amended): the update statement of the debit transaction fails;
the error is returned and the balance `{500, 0}` of user 1 stays. -/
theorem withdraw_error_keeps_balance_witness :
    (Service.WithdrawBalance { update := some "deadlock" } none { balances := [⟨1, 500, 0⟩] } 1
        "2377225624" 400).2 = { balances := [⟨1, 500, 0⟩] } :=
  (withdraw_error_keeps_balance { update := some "deadlock" } none { balances := [⟨1, 500, 0⟩] }
    1 "2377225624" 400 "failed to update balance: deadlock"
    (by
      have hv : validateOrderNumber "2377225624" = true := by decide
      have hs : Database.selectBalance { balances := [⟨1, 500, 0⟩] } 1 = some ⟨1, 500, 0⟩ := rfl
      have hlt : ¬ ((500 : ℚ) < 400) := by norm_num
      unfold Service.WithdrawBalance BalanceStorage.WithdrawBalance
      simp only [hv, hs, Bool.not_true, Bool.false_eq_true, if_false, if_neg hlt]
      rfl)
    (by
      intro x h
      have hl := congrArg String.length h
      rw [String.length_append] at hl
      have h1 : "failed to create withdrawal record: ".length = 36 := by decide
      have h2 : "failed to update balance: deadlock".length = 34 := by decide
      omega)).1

/-- C8: for every order number that is not Luhn-valid, `Service.WithdrawBalance`
fails with "invalid order number format" whatever the amount, the balance and the
store do, and leaves the database (balances and withdrawal records) unchanged. -/
theorem withdraw_invalid_number (fw : TxFaults) (fc : Option String) (db : Database)
    (u : Int) (n : String) (a : ℚ) (hinvalid : ValidateOrderNumber n = false) :
    Service.WithdrawBalance fw fc db u n a = (some "invalid order number format", db) ∧
    (Service.WithdrawBalance fw fc db u n a).2.balanceOf u = db.balanceOf u ∧
    (Service.WithdrawBalance fw fc db u n a).2.withdrawals = db.withdrawals := by
  have h := service_withdraw_invalid fw fc db u n a hinvalid
  rw [h]
  exact ⟨rfl, rfl, rfl⟩

/-- Witness for C8: user 1 holds `{0, 0}` and asks for 100 against `1234567890`:
the format error wins over the lack of funds. -/
theorem withdraw_invalid_number_witness :
    Service.WithdrawBalance {} none { balances := [⟨1, 0, 0⟩] } 1 "1234567890" 100
      = (some "invalid order number format", { balances := [⟨1, 0, 0⟩] }) :=
  (withdraw_invalid_number {} none { balances := [⟨1, 0, 0⟩] } 1 "1234567890" 100
    (by decide)).1

/-! ## Non-positive amounts: claim C9 -/

/-- C9, as stated, fails: `Service.WithdrawBalance` has no check of the sign of the
amount.  User 1 holds `{0, 0}` and withdraws `-5` against a Luhn-valid number:
no error is returned, the balance becomes `{5, -5}` and a record is appended. -/
theorem withdraw_negative_amount_counterexample :
    (-5 : ℚ) ≤ 0 ∧ ValidateOrderNumber "2377225624" = true ∧
    (Service.WithdrawBalance {} none { balances := [⟨1, 0, 0⟩] } 1 "2377225624" (-5)).1 = none ∧
    (Service.WithdrawBalance {} none { balances := [⟨1, 0, 0⟩] } 1 "2377225624" (-5)).2.balanceOf 1
      = some ⟨5, -5⟩ ∧
    (Service.WithdrawBalance {} none { balances := [⟨1, 0, 0⟩] } 1 "2377225624" (-5)).2.withdrawals
      = [⟨1, "2377225624", -5⟩] := by
  have hres := service_withdraw_noFault { balances := [⟨1, 0, 0⟩] } 1 "2377225624" (-5)
    ⟨1, 0, 0⟩ (by decide) rfl
  rw [if_neg (by norm_num)] at hres
  refine ⟨by norm_num, by decide, by rw [hres], ?_, by rw [hres]; rfl⟩
  rw [hres]
  show ((Database.debit { balances := [⟨1, 0, 0⟩] } 1 (-5)).record 1 "2377225624" (-5)).balanceOf 1
    = some ⟨5, -5⟩
  rw [balanceOf_record, balanceOf_debit]
  show some (⟨0 - (-5), 0 + (-5)⟩ : BalanceResponse) = some ⟨5, -5⟩
  norm_num

/-- C9 (amended): the withdraw handler rejects every request whose sum is `<= 0`:
whatever the method, the authentication and the store are, the database (balance
and withdrawal records) is unchanged and the status is not 200; for an
authenticated POST the answer is HTTP 400, given before the service is called. -/
theorem handler_rejects_nonpositive_sum (fw : TxFaults) (fc : Option String) (db : Database)
    (req : WithdrawRequest) (hsum : req.Sum ≤ 0) :
    (∀ u, Handlers.WithdrawBalance fw fc db "POST" (some u) (some req) = (400, db)) ∧
    (∀ method ctx, (Handlers.WithdrawBalance fw fc db method ctx (some req)).2 = db ∧
      (Handlers.WithdrawBalance fw fc db method ctx (some req)).1 ≠ 200) := by
  constructor
  · intro u
    unfold Handlers.WithdrawBalance
    simp [hsum]
  · intro method ctx
    unfold Handlers.WithdrawBalance
    by_cases hm : (method != "POST") = true
    · simp [hm]
    · cases ctx with
      | none => simp [hm]
      | some u => simp [hm, hsum]

/-- Witness for C9 (amended): the request `{order: 2377225624, sum: -5}` of user 1,
who holds `{0, 0}`, is answered 400 and nothing changes. -/
theorem handler_rejects_nonpositive_sum_witness :
    Handlers.WithdrawBalance {} none { balances := [⟨1, 0, 0⟩] } "POST" (some 1)
      (some ⟨"2377225624", -5⟩) = (400, { balances := [⟨1, 0, 0⟩] }) :=
  (handler_rejects_nonpositive_sum {} none { balances := [⟨1, 0, 0⟩] } ⟨"2377225624", -5⟩
    (by norm_num)).1 1

/-! ## Deposits: claim C10 -/

/-- C10: `BalanceStorage.UpdateBalance(user, amount)` (no store failure) on a user
whose balance row is `{c, w}` returns no error, leaves the row at `{c + amount, w}`
and changes no other user's balance; on a user with no balance row it fails with
"balance not found" and changes nothing. -/
theorem updateBalance_spec (db : Database) (u : Int) (amount : ℚ) :
    (∀ c w, db.balanceOf u = some ⟨c, w⟩ →
      (BalanceStorage.UpdateBalance {} db u amount).1 = none ∧
      (BalanceStorage.UpdateBalance {} db u amount).2.balanceOf u = some ⟨c + amount, w⟩ ∧
      (∀ v, v ≠ u → (BalanceStorage.UpdateBalance {} db u amount).2.balanceOf v = db.balanceOf v) ∧
      (BalanceStorage.UpdateBalance {} db u amount).2.withdrawals = db.withdrawals) ∧
    (db.balanceOf u = none →
      BalanceStorage.UpdateBalance {} db u amount = (some "balance not found", db)) := by
  rw [updateBalance_noFault]
  constructor
  · intro c w hbal
    obtain ⟨row, hrow, _, _⟩ := balanceOf_eq_some hbal
    have hne := filter_length_pos_of_row db u row hrow
    refine ⟨by simp [hne], ?_, ?_, rfl⟩
    · show (db.credit u amount).balanceOf u = _
      rw [balanceOf_credit, hbal]
      simp
    · intro v hv
      show (db.credit u amount).balanceOf v = _
      rw [balanceOf_credit]
      cases db.balanceOf v <;> simp [hv]
  · intro hnone
    have hsel : db.selectBalance u = none := by
      unfold Database.balanceOf at hnone
      cases hs : db.selectBalance u with
      | none => rfl
      | some r => simp [hs] at hnone
    obtain ⟨h1, h2⟩ := credit_of_no_row db u amount hsel
    rw [h1, h2]
    rfl

/-- Witness for C10: user 1 holds `{100, 25}` and user 2 holds `{7, 0}`; crediting
500 to user 1 gives `{600, 25}` and leaves user 2 alone, while crediting user 3,
who has no row, fails with "balance not found". -/
theorem updateBalance_spec_witness :
    ((BalanceStorage.UpdateBalance {} { balances := [⟨1, 100, 25⟩, ⟨2, 7, 0⟩] } 1 500).1 = none ∧
      (BalanceStorage.UpdateBalance {} { balances := [⟨1, 100, 25⟩, ⟨2, 7, 0⟩] } 1 500).2.balanceOf 1
        = some ⟨100 + 500, 25⟩ ∧
      (BalanceStorage.UpdateBalance {} { balances := [⟨1, 100, 25⟩, ⟨2, 7, 0⟩] } 1 500).2.balanceOf 2
        = some ⟨7, 0⟩) ∧
    BalanceStorage.UpdateBalance {} { balances := [⟨1, 100, 25⟩, ⟨2, 7, 0⟩] } 3 500
      = (some "balance not found", { balances := [⟨1, 100, 25⟩, ⟨2, 7, 0⟩] }) := by
  have h1 := (updateBalance_spec { balances := [⟨1, 100, 25⟩, ⟨2, 7, 0⟩] } 1 500).1 100 25 rfl
  have h3 := (updateBalance_spec { balances := [⟨1, 100, 25⟩, ⟨2, 7, 0⟩] } 3 500).2 rfl
  exact ⟨⟨h1.1, h1.2.1, h1.2.2.1 2 (by decide)⟩, h3⟩

/-! ## The balance never goes negative: claim C4 -/

/-- One operation keeps a non-negative `current` non-negative, provided a deposit
carries a positive amount. -/
theorem ledgerOp_keeps_nonneg (u : Int) (db : Database) (op : LedgerOp)
    (hop : ∀ f x, op = LedgerOp.deposit f x → 0 < x)
    (h : ∃ b, db.balanceOf u = some b ∧ 0 ≤ b.Current) :
    ∃ b, (op.run u db).balanceOf u = some b ∧ 0 ≤ b.Current := by
  obtain ⟨b, hb, hnn⟩ := h
  cases op with
  | deposit f x =>
    have hx : 0 < x := hop f x rfl
    show ∃ b, (BalanceStorage.UpdateBalance f db u x).2.balanceOf u = some b ∧ 0 ≤ b.Current
    rcases updateBalance_db f db u x with h1 | h1
    · rw [h1]; exact ⟨b, hb, hnn⟩
    · rw [h1, balanceOf_credit, hb]
      refine ⟨⟨b.Current + x, b.Withdrawn⟩, by simp, ?_⟩
      show 0 ≤ b.Current + x
      linarith
  | withdraw fw fc n a =>
    show ∃ b, (Service.WithdrawBalance fw fc db u n a).2.balanceOf u = some b ∧ 0 ≤ b.Current
    have hdebit : ∀ row, db.selectBalance u = some row → ¬ row.current < a →
        ∃ b', (db.debit u a).balanceOf u = some b' ∧ 0 ≤ b'.Current := by
      intro row hrow hlt
      have hcur : b.Current = row.current := by
        unfold Database.balanceOf at hb
        rw [hrow] at hb
        simp only [Option.map_some', Option.some.injEq] at hb
        rw [← hb]
      rw [balanceOf_debit, hb]
      refine ⟨⟨b.Current - a, b.Withdrawn + a⟩, by simp, ?_⟩
      show 0 ≤ b.Current - a
      rw [hcur]
      linarith [not_lt.mp hlt]
    rcases service_withdraw_cases fw fc db u n a with
      ⟨e, he⟩ | ⟨row, hrow, hlt, ⟨_, hok⟩ | ⟨x, _, hx⟩⟩
    · rw [he]; exact ⟨b, hb, hnn⟩
    · rw [hok]
      show ∃ b, ((db.debit u a).record u n a).balanceOf u = some b ∧ 0 ≤ b.Current
      rw [balanceOf_record]
      exact hdebit row hrow hlt
    · rw [hx]
      exact hdebit row hrow hlt

theorem runOps_keeps_nonneg (u : Int) (ops : List LedgerOp) :
    ∀ db : Database, (∀ f x, LedgerOp.deposit f x ∈ ops → 0 < x) →
      (∃ b, db.balanceOf u = some b ∧ 0 ≤ b.Current) →
      ∃ b, (runOps u db ops).balanceOf u = some b ∧ 0 ≤ b.Current := by
  induction ops with
  | nil => intro db _ h; exact h
  | cons op rest ih =>
    intro db hdep h
    show ∃ b, (runOps u (op.run u db) rest).balanceOf u = some b ∧ 0 ≤ b.Current
    apply ih
    · intro f x hmem
      exact hdep f x (List.mem_cons_of_mem _ hmem)
    · apply ledgerOp_keeps_nonneg u db op _ h
      intro f x hop
      exact hdep f x (hop ▸ List.mem_cons_self _ _)

/-- C4: for every sequence of deposits with amount `> 0` (`UpdateBalance`) and
withdrawals (`Service.WithdrawBalance`, any order number, any amount, any store
failure) applied one after another to a user whose balance starts at `{0, 0}`,
`current` is `>= 0` after every operation: after each prefix of the sequence the
user has a balance whose `current` is non-negative. -/
theorem current_never_negative (db : Database) (u : Int) (ops : List LedgerOp)
    (hstart : db.balanceOf u = some ⟨0, 0⟩)
    (hdep : ∀ f x, LedgerOp.deposit f x ∈ ops → 0 < x) :
    ∀ k, ∃ b, (runOps u db (ops.take k)).balanceOf u = some b ∧ 0 ≤ b.Current := by
  intro k
  apply runOps_keeps_nonneg u (ops.take k) db
  · intro f x hmem
    exact hdep f x (List.mem_of_mem_take hmem)
  · exact ⟨⟨0, 0⟩, hstart, le_refl _⟩

/-- Witness for C4: user 1 starts at `{0, 0}`, is credited 500, withdraws 400,
asks for 200 more and then for `-3`; `current` is non-negative after the second
and after the last operation. -/
theorem current_never_negative_witness :
    (∃ b, (runOps 1 { balances := [⟨1, 0, 0⟩] }
      ([LedgerOp.deposit {} 500, LedgerOp.withdraw {} none "2377225624" 400,
        LedgerOp.withdraw {} none "2377225624" 200,
        LedgerOp.withdraw {} none "2377225624" (-3)].take 2)).balanceOf 1 = some b ∧
      0 ≤ b.Current) ∧
    (∃ b, (runOps 1 { balances := [⟨1, 0, 0⟩] }
      ([LedgerOp.deposit {} 500, LedgerOp.withdraw {} none "2377225624" 400,
        LedgerOp.withdraw {} none "2377225624" 200,
        LedgerOp.withdraw {} none "2377225624" (-3)].take 4)).balanceOf 1 = some b ∧
      0 ≤ b.Current) :=
  have h := current_never_negative { balances := [⟨1, 0, 0⟩] } 1
    [LedgerOp.deposit {} 500, LedgerOp.withdraw {} none "2377225624" 400,
      LedgerOp.withdraw {} none "2377225624" 200,
      LedgerOp.withdraw {} none "2377225624" (-3)] rfl (by
    intro f x hmem
    simp only [List.mem_cons, LedgerOp.deposit.injEq, List.mem_singleton, false_or, or_false,
      reduceCtorEq, List.not_mem_nil] at hmem
    rw [hmem.2]
    norm_num)
  ⟨h 2, h 4⟩

/-! ## Lemmas on the order store -/

theorem find?_map_setStatus (l : List OrderRow) (m n : String) (g : OrderRow → OrderRow)
    (hg : ∀ r, (g r).number = r.number) :
    (l.map (fun r => if r.number == m then g r else r)).find? (fun r => r.number == n) =
      (l.find? (fun r => r.number == n)).map (fun r => if r.number == m then g r else r) := by
  induction l with
  | nil => rfl
  | cons r rs ih =>
    simp only [List.map_cons, List.find?_cons]
    have hid : (if r.number == m then g r else r).number = r.number := by
      split
      · exact hg r
      · rfl
    rw [hid]
    cases hv : (r.number == n)
    · simpa using ih
    · simp

theorem selectOrder_setStatus (db : Database) (m n status : String) (x : ℚ) :
    (db.setStatus m status x).selectOrder n =
      (db.selectOrder n).map (fun r =>
        if r.number == m then { r with status := status, accrual := some x } else r) := by
  unfold Database.selectOrder Database.setStatus
  exact find?_map_setStatus db.orders m n
    (fun r => { r with status := status, accrual := some x }) (fun _ => rfl)

theorem selectOrder_setStatus_of_ne (db : Database) (m n status : String) (x : ℚ)
    (h : n ≠ m) : (db.setStatus m status x).selectOrder n = db.selectOrder n := by
  rw [selectOrder_setStatus]
  cases hs : db.selectOrder n with
  | none => rfl
  | some r =>
    have hr : r.number = n := by
      have := List.find?_some hs
      simpa using this
    have : ¬ r.number = m := by rw [hr]; exact h
    simp [this]

theorem selectOrder_setStatus_self (db : Database) (n status : String) (x : ℚ)
    (o : OrderRow) (h : db.selectOrder n = some o) :
    (db.setStatus n status x).selectOrder n =
      some { o with status := status, accrual := some x } := by
  rw [selectOrder_setStatus, h]
  have hr : o.number = n := by
    have := List.find?_some h
    simpa using this
  simp [hr]

theorem selectOrder_number {db : Database} {n : String} {o : OrderRow}
    (h : db.selectOrder n = some o) : o.number = n := by
  have := List.find?_some h
  simpa using this

theorem selectOrder_mem {db : Database} {n : String} {o : OrderRow}
    (h : db.selectOrder n = some o) : o ∈ db.orders :=
  List.mem_of_find?_eq_some h

/-- With distinct numbers, the lookup by number finds each row of the table. -/
theorem selectOrder_of_mem (db : Database) (huniq : db.UniqueNumbers) (o : OrderRow)
    (h : o ∈ db.orders) : db.selectOrder o.number = some o := by
  unfold Database.UniqueNumbers at huniq
  unfold Database.selectOrder
  generalize db.orders = l at h huniq
  induction l with
  | nil => cases h
  | cons r rs ih =>
    rw [List.map_cons, List.nodup_cons] at huniq
    rw [List.find?_cons]
    rcases List.mem_cons.mp h with heq | hmem
    · subst heq; simp
    · have hne : ¬ r.number = o.number := by
        intro he
        exact huniq.1 (he ▸ List.mem_map_of_mem (fun r => r.number) hmem)
      have hb : (r.number == o.number) = false := by simpa using hne
      rw [hb]
      exact ih hmem huniq.2

theorem rowsAffected_ne_zero_of_selectOrder (db : Database) (n : String) (o : OrderRow)
    (h : db.selectOrder n = some o) :
    (db.orders.filter (fun r => r.number == n)).length ≠ 0 := by
  unfold Database.selectOrder at h
  have hmem := List.mem_of_find?_eq_some h
  have hp := List.find?_some h
  intro h0
  rw [List.length_eq_zero, List.filter_eq_nil_iff] at h0
  exact h0 o hmem hp

/-- `OrderStorage.UpdateOrderStatus` leaves the database as it was or with the
status and accrual of the numbered rows set. -/
theorem updateOrderStatus_db (f : ExecFaults) (db : Database) (n status : String) (x : ℚ) :
    (OrderStorage.UpdateOrderStatus f db n status x).2 = db ∨
      (OrderStorage.UpdateOrderStatus f db n status x).2 = db.setStatus n status x := by
  unfold OrderStorage.UpdateOrderStatus
  cases f.exec with
  | some e => exact Or.inl rfl
  | none =>
    right
    cases f.rowsAffected with
    | some e => rfl
    | none =>
      simp only
      split <;> rfl

/-- `OrderStorage.UpdateOrderStatus` when its `UPDATE` statement fails. -/
theorem updateOrderStatus_exec_fails (f : ExecFaults) (db : Database) (n status : String)
    (x : ℚ) (e : String) (h : f.exec = some e) :
    OrderStorage.UpdateOrderStatus f db n status x = (some ("failed to update order: " ++ e), db) := by
  unfold OrderStorage.UpdateOrderStatus
  rw [h]

/-- `OrderStorage.UpdateOrderStatus` when no statement fails and the row exists. -/
theorem updateOrderStatus_ok (db : Database) (n status : String) (x : ℚ) (o : OrderRow)
    (h : db.selectOrder n = some o) :
    OrderStorage.UpdateOrderStatus {} db n status x = (none, db.setStatus n status x) := by
  have hne := rowsAffected_ne_zero_of_selectOrder db n o h
  unfold OrderStorage.UpdateOrderStatus Database.setStatus
  simp only
  rw [if_neg (by simpa using hne)]

theorem openOrders_sublist (db : Database) : db.openOrders.Sublist db.orders :=
  List.filter_sublist _

theorem mem_openOrders (db : Database) (o : OrderRow) :
    o ∈ db.openOrders ↔
      o ∈ db.orders ∧ (o.status = OrderStatusNew ∨ o.status = OrderStatusProcessing) := by
  unfold Database.openOrders
  simp [List.mem_filter]

/-- The list `GetProcessingOrders` returns is an initial part of the open orders. -/
theorem getProcessingOrders_initial (f : QueryFaults) (db : Database) (l : List OrderRow)
    (h : OrderStorage.GetProcessingOrders f db = .ok l) : l <+: db.openOrders := by
  unfold OrderStorage.GetProcessingOrders at h
  cases hq : f.query with
  | some e => simp [hq] at h
  | none =>
    have hrows : (match f.rowsErrAfter with
        | none => db.openOrders
        | some k => db.openOrders.take k) <+: db.openOrders := by
      cases f.rowsErrAfter with
      | none => exact List.prefix_refl _
      | some k => exact List.take_prefix _ _
    simp only [hq] at h
    cases hs : f.scan with
    | some e =>
      simp only [hs] at h
      split at h
      · simp only [Except.ok.injEq] at h
        rw [← h]; exact hrows
      · cases h
    | none =>
      simp only [hs, Except.ok.injEq] at h
      rw [← h]; exact hrows

/-- `GetProcessingOrders` when no statement fails. -/
theorem getProcessingOrders_noFault (db : Database) :
    OrderStorage.GetProcessingOrders {} db = .ok db.openOrders := rfl


/-! ## Lemmas on the reconciliation cycle -/

theorem processOrder_snd (env : CycleEnv) (o : OrderRow) (db : Database) :
    (processOrder env o db).2 = !stopsCycle env o := by
  unfold processOrder stopsCycle
  cases AccrualClient.GetOrderInfo (env.gateway o.number) with
  | error err =>
    simp only
    cases stringsContains err "order not found" <;>
      cases stringsContains err "rate limit exceeded" <;> rfl
  | ok info =>
    simp only
    split
    · rfl
    · split
      · split <;> rfl
      · rfl

theorem processOrder_of_error (env : CycleEnv) (o : OrderRow) (db : Database) (err : String)
    (h : AccrualClient.GetOrderInfo (env.gateway o.number) = .error err) :
    (processOrder env o db).1 = db := by
  unfold processOrder
  rw [h]
  simp only
  cases stringsContains err "order not found" <;>
    cases stringsContains err "rate limit exceeded" <;> rfl

/-- The database after one iteration: the status update applied or not, followed,
only when the reply credits, by the balance credit applied or not. -/
theorem processOrder_db_cases (env : CycleEnv) (o : OrderRow) (db : Database) :
    ∃ db1, (db1 = db ∨ ∃ info, AccrualClient.GetOrderInfo (env.gateway o.number) = .ok info ∧
          db1 = db.setStatus o.number info.Status info.Accrual) ∧
      ((processOrder env o db).1 = db1 ∨
        (creditsOrder env o = true ∧ ∃ info,
          AccrualClient.GetOrderInfo (env.gateway o.number) = .ok info ∧
          (processOrder env o db).1 = db1.credit o.userID info.Accrual)) := by
  cases hr : AccrualClient.GetOrderInfo (env.gateway o.number) with
  | error err => exact ⟨db, Or.inl rfl, Or.inl (processOrder_of_error env o db err hr)⟩
  | ok info =>
    unfold processOrder creditsOrder
    rw [hr]
    simp only
    have hst := updateOrderStatus_db (env.status o.number) db o.number info.Status info.Accrual
    generalize OrderStorage.UpdateOrderStatus (env.status o.number) db o.number info.Status
      info.Accrual = res at hst
    obtain ⟨e1, db1⟩ := res
    have hdb1 : db1 = db ∨ ∃ info', (Except.ok info : Except String AccrualResponse)
          = Except.ok info' ∧
        db1 = db.setStatus o.number info'.Status info'.Accrual := by
      rcases hst with h | h
      · exact Or.inl h
      · exact Or.inr ⟨info, rfl, h⟩
    refine ⟨db1, hdb1, ?_⟩
    cases e1 with
    | some e => exact Or.inl rfl
    | none =>
      simp only
      by_cases hc : (info.Status == OrderStatusProcessed && decide (info.Accrual > 0)) = true
      · rw [if_pos hc]
        have hb := updateBalance_db (env.balance o.number) db1 o.userID info.Accrual
        generalize BalanceStorage.UpdateBalance (env.balance o.number) db1 o.userID
          info.Accrual = res2 at hb
        obtain ⟨e2, db2⟩ := res2
        have hfin : db2 = db1 ∨ db2 = db1.credit o.userID info.Accrual := hb
        cases e2 with
        | some e =>
          rcases hfin with h | h
          · exact Or.inl h
          · exact Or.inr ⟨hc, info, rfl, h⟩
        | none =>
          rcases hfin with h | h
          · exact Or.inl h
          · exact Or.inr ⟨hc, info, rfl, h⟩
      · rw [if_neg hc]
        exact Or.inl rfl

theorem selectOrder_credit (db : Database) (u : Int) (x : ℚ) (n : String) :
    (db.credit u x).selectOrder n = db.selectOrder n := rfl

theorem balanceOf_setStatus (db : Database) (n status : String) (x : ℚ) (v : Int) :
    (db.setStatus n status x).balanceOf v = db.balanceOf v := rfl

theorem processOrder_selectOrder_of_ne (env : CycleEnv) (o : OrderRow) (db : Database)
    (n : String) (h : n ≠ o.number) :
    (processOrder env o db).1.selectOrder n = db.selectOrder n := by
  obtain ⟨db1, hdb1, hfin⟩ := processOrder_db_cases env o db
  have h1 : db1.selectOrder n = db.selectOrder n := by
    rcases hdb1 with h1 | ⟨info, _, h1⟩
    · rw [h1]
    · rw [h1]; exact selectOrder_setStatus_of_ne db o.number n _ _ h
  rcases hfin with h2 | ⟨_, info, _, h2⟩
  · rw [h2, h1]
  · rw [h2, selectOrder_credit, h1]

theorem processOrder_balanceOf_frame (env : CycleEnv) (o : OrderRow) (db : Database) (v : Int)
    (h : o.userID = v → creditsOrder env o = false) :
    (processOrder env o db).1.balanceOf v = db.balanceOf v := by
  obtain ⟨db1, hdb1, hfin⟩ := processOrder_db_cases env o db
  have h1 : db1.balanceOf v = db.balanceOf v := by
    rcases hdb1 with h1 | ⟨info, _, h1⟩
    · rw [h1]
    · rw [h1]; rfl
  rcases hfin with h2 | ⟨hc, info, _, h2⟩
  · rw [h2, h1]
  · rw [h2, balanceOf_credit, h1]
    have hne : ¬ v = o.userID := by
      intro hv
      rw [h hv.symm] at hc
      exact Bool.noConfusion hc
    cases db.balanceOf v <;> simp [hne]

/-- No iteration changes a withdrawn amount. -/
theorem processOrder_withdrawn (env : CycleEnv) (o : OrderRow) (db : Database) (v : Int) :
    ((processOrder env o db).1.balanceOf v).map (fun b => b.Withdrawn) =
      (db.balanceOf v).map (fun b => b.Withdrawn) := by
  obtain ⟨db1, hdb1, hfin⟩ := processOrder_db_cases env o db
  have h1 : db1.balanceOf v = db.balanceOf v := by
    rcases hdb1 with h1 | ⟨info, _, h1⟩
    · rw [h1]
    · rw [h1]; rfl
  rcases hfin with h2 | ⟨_, info, _, h2⟩
  · rw [h2, h1]
  · rw [h2, balanceOf_credit, h1]
    cases db.balanceOf v with
    | none => rfl
    | some b =>
      simp only [Option.map_some']
      split <;> rfl

theorem processOrder_withdrawals (env : CycleEnv) (o : OrderRow) (db : Database) :
    (processOrder env o db).1.withdrawals = db.withdrawals := by
  obtain ⟨db1, hdb1, hfin⟩ := processOrder_db_cases env o db
  have h1 : db1.withdrawals = db.withdrawals := by
    rcases hdb1 with h1 | ⟨info, _, h1⟩
    · rw [h1]
    · rw [h1]; rfl
  rcases hfin with h2 | ⟨_, info, _, h2⟩
  · rw [h2, h1]
  · rw [h2]; exact h1

/-- An iteration whose status update statement fails changes nothing. -/
theorem processOrder_status_exec_fails (env : CycleEnv) (o : OrderRow) (db : Database)
    (e : String) (h : (env.status o.number).exec = some e) :
    (processOrder env o db).1 = db := by
  cases hr : AccrualClient.GetOrderInfo (env.gateway o.number) with
  | error err => exact processOrder_of_error env o db err hr
  | ok info =>
    unfold processOrder
    rw [hr]
    simp only
    rw [updateOrderStatus_exec_fails _ db o.number info.Status info.Accrual e h]

/-- An iteration on a result that does not credit, the store working. -/
theorem processOrder_found (env : CycleEnv) (o o' : OrderRow) (db : Database)
    (info : AccrualResponse)
    (hr : AccrualClient.GetOrderInfo (env.gateway o.number) = .ok info)
    (hst : env.status o.number = {}) (hsel : db.selectOrder o.number = some o')
    (hc : creditsOrder env o = false) :
    processOrder env o db = (db.setStatus o.number info.Status info.Accrual, true) := by
  unfold creditsOrder at hc
  rw [hr] at hc
  simp only at hc
  unfold processOrder
  rw [hr]
  simp only
  rw [hst, updateOrderStatus_ok db o.number info.Status info.Accrual o' hsel]
  simp only
  rw [hc]
  simp

/-- An iteration on a result that credits, the store working. -/
theorem processOrder_credit (env : CycleEnv) (o o' : OrderRow) (db : Database)
    (info : AccrualResponse)
    (hr : AccrualClient.GetOrderInfo (env.gateway o.number) = .ok info)
    (hst : env.status o.number = {}) (hbl : env.balance o.number = {})
    (hsel : db.selectOrder o.number = some o')
    (hc : creditsOrder env o = true) :
    (processOrder env o db).1 =
      (db.setStatus o.number info.Status info.Accrual).credit o.userID info.Accrual := by
  unfold creditsOrder at hc
  rw [hr] at hc
  simp only at hc
  unfold processOrder
  rw [hr]
  simp only
  rw [hst, updateOrderStatus_ok db o.number info.Status info.Accrual o' hsel]
  simp only
  rw [hc, hbl, updateBalance_noFault]
  simp only [if_true]
  split
  · rename_i heq
    exact (congrArg Prod.snd heq).symm
  · rename_i heq
    exact (congrArg Prod.snd heq).symm

theorem processOrders_cons (env : CycleEnv) (o : OrderRow) (rest : List OrderRow)
    (db : Database) :
    processOrders env (o :: rest) db =
      if stopsCycle env o then ((processOrder env o db).1, [o.number])
      else ((processOrders env rest (processOrder env o db).1).1,
        o.number :: (processOrders env rest (processOrder env o db).1).2) := by
  have hs := processOrder_snd env o db
  rw [processOrders]
  generalize processOrder env o db = res at hs
  obtain ⟨db1, b⟩ := res
  simp only at hs
  cases hst : stopsCycle env o <;> rw [hst] at hs <;> simp only [Bool.not_true, Bool.not_false] at hs
    <;> subst hs <;> simp

theorem processOrders_selectOrder_of_not_mem (env : CycleEnv) (n : String)
    (l : List OrderRow) :
    ∀ db : Database, n ∉ l.map (fun r => r.number) →
      (processOrders env l db).1.selectOrder n = db.selectOrder n := by
  induction l with
  | nil => intro db _; rfl
  | cons o rest ih =>
    intro db hn
    rw [List.map_cons, List.mem_cons, not_or] at hn
    rw [processOrders_cons]
    split
    · exact processOrder_selectOrder_of_ne env o db n hn.1
    · show (processOrders env rest (processOrder env o db).1).1.selectOrder n = _
      rw [ih _ hn.2]
      exact processOrder_selectOrder_of_ne env o db n hn.1

theorem processOrders_balanceOf_frame (env : CycleEnv) (v : Int) (l : List OrderRow) :
    ∀ db : Database, (∀ p ∈ l, p.userID = v → creditsOrder env p = false) →
      (processOrders env l db).1.balanceOf v = db.balanceOf v := by
  induction l with
  | nil => intro db _; rfl
  | cons o rest ih =>
    intro db h
    have ho := h o (List.mem_cons_self _ _)
    rw [processOrders_cons]
    split
    · exact processOrder_balanceOf_frame env o db v ho
    · show (processOrders env rest (processOrder env o db).1).1.balanceOf v = _
      rw [ih _ (fun p hp => h p (List.mem_cons_of_mem _ hp))]
      exact processOrder_balanceOf_frame env o db v ho

theorem processOrders_withdrawals (env : CycleEnv) (l : List OrderRow) :
    ∀ db : Database, (processOrders env l db).1.withdrawals = db.withdrawals := by
  induction l with
  | nil => intro db; rfl
  | cons o rest ih =>
    intro db
    rw [processOrders_cons]
    split
    · exact processOrder_withdrawals env o db
    · show (processOrders env rest (processOrder env o db).1).1.withdrawals = _
      rw [ih]
      exact processOrder_withdrawals env o db

theorem processOrders_withdrawn (env : CycleEnv) (v : Int) (l : List OrderRow) :
    ∀ db : Database, ((processOrders env l db).1.balanceOf v).map (fun b => b.Withdrawn) =
      (db.balanceOf v).map (fun b => b.Withdrawn) := by
  induction l with
  | nil => intro db; rfl
  | cons o rest ih =>
    intro db
    rw [processOrders_cons]
    split
    · exact processOrder_withdrawn env o db v
    · show ((processOrders env rest (processOrder env o db).1).1.balanceOf v).map _ = _
      rw [ih]
      exact processOrder_withdrawn env o db v

/-- The gateway calls of the loop are an initial part of the numbers of the loaded
orders, in the same order. -/
theorem processOrders_calls_initial (env : CycleEnv) (l : List OrderRow) :
    ∀ db : Database, (processOrders env l db).2 <+: l.map (fun r => r.number) := by
  induction l with
  | nil => intro db; exact List.prefix_refl _
  | cons o rest ih =>
    intro db
    rw [processOrders_cons, List.map_cons]
    split
    · refine ⟨rest.map (fun r => r.number), ?_⟩
      rfl
    · show o.number :: _ <+: _
      obtain ⟨t, ht⟩ := ih (processOrder env o db).1
      exact ⟨t, by rw [List.cons_append, ht]⟩

/-- While no reply stops the cycle, the loop goes through the list. -/
theorem processOrders_append (env : CycleEnv) (pre rest : List OrderRow)
    (h : ∀ p ∈ pre, stopsCycle env p = false) :
    ∀ db : Database, processOrders env (pre ++ rest) db =
      ((processOrders env rest (processOrders env pre db).1).1,
        pre.map (fun r => r.number) ++ (processOrders env rest (processOrders env pre db).1).2) := by
  induction pre with
  | nil => intro db; rfl
  | cons o ps ih =>
    intro db
    have ho := h o (List.mem_cons_self _ _)
    have ih' := ih (fun p hp => h p (List.mem_cons_of_mem _ hp)) (processOrder env o db).1
    rw [List.cons_append, processOrders_cons, processOrders_cons, ho]
    simp only [Bool.false_eq_true, if_false]
    rw [ih']
    rfl


theorem processAccruals_of_load (env : CycleEnv) (db : Database) (l : List OrderRow)
    (h : OrderStorage.GetProcessingOrders env.select db = .ok l) :
    Service.ProcessAccruals env db =
      ⟨none, (processOrders env l db).1, (processOrders env l db).2⟩ := by
  unfold Service.ProcessAccruals
  rw [h]

theorem processAccruals_of_load_error (env : CycleEnv) (db : Database) (e : String)
    (h : OrderStorage.GetProcessingOrders env.select db = .error e) :
    Service.ProcessAccruals env db =
      ⟨some ("failed to get processing orders: " ++ e), db, []⟩ := by
  unfold Service.ProcessAccruals
  rw [h]

theorem loaded_mem_open (f : QueryFaults) (db : Database) (l : List OrderRow)
    (h : OrderStorage.GetProcessingOrders f db = .ok l) (o : OrderRow) (ho : o ∈ l) :
    o ∈ db.orders ∧ (o.status = OrderStatusNew ∨ o.status = OrderStatusProcessing) :=
  (mem_openOrders db o).mp ((getProcessingOrders_initial f db l h).subset ho)

theorem loaded_numbers_nodup (f : QueryFaults) (db : Database) (l : List OrderRow)
    (h : OrderStorage.GetProcessingOrders f db = .ok l) (huniq : db.UniqueNumbers) :
    (l.map (fun r => r.number)).Nodup := by
  have hsub : l.Sublist db.orders :=
    (getProcessingOrders_initial f db l h).sublist.trans (openOrders_sublist db)
  exact List.Nodup.sublist (hsub.map _) huniq

theorem creditsOrder_imp_finalizesOrder (env : CycleEnv) (o : OrderRow)
    (h : creditsOrder env o = true) : finalizesOrder env o = true := by
  unfold creditsOrder at h
  unfold finalizesOrder
  cases hr : AccrualClient.GetOrderInfo (env.gateway o.number) with
  | error e => rw [hr] at h; exact Bool.noConfusion h
  | ok info =>
    rw [hr] at h
    simp only [Bool.and_eq_true] at h
    simp only [Bool.or_eq_true]
    exact Or.inl h.1

theorem creditsOrder_of_not_finalizes (env : CycleEnv) (o : OrderRow)
    (h : finalizesOrder env o = false) : creditsOrder env o = false := by
  cases hc : creditsOrder env o
  · rfl
  · rw [creditsOrder_imp_finalizesOrder env o hc] at h
    exact Bool.noConfusion h

theorem stopsCycle_of_ok (env : CycleEnv) (o : OrderRow) (info : AccrualResponse)
    (h : AccrualClient.GetOrderInfo (env.gateway o.number) = .ok info) :
    stopsCycle env o = false := by
  unfold stopsCycle
  rw [h]

/-- A terminal status is not an open one. -/
theorem not_open_of_terminal (o : OrderRow)
    (h : o.status = OrderStatusProcessed ∨ o.status = OrderStatusInvalid) :
    ¬ (o.status = OrderStatusNew ∨ o.status = OrderStatusProcessing) := by
  rcases h with h | h <;> rw [h] <;> decide

/-! ## The reconciliation cycle: claims C11 to C13 -/

/-- C11, as stated, fails: user 1 owns the open orders `18` and `26`; the gateway
answers PROCESSED with accrual 100 for `18` and PROCESSED with accrual 50 for `26`
and the store works.  After the cycle the owner's balance has gone from `{0, 0}` to
`{150, 0}`: it is not increased by exactly 100. -/
theorem two_orders_credit_counterexample :
    AccrualClient.GetOrderInfo (replyFound ⟨"18", "PROCESSED", 100⟩)
      = .ok ⟨"18", "PROCESSED", 100⟩ ∧
    (Service.ProcessAccruals
      { gateway := fun n =>
          if n == "18" then replyFound ⟨"18", "PROCESSED", 100⟩
          else replyFound ⟨"26", "PROCESSED", 50⟩ }
      { balances := [⟨1, 0, 0⟩],
        orders := [⟨1, "18", "NEW", none⟩, ⟨1, "26", "NEW", none⟩] }).calls = ["18", "26"] ∧
    (Service.ProcessAccruals
      { gateway := fun n =>
          if n == "18" then replyFound ⟨"18", "PROCESSED", 100⟩
          else replyFound ⟨"26", "PROCESSED", 50⟩ }
      { balances := [⟨1, 0, 0⟩],
        orders := [⟨1, "18", "NEW", none⟩, ⟨1, "26", "NEW", none⟩] }).db.balanceOf 1
      = some ⟨150, 0⟩ ∧
    (Service.ProcessAccruals
      { gateway := fun n =>
          if n == "18" then replyFound ⟨"18", "PROCESSED", 100⟩
          else replyFound ⟨"26", "PROCESSED", 50⟩ }
      { balances := [⟨1, 0, 0⟩],
        orders := [⟨1, "18", "NEW", none⟩, ⟨1, "26", "NEW", none⟩] }).db.balanceOf 1
      ≠ some ⟨0 + 100, 0⟩ := by
  have hb : (Service.ProcessAccruals
      { gateway := fun n =>
          if n == "18" then replyFound ⟨"18", "PROCESSED", 100⟩
          else replyFound ⟨"26", "PROCESSED", 50⟩ }
      { balances := [⟨1, 0, 0⟩],
        orders := [⟨1, "18", "NEW", none⟩, ⟨1, "26", "NEW", none⟩] }).db.balanceOf 1
      = some ⟨0 + 100 + 50, 0⟩ := rfl
  refine ⟨rfl, by decide, ?_, ?_⟩
  · rw [hb]; norm_num
  · rw [hb]
    intro h
    simp only [Option.some.injEq, BalanceResponse.mk.injEq] at h
    norm_num at h

/-- C11 (amended): when the open order `o` receives a gateway reply with status
PROCESSED and accrual `a > 0` and the store operations succeed, after
`ProcessAccruals` order `o` has status PROCESSED and accrual `a` and the owner's
withdrawn amount is unchanged; if no other order of `o`'s owner is credited in that
cycle, the owner's current balance is increased by exactly `a`; and the balance of
every user who owns no order finalized in that cycle is unchanged. -/
theorem processed_order_credited (env : CycleEnv) (db : Database)
    (pre post : List OrderRow) (o : OrderRow) (info : AccrualResponse) (c w : ℚ)
    (hload : OrderStorage.GetProcessingOrders env.select db = .ok (pre ++ o :: post))
    (huniq : db.UniqueNumbers)
    (hreach : ∀ p ∈ pre, stopsCycle env p = false)
    (hreply : AccrualClient.GetOrderInfo (env.gateway o.number) = .ok info)
    (hstatus : info.Status = OrderStatusProcessed) (hpos : 0 < info.Accrual)
    (hst : env.status o.number = {}) (hbl : env.balance o.number = {})
    (hbal : db.balanceOf o.userID = some ⟨c, w⟩) :
    (Service.ProcessAccruals env db).err = none ∧
    o.number ∈ (Service.ProcessAccruals env db).calls ∧
    (Service.ProcessAccruals env db).db.selectOrder o.number =
      some { o with status := OrderStatusProcessed, accrual := some info.Accrual } ∧
    ((Service.ProcessAccruals env db).db.balanceOf o.userID).map (fun b => b.Withdrawn)
      = some w ∧
    ((∀ p ∈ pre ++ post, p.userID = o.userID → creditsOrder env p = false) →
      (Service.ProcessAccruals env db).db.balanceOf o.userID = some ⟨c + info.Accrual, w⟩) ∧
    (∀ v, (∀ p ∈ pre ++ o :: post, p.userID = v → finalizesOrder env p = false) →
      (Service.ProcessAccruals env db).db.balanceOf v = db.balanceOf v) := by
  have hnd := loaded_numbers_nodup env.select db _ hload huniq
  rw [List.map_append, List.map_cons] at hnd
  have hnpre : o.number ∉ pre.map (fun r => r.number) := by
    intro hmem
    exact (List.nodup_append.mp hnd).2.2 hmem (List.mem_cons_self _ _)
  have hnpost : o.number ∉ post.map (fun r => r.number) :=
    (List.nodup_cons.mp (List.nodup_append.mp hnd).2.1).1
  have hodb : o ∈ db.orders :=
    (loaded_mem_open env.select db _ hload o (by simp)).1
  have hsel0 : db.selectOrder o.number = some o := selectOrder_of_mem db huniq o hodb
  have hsel1 : (processOrders env pre db).1.selectOrder o.number = some o := by
    rw [processOrders_selectOrder_of_not_mem env o.number pre db hnpre, hsel0]
  have hcred : creditsOrder env o = true := by
    unfold creditsOrder
    rw [hreply]
    simp [hstatus, hpos]
  have hstep := processOrder_credit env o o (processOrders env pre db).1 info hreply hst hbl
    hsel1 hcred
  have hsel2 : (processOrder env o (processOrders env pre db).1).1.selectOrder o.number =
      some { o with status := OrderStatusProcessed, accrual := some info.Accrual } := by
    rw [hstep, selectOrder_credit, selectOrder_setStatus_self _ o.number _ _ o hsel1, hstatus]
  have hbal2 : (∀ p ∈ pre ++ post, p.userID = o.userID → creditsOrder env p = false) →
      (processOrder env o (processOrders env pre db).1).1.balanceOf o.userID =
        some ⟨c + info.Accrual, w⟩ := by
    intro honly
    have hbal1 : (processOrders env pre db).1.balanceOf o.userID = some ⟨c, w⟩ := by
      rw [processOrders_balanceOf_frame env o.userID pre db
        (fun p hp => honly p (List.mem_append_left _ hp)), hbal]
    rw [hstep, balanceOf_credit, balanceOf_setStatus, hbal1]
    simp
  have hloop : processOrders env (pre ++ o :: post) db =
      ((processOrders env post (processOrder env o (processOrders env pre db).1).1).1,
        pre.map (fun r => r.number) ++ o.number ::
          (processOrders env post (processOrder env o (processOrders env pre db).1).1).2) := by
    rw [processOrders_append env pre (o :: post) hreach db, processOrders_cons,
      stopsCycle_of_ok env o info hreply]
    simp only [Bool.false_eq_true, if_false]
  rw [processAccruals_of_load env db _ hload]
  refine ⟨rfl, ?_, ?_, ?_, ?_, ?_⟩
  · show o.number ∈ (processOrders env (pre ++ o :: post) db).2
    rw [hloop]
    simp
  · show (processOrders env (pre ++ o :: post) db).1.selectOrder o.number = _
    rw [hloop]
    show (processOrders env post _).1.selectOrder o.number = _
    rw [processOrders_selectOrder_of_not_mem env o.number post _ hnpost, hsel2]
  · show ((processOrders env (pre ++ o :: post) db).1.balanceOf o.userID).map _ = _
    rw [processOrders_withdrawn env o.userID (pre ++ o :: post) db, hbal]
    rfl
  · intro honly
    show (processOrders env (pre ++ o :: post) db).1.balanceOf o.userID = _
    rw [hloop]
    show (processOrders env post _).1.balanceOf o.userID = _
    rw [processOrders_balanceOf_frame env o.userID post _
      (fun p hp => honly p (List.mem_append_right _ hp)), hbal2 honly]
  · intro v hv
    exact processOrders_balanceOf_frame env v (pre ++ o :: post) db
      (fun p hp hpv => creditsOrder_of_not_finalizes env p (hv p hp hpv))


/-- Witness for C11 (amended): in `sampleDb` under `sampleEnv`, order `18` becomes
PROCESSED with accrual 100, its owner goes from `{0, 0}` to `{0 + 100, 0}` and
user 2 keeps `{7, 0}`. -/
theorem processed_order_credited_witness :
    (Service.ProcessAccruals sampleEnv sampleDb).db.selectOrder "18"
      = some ⟨1, "18", "PROCESSED", some 100⟩ ∧
    (Service.ProcessAccruals sampleEnv sampleDb).db.balanceOf 1 = some ⟨0 + 100, 0⟩ ∧
    (Service.ProcessAccruals sampleEnv sampleDb).db.balanceOf 2 = some ⟨7, 0⟩ := by
  have h := processed_order_credited sampleEnv sampleDb [] [⟨2, "26", "PROCESSING", none⟩]
    ⟨1, "18", "NEW", none⟩ ⟨"18", "PROCESSED", 100⟩ 0 0 rfl
    (by unfold Database.UniqueNumbers; decide)
    (by intro p hp; cases hp) rfl rfl (by show (0 : ℚ) < 100; norm_num) rfl rfl rfl
  have h1 := h.2.2.2.2.1 (by
    intro p hp hu
    simp only [List.nil_append, List.mem_singleton] at hp
    subst hp
    exact absurd hu (by decide))
  refine ⟨h.2.2.1, h1, ?_⟩
  have h2 := h.2.2.2.2.2 2 (by
    intro p hp hu
    simp only [List.nil_append, List.mem_cons, List.mem_singleton, List.not_mem_nil,
      or_false] at hp
    rcases hp with hp | hp
    · subst hp
      exact absurd hu (by decide)
    · subst hp
      rfl)
  rw [h2]
  rfl

/-- C12, as stated, fails: user 1 owns the open orders `18` and `26`.  In the
first cycle `18` becomes PROCESSED with accrual 100 and the owner is credited
(`{100, 0}`), while `26` is reported PROCESSING.  In the second cycle `18` is not
queried, `26` becomes PROCESSED with accrual 50, and the owner's balance is
`{150, 0}`: the second run did not leave it unchanged. -/
theorem second_run_other_order_counterexample :
    (Service.ProcessAccruals
      { gateway := fun n =>
          if n == "18" then replyFound ⟨"18", "PROCESSED", 100⟩
          else replyFound ⟨"26", "PROCESSING", 0⟩ }
      { balances := [⟨1, 0, 0⟩],
        orders := [⟨1, "18", "NEW", none⟩, ⟨1, "26", "NEW", none⟩] }).db
      = { balances := [⟨1, 0 + 100, 0⟩],
          orders := [⟨1, "18", "PROCESSED", some 100⟩, ⟨1, "26", "PROCESSING", some 0⟩] } ∧
    (Service.ProcessAccruals
      { gateway := fun n =>
          if n == "18" then replyFound ⟨"18", "PROCESSED", 100⟩
          else replyFound ⟨"26", "PROCESSED", 50⟩ }
      { balances := [⟨1, 0 + 100, 0⟩],
        orders := [⟨1, "18", "PROCESSED", some 100⟩, ⟨1, "26", "PROCESSING", some 0⟩] }).calls
      = ["26"] ∧
    (Service.ProcessAccruals
      { gateway := fun n =>
          if n == "18" then replyFound ⟨"18", "PROCESSED", 100⟩
          else replyFound ⟨"26", "PROCESSED", 50⟩ }
      { balances := [⟨1, 0 + 100, 0⟩],
        orders := [⟨1, "18", "PROCESSED", some 100⟩,
          ⟨1, "26", "PROCESSING", some 0⟩] }).db.balanceOf 1
      = some ⟨150, 0⟩ ∧
    (Service.ProcessAccruals
      { gateway := fun n =>
          if n == "18" then replyFound ⟨"18", "PROCESSED", 100⟩
          else replyFound ⟨"26", "PROCESSED", 50⟩ }
      { balances := [⟨1, 0 + 100, 0⟩],
        orders := [⟨1, "18", "PROCESSED", some 100⟩,
          ⟨1, "26", "PROCESSING", some 0⟩] }).db.balanceOf 1
      ≠ some ⟨0 + 100, 0⟩ := by
  have hb : (Service.ProcessAccruals
      { gateway := fun n =>
          if n == "18" then replyFound ⟨"18", "PROCESSED", 100⟩
          else replyFound ⟨"26", "PROCESSED", 50⟩ }
      { balances := [⟨1, 0 + 100, 0⟩],
        orders := [⟨1, "18", "PROCESSED", some 100⟩,
          ⟨1, "26", "PROCESSING", some 0⟩] }).db.balanceOf 1
      = some ⟨0 + 100 + 50, 0⟩ := rfl
  refine ⟨rfl, by decide, ?_, ?_⟩
  · rw [hb]; norm_num
  · rw [hb]
    intro h
    simp only [Option.some.injEq, BalanceResponse.mk.injEq] at h
    norm_num at h

/-- C12 (amended): when an order is PROCESSED, a further run of `ProcessAccruals`,
whatever the gateway would answer and whatever the store does, does not query it
and leaves the order unchanged; it makes no credit for it, so the owner's balance
is unchanged unless another order of the same owner is credited in that run. -/
theorem processed_order_not_requeried (env : CycleEnv) (db : Database) (o : OrderRow)
    (huniq : db.UniqueNumbers) (hmem : o ∈ db.orders)
    (hproc : o.status = OrderStatusProcessed) :
    o.number ∉ (Service.ProcessAccruals env db).calls ∧
    (Service.ProcessAccruals env db).db.selectOrder o.number = some o ∧
    ((∀ p ∈ db.openOrders, p.userID = o.userID → creditsOrder env p = false) →
      (Service.ProcessAccruals env db).db.balanceOf o.userID = db.balanceOf o.userID) := by
  have hsel0 : db.selectOrder o.number = some o := selectOrder_of_mem db huniq o hmem
  cases hload : OrderStorage.GetProcessingOrders env.select db with
  | error e =>
    rw [processAccruals_of_load_error env db e hload]
    exact ⟨by simp, hsel0, fun _ => rfl⟩
  | ok l =>
    rw [processAccruals_of_load env db l hload]
    have hnot : o.number ∉ l.map (fun r => r.number) := by
      intro hin
      obtain ⟨p, hp, hpn⟩ := List.mem_map.mp hin
      have hpo := loaded_mem_open env.select db l hload p hp
      have hselp := selectOrder_of_mem db huniq p hpo.1
      have hpn' : p.number = o.number := hpn
      rw [hpn', hsel0] at hselp
      have hpeq : o = p := Option.some.inj hselp
      rw [← hpeq] at hpo
      exact not_open_of_terminal o (Or.inl hproc) hpo.2
    refine ⟨?_, ?_, ?_⟩
    · intro hin
      exact hnot ((processOrders_calls_initial env l db).subset hin)
    · show (processOrders env l db).1.selectOrder o.number = some o
      rw [processOrders_selectOrder_of_not_mem env o.number l db hnot, hsel0]
    · intro hno
      exact processOrders_balanceOf_frame env o.userID l db
        (fun p hp => hno p ((getProcessingOrders_initial env.select db l hload).subset hp))

/-- Witness for C12 (amended): in `sampleDb` the order `34` of user 2 is PROCESSED;
the cycle under `sampleEnv` does not query it, leaves it as it is and leaves
user 2 at `{7, 0}`. -/
theorem processed_order_not_requeried_witness :
    "34" ∉ (Service.ProcessAccruals sampleEnv sampleDb).calls ∧
    (Service.ProcessAccruals sampleEnv sampleDb).db.selectOrder "34"
      = some ⟨2, "34", "PROCESSED", some 40⟩ ∧
    (Service.ProcessAccruals sampleEnv sampleDb).db.balanceOf 2 = sampleDb.balanceOf 2 := by
  have h := processed_order_not_requeried sampleEnv sampleDb ⟨2, "34", "PROCESSED", some 40⟩
    (by unfold Database.UniqueNumbers; decide) (by decide) rfl
  exact ⟨h.1, h.2.1, h.2.2 (by decide)⟩


theorem processOrders_selectOrder_of_exec_fails (env : CycleEnv) (n : String)
    (l : List OrderRow) :
    ∀ db : Database, (∀ p ∈ l, p.number = n → ∃ e, (env.status p.number).exec = some e) →
      (processOrders env l db).1.selectOrder n = db.selectOrder n := by
  induction l with
  | nil => intro db _; rfl
  | cons o rest ih =>
    intro db h
    have hstep : (processOrder env o db).1.selectOrder n = db.selectOrder n := by
      by_cases hn : o.number = n
      · obtain ⟨e, he⟩ := h o (List.mem_cons_self _ _) hn
        rw [processOrder_status_exec_fails env o db e he]
      · exact processOrder_selectOrder_of_ne env o db n (fun hc => hn hc.symm)
    rw [processOrders_cons]
    split
    · exact hstep
    · show (processOrders env rest (processOrder env o db).1).1.selectOrder n = _
      rw [ih _ (fun p hp => h p (List.mem_cons_of_mem _ hp)), hstep]

/-- C13, as stated, fails: user 1 holds `{0, 0}` and owns the new order `18`; the
gateway answers PROCESSED with accrual 500, the status update is stored and the
balance credit fails.  After the cycle the order is PROCESSED with accrual 500,
no order is open any more, and the balance is still `{0, 0}`. -/
theorem credit_failure_counterexample :
    (Service.ProcessAccruals
      { gateway := fun _ => replyFound ⟨"18", "PROCESSED", 500⟩,
        balance := fun _ => { exec := some "connection lost" } }
      { balances := [⟨1, 0, 0⟩], orders := [⟨1, "18", "NEW", none⟩] }).err = none ∧
    (Service.ProcessAccruals
      { gateway := fun _ => replyFound ⟨"18", "PROCESSED", 500⟩,
        balance := fun _ => { exec := some "connection lost" } }
      { balances := [⟨1, 0, 0⟩], orders := [⟨1, "18", "NEW", none⟩] }).db
      = { balances := [⟨1, 0, 0⟩], orders := [⟨1, "18", "PROCESSED", some 500⟩] } ∧
    (Service.ProcessAccruals
      { gateway := fun _ => replyFound ⟨"18", "PROCESSED", 500⟩,
        balance := fun _ => { exec := some "connection lost" } }
      { balances := [⟨1, 0, 0⟩], orders := [⟨1, "18", "NEW", none⟩] }).db.openOrders = [] :=
  ⟨rfl, rfl, rfl⟩

/-- C13 (amended): if the `UPDATE` statement of the status update fails for an
order loaded by `ProcessAccruals`, that order is unchanged and still open (NEW or
PROCESSING) after the cycle, and the next cycle loads it again. -/
theorem status_update_failure_keeps_order_open (env : CycleEnv) (db : Database)
    (l : List OrderRow) (o : OrderRow) (e : String)
    (hload : OrderStorage.GetProcessingOrders env.select db = .ok l) (hmem : o ∈ l)
    (huniq : db.UniqueNumbers) (hfail : (env.status o.number).exec = some e) :
    (Service.ProcessAccruals env db).db.selectOrder o.number = some o ∧
    o ∈ (Service.ProcessAccruals env db).db.openOrders ∧
    (∃ l2, OrderStorage.GetProcessingOrders {} (Service.ProcessAccruals env db).db = .ok l2 ∧
      o ∈ l2) := by
  have hopen := loaded_mem_open env.select db l hload o hmem
  have hsel0 : db.selectOrder o.number = some o := selectOrder_of_mem db huniq o hopen.1
  have hsel : (Service.ProcessAccruals env db).db.selectOrder o.number = some o := by
    rw [processAccruals_of_load env db l hload]
    show (processOrders env l db).1.selectOrder o.number = some o
    rw [processOrders_selectOrder_of_exec_fails env o.number l db
      (fun p _ hpn => ⟨e, by rw [hpn]; exact hfail⟩), hsel0]
  have hin : o ∈ (Service.ProcessAccruals env db).db.openOrders :=
    (mem_openOrders _ o).mpr ⟨selectOrder_mem hsel, hopen.2⟩
  exact ⟨hsel, hin, _, getProcessingOrders_noFault _, hin⟩

/-- Witness for C13 (amended): in `sampleDb` the gateway reports `18` PROCESSED with
accrual 100, the status update fails, and `18` is still a new order of user 1
afterwards. -/
theorem status_update_failure_keeps_order_open_witness :
    (Service.ProcessAccruals
      { gateway := fun _ => replyFound ⟨"18", "PROCESSED", 100⟩,
        status := fun _ => { exec := some "connection lost" } }
      sampleDb).db.selectOrder "18" = some ⟨1, "18", "NEW", none⟩ :=
  (status_update_failure_keeps_order_open
    { gateway := fun _ => replyFound ⟨"18", "PROCESSED", 100⟩,
      status := fun _ => { exec := some "connection lost" } }
    sampleDb [⟨1, "18", "NEW", none⟩, ⟨2, "26", "PROCESSING", none⟩] ⟨1, "18", "NEW", none⟩
    "connection lost" rfl (by decide) (by unfold Database.UniqueNumbers; decide) rfl).1

/-! ## Rate limiting and the status vocabulary: claims C14 and C15 -/

/-- C14: the code at a failing input.  Three orders are open and the reply for the
first has status 429 with the `Retry-After` value `order not found`: the client's
error then contains the text `order not found`, the loop takes its `continue`
branch, and the gateway is called for all three orders, the two later ones being
updated.  With the `Retry-After` value `5` the gateway is called once. -/
theorem rate_limit_retry_after_text :
    AccrualClient.GetOrderInfo (replyStatus 429 "order not found")
      = .error "rate limit exceeded, retry after: order not found" ∧
    (Service.ProcessAccruals
      { gateway := fun n =>
          if n == "18" then replyStatus 429 "order not found"
          else replyFound ⟨n, "PROCESSED", 100⟩ }
      { balances := [⟨1, 0, 0⟩],
        orders := [⟨1, "18", "NEW", none⟩, ⟨1, "26", "NEW", none⟩,
          ⟨1, "34", "NEW", none⟩] }).calls = ["18", "26", "34"] ∧
    (Service.ProcessAccruals
      { gateway := fun n =>
          if n == "18" then replyStatus 429 "order not found"
          else replyFound ⟨n, "PROCESSED", 100⟩ }
      { balances := [⟨1, 0, 0⟩],
        orders := [⟨1, "18", "NEW", none⟩, ⟨1, "26", "NEW", none⟩,
          ⟨1, "34", "NEW", none⟩] }).db.orders
      = [⟨1, "18", "NEW", none⟩, ⟨1, "26", "PROCESSED", some 100⟩,
          ⟨1, "34", "PROCESSED", some 100⟩] ∧
    (Service.ProcessAccruals
      { gateway := fun n =>
          if n == "18" then replyStatus 429 "5"
          else replyFound ⟨n, "PROCESSED", 100⟩ }
      { balances := [⟨1, 0, 0⟩],
        orders := [⟨1, "18", "NEW", none⟩, ⟨1, "26", "NEW", none⟩,
          ⟨1, "34", "NEW", none⟩] }).calls = ["18"] := by
  refine ⟨rfl, by decide, rfl, by decide⟩

/-- C15: the code at a failing input.  The gateway answers the upstream status
REGISTERED for the new order `18`: the order row then carries the status
`REGISTERED`, which is none of NEW, PROCESSING, PROCESSED, INVALID, and the order is
no longer among the open orders. -/
theorem registered_status_stored :
    (Service.ProcessAccruals
      { gateway := fun _ => replyFound ⟨"18", "REGISTERED", 0⟩ }
      { balances := [⟨1, 0, 0⟩], orders := [⟨1, "18", "NEW", none⟩] }).db.orders
      = [⟨1, "18", "REGISTERED", some 0⟩] ∧
    "REGISTERED" ∉ [OrderStatusNew, OrderStatusProcessing, OrderStatusProcessed,
      OrderStatusInvalid] ∧
    (Service.ProcessAccruals
      { gateway := fun _ => replyFound ⟨"18", "REGISTERED", 0⟩ }
      { balances := [⟨1, 0, 0⟩], orders := [⟨1, "18", "NEW", none⟩] }).db.openOrders = [] := by
  refine ⟨rfl, by decide, rfl⟩

/-! ## Which orders the cycle touches: claim C16 -/

/-- C16: `ProcessAccruals` calls the gateway only for orders whose status is NEW
or PROCESSING at the start of the cycle, at most once per order, and an order that
is already PROCESSED or INVALID is neither queried nor changed, whatever the
gateway replies and whatever the store does. -/
theorem gateway_called_for_open_orders_only (env : CycleEnv) (db : Database)
    (huniq : db.UniqueNumbers) :
    (∀ n ∈ (Service.ProcessAccruals env db).calls, ∃ o ∈ db.orders, o.number = n ∧
      (o.status = OrderStatusNew ∨ o.status = OrderStatusProcessing)) ∧
    (Service.ProcessAccruals env db).calls.Nodup ∧
    (∀ o ∈ db.orders, (o.status = OrderStatusProcessed ∨ o.status = OrderStatusInvalid) →
      o.number ∉ (Service.ProcessAccruals env db).calls ∧
      (Service.ProcessAccruals env db).db.selectOrder o.number = some o) := by
  cases hload : OrderStorage.GetProcessingOrders env.select db with
  | error e =>
    rw [processAccruals_of_load_error env db e hload]
    refine ⟨by simp, List.nodup_nil, ?_⟩
    intro o ho _
    exact ⟨by simp, selectOrder_of_mem db huniq o ho⟩
  | ok l =>
    rw [processAccruals_of_load env db l hload]
    have hpre := processOrders_calls_initial env l db
    refine ⟨?_, ?_, ?_⟩
    · intro n hn
      obtain ⟨p, hp, hpn⟩ := List.mem_map.mp (hpre.subset hn)
      have hpo := loaded_mem_open env.select db l hload p hp
      exact ⟨p, hpo.1, hpn, hpo.2⟩
    · exact List.Nodup.sublist hpre.sublist (loaded_numbers_nodup env.select db l hload huniq)
    · intro o ho hterm
      have hsel0 : db.selectOrder o.number = some o := selectOrder_of_mem db huniq o ho
      have hnot : o.number ∉ l.map (fun r => r.number) := by
        intro hin
        obtain ⟨p, hp, hpn⟩ := List.mem_map.mp hin
        have hpo := loaded_mem_open env.select db l hload p hp
        have hselp := selectOrder_of_mem db huniq p hpo.1
        have hpn' : p.number = o.number := hpn
        rw [hpn', hsel0] at hselp
        have hpeq : o = p := Option.some.inj hselp
        rw [← hpeq] at hpo
        exact not_open_of_terminal o hterm hpo.2
      refine ⟨fun hin => hnot (hpre.subset hin), ?_⟩
      show (processOrders env l db).1.selectOrder o.number = some o
      rw [processOrders_selectOrder_of_not_mem env o.number l db hnot, hsel0]

/-- Witness for C16: in `sampleDb` under `sampleEnv` the gateway is called for `18`
and `26`, once each, and the processed order `34` is left as it is. -/
theorem gateway_called_for_open_orders_only_witness :
    (Service.ProcessAccruals sampleEnv sampleDb).calls.Nodup ∧
    (Service.ProcessAccruals sampleEnv sampleDb).db.selectOrder "34"
      = some ⟨2, "34", "PROCESSED", some 40⟩ :=
  ⟨(gateway_called_for_open_orders_only sampleEnv sampleDb
      (by unfold Database.UniqueNumbers; decide)).2.1,
   ((gateway_called_for_open_orders_only sampleEnv sampleDb
      (by unfold Database.UniqueNumbers; decide)).2.2 ⟨2, "34", "PROCESSED", some 40⟩
      (by decide) (Or.inl rfl)).2⟩


/-! ## Skipped orders and non-terminal replies: claims C17 and C18 -/

theorem getOrderInfo_204 (resp : HttpResponse) (h : resp.StatusCode = 204) :
    AccrualClient.GetOrderInfo (.ok resp) = .error "order not found in accrual system" := by
  unfold AccrualClient.GetOrderInfo
  simp [h]

theorem getOrderInfo_500 (resp : HttpResponse) (h : resp.StatusCode = 500) :
    AccrualClient.GetOrderInfo (.ok resp) = .error "internal server error in accrual system" := by
  unfold AccrualClient.GetOrderInfo
  simp [h]

/-- An iteration whose reply is an error that the loop does not read as a rate
limit leaves the database alone and lets the loop continue. -/
theorem processOrder_skip (env : CycleEnv) (o : OrderRow) (db : Database) (err : String)
    (h : AccrualClient.GetOrderInfo (env.gateway o.number) = .error err)
    (hc : stringsContains err "order not found" = true ∨
      stringsContains err "rate limit exceeded" = false) :
    processOrder env o db = (db, true) := by
  unfold processOrder
  rw [h]
  simp only
  rcases hc with hc | hc
  · rw [if_pos hc]
  · rw [hc]
    simp

/-- The replies of C17 (amended) are such errors. -/
theorem skip_reply_error (reply : HttpReply)
    (hreply : (∃ resp, reply = .ok resp ∧ (resp.StatusCode = 204 ∨ resp.StatusCode = 500)) ∨
      (∃ msg, reply = .error msg ∧
        stringsContains ("failed to make request: " ++ msg) "rate limit exceeded" = false)) :
    ∃ err, AccrualClient.GetOrderInfo reply = .error err ∧
      (stringsContains err "order not found" = true ∨
        stringsContains err "rate limit exceeded" = false) := by
  rcases hreply with ⟨resp, hr, h204 | h500⟩ | ⟨msg, hr, hmsg⟩
  · exact ⟨_, by rw [hr]; exact getOrderInfo_204 resp h204, Or.inl (by decide)⟩
  · exact ⟨_, by rw [hr]; exact getOrderInfo_500 resp h500, Or.inr (by decide)⟩
  · exact ⟨_, by rw [hr]; rfl, Or.inr hmsg⟩

/-- C17, as stated, fails: the orders `18` and `26` are open; the request for `18`
fails in transport with a message that contains the text `rate limit exceeded`,
and the loop breaks: `26`, for which the gateway would answer PROCESSED, is not
queried and stays NEW. -/
theorem network_error_text_counterexample :
    AccrualClient.GetOrderInfo
      (replyTransportError "Get http://accrual/api/orders/18: rate limit exceeded")
      = .error "failed to make request: Get http://accrual/api/orders/18: rate limit exceeded" ∧
    (Service.ProcessAccruals
      { gateway := fun n =>
          if n == "18" then
            replyTransportError "Get http://accrual/api/orders/18: rate limit exceeded"
          else replyFound ⟨n, "PROCESSED", 100⟩ }
      { balances := [⟨1, 0, 0⟩],
        orders := [⟨1, "18", "NEW", none⟩, ⟨1, "26", "NEW", none⟩] }).calls = ["18"] ∧
    (Service.ProcessAccruals
      { gateway := fun n =>
          if n == "18" then
            replyTransportError "Get http://accrual/api/orders/18: rate limit exceeded"
          else replyFound ⟨n, "PROCESSED", 100⟩ }
      { balances := [⟨1, 0, 0⟩],
        orders := [⟨1, "18", "NEW", none⟩, ⟨1, "26", "NEW", none⟩] }).db.orders
      = [⟨1, "18", "NEW", none⟩, ⟨1, "26", "NEW", none⟩] := by
  refine ⟨rfl, by decide, rfl⟩

/-- C17 (amended): when the gateway reports an open order as not found (HTTP 204),
answers HTTP 500, or the request fails with a network error whose message does not
contain the text `rate limit exceeded`, the handling of that order changes nothing
in the database, the order is unchanged and still open after the cycle, the loop
goes on to the remaining open orders, and the balance of every user none of whose
other orders is credited in the cycle is unchanged. -/
theorem skipped_order_stays_open (env : CycleEnv) (db : Database)
    (pre post : List OrderRow) (o : OrderRow)
    (hload : OrderStorage.GetProcessingOrders env.select db = .ok (pre ++ o :: post))
    (huniq : db.UniqueNumbers)
    (hreach : ∀ p ∈ pre, stopsCycle env p = false)
    (hreply : (∃ resp, env.gateway o.number = .ok resp ∧
        (resp.StatusCode = 204 ∨ resp.StatusCode = 500)) ∨
      (∃ msg, env.gateway o.number = .error msg ∧
        stringsContains ("failed to make request: " ++ msg) "rate limit exceeded" = false)) :
    (∀ db', processOrder env o db' = (db', true)) ∧
    (Service.ProcessAccruals env db).db.selectOrder o.number = some o ∧
    o ∈ (Service.ProcessAccruals env db).db.openOrders ∧
    (Service.ProcessAccruals env db).db
      = (processOrders env post (processOrders env pre db).1).1 ∧
    (Service.ProcessAccruals env db).calls
      = pre.map (fun r => r.number) ++
          o.number :: (processOrders env post (processOrders env pre db).1).2 ∧
    (∀ v, (∀ p ∈ pre ++ post, p.userID = v → creditsOrder env p = false) →
      (Service.ProcessAccruals env db).db.balanceOf v = db.balanceOf v) := by
  obtain ⟨err, herr, hc⟩ := skip_reply_error (env.gateway o.number) hreply
  have hstep : ∀ db', processOrder env o db' = (db', true) :=
    fun db' => processOrder_skip env o db' err herr hc
  have hstop : stopsCycle env o = false := by
    have := processOrder_snd env o db
    rw [hstep db] at this
    cases hs : stopsCycle env o
    · rfl
    · rw [hs] at this
      exact Bool.noConfusion this
  have hloop : processOrders env (pre ++ o :: post) db =
      ((processOrders env post (processOrders env pre db).1).1,
        pre.map (fun r => r.number) ++
          o.number :: (processOrders env post (processOrders env pre db).1).2) := by
    rw [processOrders_append env pre (o :: post) hreach db, processOrders_cons, hstop]
    simp only [Bool.false_eq_true, if_false]
    rw [hstep]
  have hnd := loaded_numbers_nodup env.select db _ hload huniq
  rw [List.map_append, List.map_cons] at hnd
  have hnpre : o.number ∉ pre.map (fun r => r.number) := by
    intro hmem
    exact (List.nodup_append.mp hnd).2.2 hmem (List.mem_cons_self _ _)
  have hnpost : o.number ∉ post.map (fun r => r.number) :=
    (List.nodup_cons.mp (List.nodup_append.mp hnd).2.1).1
  have hopen := loaded_mem_open env.select db _ hload o (by simp)
  have hsel0 : db.selectOrder o.number = some o := selectOrder_of_mem db huniq o hopen.1
  have hcredo : creditsOrder env o = false := by
    unfold creditsOrder
    rw [herr]
  rw [processAccruals_of_load env db _ hload]
  have hsel : (processOrders env (pre ++ o :: post) db).1.selectOrder o.number = some o := by
    rw [hloop]
    show (processOrders env post _).1.selectOrder o.number = _
    rw [processOrders_selectOrder_of_not_mem env o.number post _ hnpost,
      processOrders_selectOrder_of_not_mem env o.number pre db hnpre, hsel0]
  refine ⟨hstep, hsel, (mem_openOrders _ o).mpr ⟨selectOrder_mem hsel, hopen.2⟩, ?_, ?_, ?_⟩
  · show (processOrders env (pre ++ o :: post) db).1 = _
    rw [hloop]
  · show (processOrders env (pre ++ o :: post) db).2 = _
    rw [hloop]
  · intro v hv
    apply processOrders_balanceOf_frame env v (pre ++ o :: post) db
    intro p hp hpv
    rcases List.mem_append.mp hp with h1 | h1
    · exact hv p (List.mem_append_left _ h1) hpv
    · rcases List.mem_cons.mp h1 with h2 | h2
      · rw [h2]; exact hcredo
      · exact hv p (List.mem_append_right _ h2) hpv

/-- Witness for C17 (amended): in `sampleDb` under `sampleEnv` the order `26` gets
the reply 204 after `18` has been handled; it is still in processing afterwards
and the gateway was called for `18` and `26`. -/
theorem skipped_order_stays_open_witness :
    (Service.ProcessAccruals sampleEnv sampleDb).db.selectOrder "26"
      = some ⟨2, "26", "PROCESSING", none⟩ ∧
    (Service.ProcessAccruals sampleEnv sampleDb).calls = ["18", "26"] := by
  have h := skipped_order_stays_open sampleEnv sampleDb [⟨1, "18", "NEW", none⟩] []
    ⟨2, "26", "PROCESSING", none⟩ rfl (by unfold Database.UniqueNumbers; decide)
    (by
      intro p hp
      simp only [List.mem_singleton] at hp
      subst hp
      rfl)
    (Or.inl ⟨{ StatusCode := 204 }, rfl, Or.inl rfl⟩)
  exact ⟨h.2.1, h.2.2.2.2.1⟩

/-- C18, as stated, fails: the new order `18` has no accrual; the gateway answers
PROCESSING with accrual 7 and the order row then carries the accrual 7; when the
reply carries no accrual (0), the accrual field goes from `NULL` to 0. -/
theorem processing_reply_accrual_counterexample :
    (Service.ProcessAccruals
      { gateway := fun _ => replyFound ⟨"18", "PROCESSING", 7⟩ }
      { balances := [⟨1, 0, 0⟩], orders := [⟨1, "18", "NEW", none⟩] }).db.orders
      = [⟨1, "18", "PROCESSING", some 7⟩] ∧
    (Service.ProcessAccruals
      { gateway := fun _ => replyFound ⟨"18", "PROCESSING", 0⟩ }
      { balances := [⟨1, 0, 0⟩], orders := [⟨1, "18", "NEW", none⟩] }).db.orders
      = [⟨1, "18", "PROCESSING", some 0⟩] ∧
    (some (7 : ℚ) ≠ none ∧ some (0 : ℚ) ≠ none) := by
  refine ⟨rfl, rfl, by simp, by simp⟩

/-- C18 (amended): when the gateway answers an open order with the non-terminal
status PROCESSING and the status update works, `ProcessAccruals` sets that order's
status to PROCESSING and its accrual field to the accrual value of the reply; the
order's owner is unchanged, the handling of that order changes no balance, and the
balance of every user none of whose other orders is credited in the cycle is
unchanged. -/
theorem processing_reply_sets_status_and_accrual (env : CycleEnv) (db : Database)
    (pre post : List OrderRow) (o : OrderRow) (info : AccrualResponse)
    (hload : OrderStorage.GetProcessingOrders env.select db = .ok (pre ++ o :: post))
    (huniq : db.UniqueNumbers)
    (hreach : ∀ p ∈ pre, stopsCycle env p = false)
    (hreply : AccrualClient.GetOrderInfo (env.gateway o.number) = .ok info)
    (hstatus : info.Status = OrderStatusProcessing)
    (hst : env.status o.number = {}) :
    (Service.ProcessAccruals env db).db.selectOrder o.number =
      some { o with status := OrderStatusProcessing, accrual := some info.Accrual } ∧
    (∀ db', (processOrder env o db').1.balances = db'.balances) ∧
    (∀ v, (∀ p ∈ pre ++ post, p.userID = v → creditsOrder env p = false) →
      (Service.ProcessAccruals env db).db.balanceOf v = db.balanceOf v) := by
  have hcredo : creditsOrder env o = false := by
    unfold creditsOrder
    rw [hreply]
    simp only [hstatus]
    rfl
  have hnd := loaded_numbers_nodup env.select db _ hload huniq
  rw [List.map_append, List.map_cons] at hnd
  have hnpre : o.number ∉ pre.map (fun r => r.number) := by
    intro hmem
    exact (List.nodup_append.mp hnd).2.2 hmem (List.mem_cons_self _ _)
  have hnpost : o.number ∉ post.map (fun r => r.number) :=
    (List.nodup_cons.mp (List.nodup_append.mp hnd).2.1).1
  have hopen := loaded_mem_open env.select db _ hload o (by simp)
  have hsel0 : db.selectOrder o.number = some o := selectOrder_of_mem db huniq o hopen.1
  have hsel1 : (processOrders env pre db).1.selectOrder o.number = some o := by
    rw [processOrders_selectOrder_of_not_mem env o.number pre db hnpre, hsel0]
  have hstep := processOrder_found env o o (processOrders env pre db).1 info hreply hst
    hsel1 hcredo
  have hloop : processOrders env (pre ++ o :: post) db =
      ((processOrders env post (processOrder env o (processOrders env pre db).1).1).1,
        pre.map (fun r => r.number) ++ o.number ::
          (processOrders env post (processOrder env o (processOrders env pre db).1).1).2) := by
    rw [processOrders_append env pre (o :: post) hreach db, processOrders_cons,
      stopsCycle_of_ok env o info hreply]
    simp only [Bool.false_eq_true, if_false]
  rw [processAccruals_of_load env db _ hload]
  refine ⟨?_, ?_, ?_⟩
  · show (processOrders env (pre ++ o :: post) db).1.selectOrder o.number = _
    rw [hloop]
    show (processOrders env post _).1.selectOrder o.number = _
    rw [processOrders_selectOrder_of_not_mem env o.number post _ hnpost, hstep]
    show ((processOrders env pre db).1.setStatus o.number info.Status info.Accrual).selectOrder
      o.number = _
    rw [selectOrder_setStatus_self _ o.number _ _ o hsel1, hstatus]
  · intro db'
    obtain ⟨db1, hdb1, hfin⟩ := processOrder_db_cases env o db'
    have h1 : db1.balances = db'.balances := by
      rcases hdb1 with h1 | ⟨_, _, h1⟩
      · rw [h1]
      · rw [h1]; rfl
    rcases hfin with h2 | ⟨hc, _⟩
    · rw [h2, h1]
    · rw [hcredo] at hc
      exact Bool.noConfusion hc
  · intro v hv
    apply processOrders_balanceOf_frame env v (pre ++ o :: post) db
    intro p hp hpv
    rcases List.mem_append.mp hp with h1 | h1
    · exact hv p (List.mem_append_left _ h1) hpv
    · rcases List.mem_cons.mp h1 with h2 | h2
      · rw [h2]; exact hcredo
      · exact hv p (List.mem_append_right _ h2) hpv

/-- Witness for C18 (amended): in `sampleDb` the gateway answers PROCESSING without
an accrual for every order; `18` then has status PROCESSING and accrual 0, and
user 1 still holds `{0, 0}`. -/
theorem processing_reply_sets_status_and_accrual_witness :
    (Service.ProcessAccruals { gateway := fun n => replyFound ⟨n, "PROCESSING", 0⟩ }
      sampleDb).db.selectOrder "18" = some ⟨1, "18", "PROCESSING", some 0⟩ ∧
    (Service.ProcessAccruals { gateway := fun n => replyFound ⟨n, "PROCESSING", 0⟩ }
      sampleDb).db.balanceOf 1 = sampleDb.balanceOf 1 := by
  have h := processing_reply_sets_status_and_accrual
    { gateway := fun n => replyFound ⟨n, "PROCESSING", 0⟩ } sampleDb []
    [⟨2, "26", "PROCESSING", none⟩] ⟨1, "18", "NEW", none⟩ ⟨"18", "PROCESSING", 0⟩ rfl
    (by unfold Database.UniqueNumbers; decide) (by intro p hp; cases hp) rfl rfl rfl
  refine ⟨h.1, h.2.2 1 ?_⟩
  intro p hp hpv
  simp only [List.nil_append, List.mem_singleton] at hp
  subst hp
  exact absurd hpv (by decide)


/-! ## Order admission: claims C19 and C20 -/

theorem any_number_of_selectOrder (db : Database) (n : String) (o : OrderRow)
    (h : db.selectOrder n = some o) : db.orders.any (fun r => r.number == n) = true := by
  rw [List.any_eq_true]
  exact ⟨o, selectOrder_mem h, by simpa using selectOrder_number h⟩

theorem service_add_invalid (fg fc : Option String) (db : Database) (u : Int) (n : String)
    (h : validateOrderNumber n = false) :
    Service.AddOrder fg fc db u n = (some "invalid order number format", db) := by
  unfold Service.AddOrder
  simp [h]

/-- `Service.AddOrder` leaves the database as it was, or appends one new order
with a number that no row carried. -/
theorem addOrder_db (fg fc : Option String) (db : Database) (u : Int) (n : String) :
    (Service.AddOrder fg fc db u n).2 = db ∨
      ((Service.AddOrder fg fc db u n).2 =
          { db with orders := db.orders ++ [⟨u, n, OrderStatusNew, none⟩] } ∧
        db.orders.any (fun r => r.number == n) = false) := by
  unfold Service.AddOrder
  cases validateOrderNumber n with
  | false => exact Or.inl rfl
  | true =>
    simp only [Bool.not_true, Bool.false_eq_true, if_false]
    cases OrderStorage.GetOrderByNumber fg db n with
    | ok existing =>
      simp only
      split <;> exact Or.inl rfl
    | error e =>
      simp only
      unfold OrderStorage.CreateOrder
      cases fc with
      | some e => exact Or.inl rfl
      | none =>
        simp only
        cases hany : db.orders.any (fun r => r.number == n)
        · exact Or.inr ⟨rfl, rfl⟩
        · exact Or.inl rfl

/-- A number that a row already carries is never inserted again. -/
theorem addOrder_db_of_existing (fg fc : Option String) (db : Database) (u : Int)
    (n : String) (o : OrderRow) (h : db.selectOrder n = some o) :
    (Service.AddOrder fg fc db u n).2 = db := by
  rcases addOrder_db fg fc db u n with h1 | ⟨_, h2⟩
  · exact h1
  · rw [any_number_of_selectOrder db n o h] at h2
    exact Bool.noConfusion h2

/-- `Service.AddOrder` on a valid number that a row carries, the lookup working. -/
theorem addOrder_of_existing (fc : Option String) (db : Database) (u : Int) (n : String)
    (o : OrderRow) (hv : validateOrderNumber n = true) (h : db.selectOrder n = some o) :
    Service.AddOrder none fc db u n =
      (if o.userID == u then some "order already uploaded by this user"
        else some "order already uploaded by another user", db) := by
  unfold Service.AddOrder OrderStorage.GetOrderByNumber
  simp only [hv, h, Bool.not_true, Bool.false_eq_true, if_false]
  split <;> rfl

theorem valid_number_ne_empty (n : String) (hv : validateOrderNumber n = true) :
    (n == "") = false := by
  cases hn : (n == "")
  · rfl
  · have : n = "" := by simpa using hn
    rw [this] at hv
    exact absurd hv (by decide)

/-- An existing row is found again, with the same content, after any number of
`AddOrder` calls. -/
theorem runAddOrders_selectOrder (calls : List AddOrderCall) :
    ∀ (db : Database) (n : String) (o : OrderRow), db.selectOrder n = some o →
      (runAddOrders db calls).selectOrder n = some o := by
  induction calls with
  | nil => intro db n o h; exact h
  | cons c rest ih =>
    intro db n o h
    show (runAddOrders (Service.AddOrder c.fg c.fc db c.userID c.orderNumber).2 rest).selectOrder n
      = some o
    apply ih
    rcases addOrder_db c.fg c.fc db c.userID c.orderNumber with h1 | ⟨h1, _⟩
    · rw [h1]; exact h
    · rw [h1]
      unfold Database.selectOrder at h ⊢
      simp only
      rw [List.find?_append, h]
      rfl

theorem count_number_of_mem (db : Database) (huniq : db.UniqueNumbers) (o : OrderRow)
    (h : o ∈ db.orders) : (db.orders.map (fun r => r.number)).count o.number = 1 :=
  List.count_eq_one_of_mem huniq (List.mem_map_of_mem (fun r => r.number) h)

/-- A successful `Service.AddOrder`: the number is Luhn-valid and the new order is
the one found under it afterwards. -/
theorem addOrder_success (fg fc : Option String) (db : Database) (u : Int) (n : String)
    (h : (Service.AddOrder fg fc db u n).1 = none) :
    validateOrderNumber n = true ∧
      (Service.AddOrder fg fc db u n).2.selectOrder n = some ⟨u, n, OrderStatusNew, none⟩ := by
  have hv : validateOrderNumber n = true := by
    cases hv : validateOrderNumber n
    · rw [service_add_invalid fg fc db u n hv] at h
      exact absurd h (by simp)
    · rfl
  refine ⟨hv, ?_⟩
  unfold Service.AddOrder at h ⊢
  simp only [hv, Bool.not_true, Bool.false_eq_true, if_false] at h ⊢
  cases hg : OrderStorage.GetOrderByNumber fg db n with
  | ok existing =>
    rw [hg] at h
    simp only at h
    split at h <;> exact absurd h (by simp)
  | error e =>
    rw [hg] at h
    simp only at h ⊢
    unfold OrderStorage.CreateOrder at h ⊢
    cases fc with
    | some e => exact absurd h (by simp)
    | none =>
      simp only at h ⊢
      cases hany : db.orders.any (fun r => r.number == n)
      · simp only [Bool.false_eq_true, if_false]
        unfold Database.selectOrder
        simp only
        have hnone : db.orders.find? (fun r => r.number == n) = none := by
          rw [List.find?_eq_none]
          intro x hx
          have := List.any_eq_false.mp hany x hx
          simpa using this
        rw [List.find?_append, hnone]
        simp [OrderStatusNew]
      · rw [hany] at h
        exact absurd h (by simp)

/-- The handler's answer to a valid number that a row carries, the lookup working. -/
theorem handler_addOrder_of_existing (db : Database) (u : Int) (n : String) (o : OrderRow)
    (hv : validateOrderNumber n = true) (h : db.selectOrder n = some o) :
    Handlers.AddOrder none none db "POST" (some u) (some n) =
      (if o.userID == u then 200 else 409, db) := by
  unfold Handlers.AddOrder
  simp only [bne_self_eq_false, Bool.false_eq_true, if_false, valid_number_ne_empty n hv,
    addOrder_of_existing none db u n o hv h]
  cases hu : (o.userID == u)
  · have hne : ¬ o.userID = u := by simpa using hu
    simp [hne]
  · have he : o.userID = u := by simpa using hu
    simp [he]

/-- C19: submitting a Luhn-valid order number that the same user has already
submitted is answered by `Service.AddOrder` with "order already uploaded by this
user", which the handler reports as HTTP 200; no order row is created, whatever
the store does, the existing order (owner, status, accrual) is unchanged, and
exactly one order row with that number exists afterwards. -/
theorem resubmission_by_owner (db : Database) (u : Int) (n : String) (o : OrderRow)
    (huniq : db.UniqueNumbers) (hsel : db.selectOrder n = some o) (hown : o.userID = u)
    (hvalid : ValidateOrderNumber n = true) :
    Service.AddOrder none none db u n = (some "order already uploaded by this user", db) ∧
    Handlers.AddOrder none none db "POST" (some u) (some n) = (200, db) ∧
    (∀ fg fc, (Service.AddOrder fg fc db u n).2 = db ∧
      (Service.AddOrder fg fc db u n).2.selectOrder n = some o ∧
      ((Service.AddOrder fg fc db u n).2.orders.map (fun r => r.number)).count n = 1) ∧
    (∀ db0 fg fc, (Service.AddOrder fg fc db0 u n).1 = none →
      Handlers.AddOrder none none (Service.AddOrder fg fc db0 u n).2 "POST" (some u) (some n)
        = (200, (Service.AddOrder fg fc db0 u n).2)) := by
  have hsvc : Service.AddOrder none none db u n =
      (some "order already uploaded by this user", db) := by
    rw [addOrder_of_existing none db u n o hvalid hsel]
    simp [hown]
  refine ⟨hsvc, ?_, ?_, ?_⟩
  · rw [handler_addOrder_of_existing db u n o hvalid hsel]
    simp [hown]
  · intro fg fc
    have hdb := addOrder_db_of_existing fg fc db u n o hsel
    rw [hdb]
    refine ⟨rfl, hsel, ?_⟩
    have := count_number_of_mem db huniq o (selectOrder_mem hsel)
    rw [selectOrder_number hsel] at this
    exact this
  · intro db0 fg fc hok
    obtain ⟨hv, hs⟩ := addOrder_success fg fc db0 u n hok
    rw [handler_addOrder_of_existing _ u n _ hv hs]
    simp

/-- Witness for C19: user 1 submits `18` again in `sampleDb`: the handler answers
200 and the database is as before. -/
theorem resubmission_by_owner_witness :
    Handlers.AddOrder none none sampleDb "POST" (some 1) (some "18") = (200, sampleDb) :=
  (resubmission_by_owner sampleDb 1 "18" ⟨1, "18", "NEW", none⟩
    (by unfold Database.UniqueNumbers; decide) rfl rfl (by decide)).2.1

/-- C20: submitting a Luhn-valid order number already owned by a different user
fails with "order already uploaded by another user" (HTTP 409 by the handler) and
creates no order, whatever the store does; and over any sequence of `AddOrder`
calls, with any store failures, the order found under a number stays the same row:
its owner never changes. -/
theorem submission_of_foreign_order (db : Database) (u : Int) (n : String) (o : OrderRow)
    (hsel : db.selectOrder n = some o) (hother : o.userID ≠ u)
    (hvalid : ValidateOrderNumber n = true) :
    Service.AddOrder none none db u n = (some "order already uploaded by another user", db) ∧
    Handlers.AddOrder none none db "POST" (some u) (some n) = (409, db) ∧
    (∀ fg fc, (Service.AddOrder fg fc db u n).2 = db) ∧
    (∀ calls : List AddOrderCall, (runAddOrders db calls).selectOrder n = some o ∧
      ∃ o', (runAddOrders db calls).selectOrder n = some o' ∧ o'.userID = o.userID) ∧
    (∀ db0 fg fc u1, u1 ≠ u → (Service.AddOrder fg fc db0 u1 n).1 = none →
      Handlers.AddOrder none none (Service.AddOrder fg fc db0 u1 n).2 "POST" (some u) (some n)
        = (409, (Service.AddOrder fg fc db0 u1 n).2)) := by
  have hsvc : Service.AddOrder none none db u n =
      (some "order already uploaded by another user", db) := by
    rw [addOrder_of_existing none db u n o hvalid hsel]
    simp [hother]
  refine ⟨hsvc, ?_, ?_, ?_, ?_⟩
  · rw [handler_addOrder_of_existing db u n o hvalid hsel]
    simp [hother]
  · intro fg fc
    exact addOrder_db_of_existing fg fc db u n o hsel
  · intro calls
    have h := runAddOrders_selectOrder calls db n o hsel
    exact ⟨h, o, h, rfl⟩
  · intro db0 fg fc u1 hne hok
    obtain ⟨hv, hs⟩ := addOrder_success fg fc db0 u1 n hok
    rw [handler_addOrder_of_existing _ u n _ hv hs]
    simp [hne]

/-- Witness for C20: user 2 submits `18`, which user 1 owns in `sampleDb`: the
handler answers 409 and, after further submissions of `18` by users 2 and 3, the
order is still the new order of user 1. -/
theorem submission_of_foreign_order_witness :
    Handlers.AddOrder none none sampleDb "POST" (some 2) (some "18") = (409, sampleDb) ∧
    (runAddOrders sampleDb [{ userID := 2, orderNumber := "18" },
        { userID := 3, orderNumber := "18", fg := some "connection lost" }]).selectOrder "18"
      = some ⟨1, "18", "NEW", none⟩ := by
  have h := submission_of_foreign_order sampleDb 2 "18" ⟨1, "18", "NEW", none⟩ rfl
    (by decide) (by decide)
  exact ⟨h.2.1, (h.2.2.2.1 _).1⟩


/-! ## Order admission: claims C21 to C23 -/

theorem selectOrder_none_iff (db : Database) (n : String) :
    db.selectOrder n = none ↔ db.orders.any (fun r => r.number == n) = false := by
  unfold Database.selectOrder
  rw [List.find?_eq_none, List.any_eq_false]

/-- `Service.AddOrder` on a valid number that no row carries, the store working. -/
theorem addOrder_of_new (db : Database) (u : Int) (n : String)
    (hv : validateOrderNumber n = true) (h : db.selectOrder n = none) :
    Service.AddOrder none none db u n =
      (none, { db with orders := db.orders ++ [⟨u, n, OrderStatusNew, none⟩] }) := by
  have hany := (selectOrder_none_iff db n).mp h
  unfold Service.AddOrder OrderStorage.GetOrderByNumber OrderStorage.CreateOrder
  simp only [hv, h, hany, Bool.not_true, Bool.false_eq_true, if_false]

/-- C21: for a Luhn-valid order number that no order row carries yet,
`Service.AddOrder(user, number)` (no store failure) returns no error, the handler
answers 202, and exactly one order is added, with that number, owner `user` and
status NEW; all other orders, the balances and the withdrawals are unchanged; and
the new order is among those the next reconciliation cycle loads. -/
theorem new_order_admitted (db : Database) (u : Int) (n : String)
    (hvalid : ValidateOrderNumber n = true) (hnew : db.selectOrder n = none) :
    Service.AddOrder none none db u n =
      (none, { db with orders := db.orders ++ [⟨u, n, OrderStatusNew, none⟩] }) ∧
    Handlers.AddOrder none none db "POST" (some u) (some n) =
      (202, { db with orders := db.orders ++ [⟨u, n, OrderStatusNew, none⟩] }) ∧
    (Service.AddOrder none none db u n).2.balances = db.balances ∧
    (Service.AddOrder none none db u n).2.withdrawals = db.withdrawals ∧
    ((Service.AddOrder none none db u n).2.orders.map (fun r => r.number)).count n = 1 ∧
    (∃ l, OrderStorage.GetProcessingOrders {} (Service.AddOrder none none db u n).2 = .ok l ∧
      (⟨u, n, OrderStatusNew, none⟩ : OrderRow) ∈ l) := by
  have hsvc := addOrder_of_new db u n hvalid hnew
  refine ⟨hsvc, ?_, ?_, ?_, ?_, ?_⟩
  · unfold Handlers.AddOrder
    simp only [bne_self_eq_false, Bool.false_eq_true, if_false,
      valid_number_ne_empty n hvalid, hsvc]
  · rw [hsvc]
  · rw [hsvc]
  · rw [hsvc]
    simp only [List.map_append, List.map_cons, List.map_nil, List.count_append]
    have hnot : n ∉ db.orders.map (fun r => r.number) := by
      intro hin
      obtain ⟨x, hx, hxn⟩ := List.mem_map.mp hin
      have := List.any_eq_false.mp ((selectOrder_none_iff db n).mp hnew) x hx
      simp at this
      exact this hxn
    rw [List.count_eq_zero_of_not_mem hnot]
    simp
  · rw [hsvc]
    refine ⟨_, getProcessingOrders_noFault _, ?_⟩
    rw [mem_openOrders]
    exact ⟨by simp, Or.inl rfl⟩

/-- Witness for C21: user 2 submits the new number `42` in `sampleDb`; the handler
answers 202 and the order `42` of user 2, status NEW, is appended. -/
theorem new_order_admitted_witness :
    Handlers.AddOrder none none sampleDb "POST" (some 2) (some "42") =
      (202, { sampleDb with orders := sampleDb.orders ++ [⟨2, "42", "NEW", none⟩] }) :=
  (new_order_admitted sampleDb 2 "42" (by decide) rfl).2.1

/-- C22, as stated, fails for the empty string at the handler: the handler answers
an empty body with 400 before it calls the service, not with 422. -/
theorem empty_number_handler_counterexample :
    ValidateOrderNumber "" = false ∧
    Handlers.AddOrder none none sampleDb "POST" (some 1) (some "") = (400, sampleDb) ∧
    (400 : Nat) ≠ 422 := by
  refine ⟨by decide, rfl, by decide⟩

/-- C22 (amended): for every order number that is not Luhn-valid (including the
empty string), `Service.AddOrder` fails with "invalid order number format" and
creates no order, whatever the store does and whether or not an order with that
number exists; the handler answers 422 when the number is not empty and 400 when
it is empty. -/
theorem invalid_number_rejected (fg fc : Option String) (db : Database) (u : Int)
    (n : String) (hinvalid : ValidateOrderNumber n = false) :
    Service.AddOrder fg fc db u n = (some "invalid order number format", db) ∧
    (n ≠ "" → Handlers.AddOrder fg fc db "POST" (some u) (some n) = (422, db)) ∧
    (n = "" → Handlers.AddOrder fg fc db "POST" (some u) (some n) = (400, db)) := by
  have hsvc := service_add_invalid fg fc db u n hinvalid
  refine ⟨hsvc, ?_, ?_⟩
  · intro hne
    have hb : (n == "") = false := by simpa using hne
    unfold Handlers.AddOrder
    simp only [bne_self_eq_false, Bool.false_eq_true, if_false, hb, hsvc]
    simp
  · intro he
    subst he
    rfl

/-- Witness for C22 (amended): `1234567890` is rejected in `sampleDb` with the
format error and 422, and so is `18x`, although the order `18` exists. -/
theorem invalid_number_rejected_witness :
    Service.AddOrder none none sampleDb 1 "1234567890"
      = (some "invalid order number format", sampleDb) ∧
    Handlers.AddOrder none none sampleDb "POST" (some 1) (some "1234567890")
      = (422, sampleDb) :=
  ⟨(invalid_number_rejected none none sampleDb 1 "1234567890" (by decide)).1,
   (invalid_number_rejected none none sampleDb 1 "1234567890" (by decide)).2.1 (by decide)⟩

/-- A successful `Service.AddOrder` appends the new order. -/
theorem addOrder_success_db (fg fc : Option String) (db : Database) (u : Int) (n : String)
    (h : (Service.AddOrder fg fc db u n).1 = none) :
    (Service.AddOrder fg fc db u n).2 =
      { db with orders := db.orders ++ [⟨u, n, OrderStatusNew, none⟩] } := by
  have hv := (addOrder_success fg fc db u n h).1
  unfold Service.AddOrder at h ⊢
  simp only [hv, Bool.not_true, Bool.false_eq_true, if_false] at h ⊢
  cases hg : OrderStorage.GetOrderByNumber fg db n with
  | ok existing =>
    rw [hg] at h
    simp only at h
    split at h <;> exact absurd h (by simp)
  | error e =>
    rw [hg] at h
    simp only at h ⊢
    unfold OrderStorage.CreateOrder at h ⊢
    cases fc with
    | some e => exact absurd h (by simp)
    | none =>
      simp only at h ⊢
      cases hany : db.orders.any (fun r => r.number == n)
      · simp only [Bool.false_eq_true, if_false]
      · rw [hany] at h
        exact absurd h (by simp)

/-- C23, as stated, fails: `1 8` is accepted, because the validator removes the
spaces before it looks at the characters, and the order row stores the number as
submitted, with its space. -/
theorem stored_number_with_space_counterexample :
    Service.AddOrder none none {} 1 "1 8"
      = (none, { orders := [⟨1, "1 8", "NEW", none⟩] }) ∧
    ' ' ∈ "1 8".data ∧ ' '.isDigit = false := by
  refine ⟨rfl, by decide, by decide⟩

/-- C23 (amended): every order created by `Service.AddOrder` stores the number as
submitted, and that number contains no character other than `0`..`9` and the
space; with its spaces removed it is a Luhn-valid digit string. -/
theorem stored_number_digits_and_spaces (fg fc : Option String) (db : Database) (u : Int)
    (n : String) (hok : (Service.AddOrder fg fc db u n).1 = none) :
    (Service.AddOrder fg fc db u n).2.orders = db.orders ++ [⟨u, n, OrderStatusNew, none⟩] ∧
    (∀ c ∈ n.data, c.isDigit = true ∨ c = ' ') ∧
    SpecValidSpaces n := by
  obtain ⟨hv, _⟩ := addOrder_success fg fc db u n hok
  have hspec : SpecValidSpaces n := (validateOrderNumber_iff n).mp hv
  refine ⟨?_, ?_, hspec⟩
  · rw [addOrder_success_db fg fc db u n hok]
  · intro c hc
    by_cases hsp : c = ' '
    · exact Or.inr hsp
    · left
      apply hspec.2.1 c
      rw [List.mem_filter]
      exact ⟨hc, by simpa using hsp⟩


/-- Witness for C23 (amended): `1 8` submitted by user 1 to an empty database is
stored as `1 8`. -/
theorem stored_number_digits_and_spaces_witness :
    (Service.AddOrder none none {} 1 "1 8").2.orders
      = ([] : List OrderRow) ++ [⟨1, "1 8", OrderStatusNew, none⟩] :=
  (stored_number_digits_and_spaces none none {} 1 "1 8" rfl).1

/-! ## The gateway client: claim C24 -/

theorem httpClientGet_requests (send : String → Except String RoundTrip) :
    ∀ (allowed : Nat) (url : String),
      (HttpClient.Get send (allowed + 1) url).2.head? = some url ∧
      (HttpClient.Get send (allowed + 1) url).2.length ≤ allowed + 1 ∧
      List.Chain' (fun u v => redirectsTo send u v = true)
        (HttpClient.Get send (allowed + 1) url).2 := by
  intro allowed
  induction allowed with
  | zero =>
    intro url
    unfold HttpClient.Get
    cases hs : send url with
    | error err => simp
    | ok rt =>
      by_cases hf : followsRedirect rt = true
      · simp [hf, HttpClient.Get]
      · simp [hf]
  | succ k ih =>
    intro url
    unfold HttpClient.Get
    cases hs : send url with
    | error err => simp
    | ok rt =>
      by_cases hf : followsRedirect rt = true
      · obtain ⟨hhead, hlen, hchain⟩ := ih rt.location
        simp only [hf, if_true]
        refine ⟨rfl, ?_, ?_⟩
        · simp only [List.length_cons]
          omega
        · rw [List.chain'_cons']
          refine ⟨?_, hchain⟩
          intro v hv
          rw [hhead] at hv
          simp only [Option.mem_def, Option.some.injEq] at hv
          unfold redirectsTo
          rw [hs]
          simp [hf, hv]
      · simp [hf]

theorem httpClientGet_length_pos (send : String → Except String RoundTrip) (allowed : Nat)
    (url : String) : 1 ≤ (HttpClient.Get send (allowed + 1) url).2.length := by
  have h := (httpClientGet_requests send allowed url).1
  cases hl : (HttpClient.Get send (allowed + 1) url).2 with
  | nil => rw [hl] at h; simp at h
  | cons a l => simp

theorem httpClientGet_outcome (send : String → Except String RoundTrip) :
    ∀ (allowed : Nat) (url : String), ∃ last,
      (HttpClient.Get send (allowed + 1) url).2.getLast? = some last ∧
      ((∃ err, send last = .error err ∧
          (HttpClient.Get send (allowed + 1) url).1 = .error err) ∨
       (∃ rt, send last = .ok rt ∧ followsRedirect rt = false ∧
          (HttpClient.Get send (allowed + 1) url).1 = .ok rt.response) ∨
       (∃ rt, send last = .ok rt ∧ followsRedirect rt = true ∧
          (HttpClient.Get send (allowed + 1) url).2.length = allowed + 1 ∧
          (HttpClient.Get send (allowed + 1) url).1
            = .error (stoppedAfterRedirects rt.location))) := by
  intro allowed
  induction allowed with
  | zero =>
    intro url
    refine ⟨url, ?_⟩
    unfold HttpClient.Get
    cases hs : send url with
    | error err => simp
    | ok rt =>
      by_cases hf : followsRedirect rt = true
      · simp [hf, HttpClient.Get]
      · simp [hf]
  | succ k ih =>
    intro url
    cases hs : send url with
    | error err =>
      refine ⟨url, ?_⟩
      unfold HttpClient.Get
      simp [hs]
    | ok rt =>
      by_cases hf : followsRedirect rt = true
      · obtain ⟨last, hlast, hcases⟩ := ih rt.location
        have hpos := httpClientGet_length_pos send k rt.location
        have hget : HttpClient.Get send (k + 1 + 1) url
            = ((HttpClient.Get send (k + 1) rt.location).1,
                url :: (HttpClient.Get send (k + 1) rt.location).2) := by
          conv_lhs => unfold HttpClient.Get
          simp [hs, hf]
        refine ⟨last, ?_, ?_⟩
        · rw [hget]
          simp only
          cases hl : (HttpClient.Get send (k + 1) rt.location).2 with
          | nil => rw [hl] at hpos; simp at hpos
          | cons a l =>
            rw [hl] at hlast
            rw [List.getLast?_cons_cons]
            exact hlast
        · rw [hget]
          simp only [List.length_cons]
          rcases hcases with ⟨err, h1, h2⟩ | ⟨rt2, h1, h2, h3⟩ | ⟨rt2, h1, h2, h3, h4⟩
          · exact Or.inl ⟨err, h1, h2⟩
          · exact Or.inr (Or.inl ⟨rt2, h1, h2, h3⟩)
          · exact Or.inr (Or.inr ⟨rt2, h1, h2, by omega, h4⟩)
      · refine ⟨url, ?_⟩
        unfold HttpClient.Get
        simp [hs, hf]

theorem httpClientGet_one_request_iff (send : String → Except String RoundTrip) (allowed : Nat)
    (url : String) :
    (HttpClient.Get send (allowed + 1 + 1) url).2.length = 1 ↔
      ∀ rt, send url = .ok rt → followsRedirect rt = false := by
  cases hs : send url with
  | error err =>
    unfold HttpClient.Get
    simp [hs]
  | ok rt =>
    by_cases hf : followsRedirect rt = true
    · have hpos := httpClientGet_length_pos send allowed rt.location
      have hget : HttpClient.Get send (allowed + 1 + 1) url
          = ((HttpClient.Get send (allowed + 1) rt.location).1,
              url :: (HttpClient.Get send (allowed + 1) rt.location).2) := by
        conv_lhs => unfold HttpClient.Get
        simp [hs, hf]
      rw [hget]
      simp only [List.length_cons]
      constructor
      · intro h
        omega
      · intro h
        have := h rt rfl
        rw [hf] at this
        exact absurd this (by decide)
    · unfold HttpClient.Get
      simp only [hs, hf]
      simp
      simpa using hf

theorem getOrderInfoReturns_eq (reply : HttpReply) :
    AccrualClient.GetOrderInfoReturns reply
      = match AccrualClient.GetOrderInfo reply with
        | .ok accrualResp => (some accrualResp, none)
        | .error err => (none, some err) := by
  unfold AccrualClient.GetOrderInfoReturns AccrualClient.GetOrderInfo
  cases reply with
  | error err => rfl
  | ok resp =>
    simp only
    split_ifs
    · cases resp.decoded <;> rfl
    all_goals rfl

/-- C24, as stated, fails: the accrual system answers the request for order `18`
with a 302 whose `Location` is the address of order `26`.  The one call of
`GetOrderInfo` issues two HTTP requests, and the 302, which is none of 200, 204, 429
and 500, gives no unexpected-status error: the call returns the result of order
`26`. -/
theorem getOrderInfo_redirect_counterexample :
    AccrualClient.GetOrderInfoVia redirectingSend "http://accrual" "18"
      = (.ok ⟨"26", "PROCESSED", 100⟩,
          ["http://accrual/api/orders/18", "http://accrual/api/orders/26"]) ∧
    (AccrualClient.GetOrderInfoVia redirectingSend "http://accrual" "18").2.length = 2 ∧
    redirectingSend "http://accrual/api/orders/18"
      = .ok { response := { StatusCode := 302 },
              location := "http://accrual/api/orders/26" } ∧
    (AccrualClient.GetOrderInfoVia redirectingSend "http://accrual" "18").1
      ≠ AccrualClient.GetOrderInfo (.ok { StatusCode := 302 }) ∧
    AccrualClient.GetOrderInfo (.ok { StatusCode := 302 })
      = .error ("unexpected status code " ++ toString 302 ++ ": " ++ "") := by
  refine ⟨rfl, rfl, rfl, ?_, rfl⟩
  intro h
  have h2 : (AccrualClient.GetOrderInfoVia redirectingSend "http://accrual" "18").1
      = .ok ⟨"26", "PROCESSED", 100⟩ := rfl
  rw [h2] at h
  have h3 : AccrualClient.GetOrderInfo (.ok { StatusCode := 302 })
      = .error ("unexpected status code " ++ toString 302 ++ ": " ++ "") := rfl
  rw [h3] at h
  cases h

/-- C24 (amended): one call of `GetOrderInfo` makes one call of `httpClient.Get`,
which follows redirects.  The first request goes to `baseURL/api/orders/number`,
every further request goes to the location of the redirect that answered the
request before it (`GetOrderInfo` itself repeats no request), and there are at most
ten; there is
exactly one request if and only if the first reply is not a redirect with a
location.  The result is the classification of the reply to the last request, or,
when that reply is a tenth redirect, a request error.  A reply is classified by its
status code alone: 200 with a decodable body gives the decoded response and no
error, 204 the not-found error, 429 the rate-limit error carrying the `Retry-After`
value, 500 the internal-server-error error and every other code an
unexpected-status error.  The response is nil whenever an error is returned. -/
theorem getOrderInfo_classification (send : String → Except String RoundTrip)
    (baseURL orderNumber : String) :
    (AccrualClient.GetOrderInfoVia send baseURL orderNumber).2.head?
      = some (baseURL ++ "/api/orders/" ++ orderNumber) ∧
    (AccrualClient.GetOrderInfoVia send baseURL orderNumber).2.length ≤ 10 ∧
    List.Chain' (fun u v => redirectsTo send u v = true)
      (AccrualClient.GetOrderInfoVia send baseURL orderNumber).2 ∧
    ((AccrualClient.GetOrderInfoVia send baseURL orderNumber).2.length = 1 ↔
      ∀ rt, send (baseURL ++ "/api/orders/" ++ orderNumber) = .ok rt →
        followsRedirect rt = false) ∧
    (∃ last, (AccrualClient.GetOrderInfoVia send baseURL orderNumber).2.getLast? = some last ∧
      ((∃ err, send last = .error err ∧
          (AccrualClient.GetOrderInfoVia send baseURL orderNumber).1
            = .error ("failed to make request: " ++ err)) ∨
       (∃ rt, send last = .ok rt ∧ followsRedirect rt = false ∧
          (AccrualClient.GetOrderInfoVia send baseURL orderNumber).1
            = AccrualClient.GetOrderInfo (.ok rt.response)) ∨
       (∃ rt, send last = .ok rt ∧ followsRedirect rt = true ∧
          (AccrualClient.GetOrderInfoVia send baseURL orderNumber).2.length = 10 ∧
          (AccrualClient.GetOrderInfoVia send baseURL orderNumber).1
            = .error ("failed to make request: " ++ stoppedAfterRedirects rt.location)))) ∧
    (∀ resp : HttpResponse,
      (∀ info, resp.StatusCode = 200 → resp.decoded = .ok info →
        AccrualClient.GetOrderInfo (.ok resp) = .ok info) ∧
      (resp.StatusCode = 204 →
        AccrualClient.GetOrderInfo (.ok resp) = .error "order not found in accrual system") ∧
      (resp.StatusCode = 429 →
        AccrualClient.GetOrderInfo (.ok resp)
          = .error ("rate limit exceeded, retry after: " ++ resp.retryAfter)) ∧
      (resp.StatusCode = 500 →
        AccrualClient.GetOrderInfo (.ok resp)
          = .error "internal server error in accrual system") ∧
      (resp.StatusCode ≠ 200 → resp.StatusCode ≠ 204 → resp.StatusCode ≠ 429 →
        resp.StatusCode ≠ 500 →
        AccrualClient.GetOrderInfo (.ok resp)
          = .error ("unexpected status code " ++ toString resp.StatusCode ++ ": " ++ resp.body))) ∧
    (∀ reply : HttpReply,
      (AccrualClient.GetOrderInfoReturns reply
        = match AccrualClient.GetOrderInfo reply with
          | .ok accrualResp => (some accrualResp, none)
          | .error err => (none, some err)) ∧
      ((AccrualClient.GetOrderInfoReturns reply).2 ≠ none →
        (AccrualClient.GetOrderInfoReturns reply).1 = none)) := by
  have hreq := httpClientGet_requests send 9 (baseURL ++ "/api/orders/" ++ orderNumber)
  refine ⟨hreq.1, hreq.2.1, hreq.2.2,
    httpClientGet_one_request_iff send 8 (baseURL ++ "/api/orders/" ++ orderNumber), ?_, ?_, ?_⟩
  · obtain ⟨last, hlast, hcases⟩ :=
      httpClientGet_outcome send 9 (baseURL ++ "/api/orders/" ++ orderNumber)
    refine ⟨last, hlast, ?_⟩
    show (∃ err, send last = .error err ∧
        AccrualClient.GetOrderInfo
            (HttpClient.Get send 10 (baseURL ++ "/api/orders/" ++ orderNumber)).1
          = .error ("failed to make request: " ++ err)) ∨
      (∃ rt, send last = .ok rt ∧ followsRedirect rt = false ∧
        AccrualClient.GetOrderInfo
            (HttpClient.Get send 10 (baseURL ++ "/api/orders/" ++ orderNumber)).1
          = AccrualClient.GetOrderInfo (.ok rt.response)) ∨
      (∃ rt, send last = .ok rt ∧ followsRedirect rt = true ∧
        (HttpClient.Get send 10 (baseURL ++ "/api/orders/" ++ orderNumber)).2.length = 10 ∧
        AccrualClient.GetOrderInfo
            (HttpClient.Get send 10 (baseURL ++ "/api/orders/" ++ orderNumber)).1
          = .error ("failed to make request: " ++ stoppedAfterRedirects rt.location))
    rcases hcases with ⟨err, h1, h2⟩ | ⟨rt, h1, h2, h3⟩ | ⟨rt, h1, h2, h3, h4⟩
    · exact Or.inl ⟨err, h1, by rw [h2]; rfl⟩
    · exact Or.inr (Or.inl ⟨rt, h1, h2, by rw [h3]⟩)
    · exact Or.inr (Or.inr ⟨rt, h1, h2, h3, by rw [h4]; rfl⟩)
  · intro resp
    refine ⟨?_, getOrderInfo_204 resp, ?_, getOrderInfo_500 resp, ?_⟩
    · intro info h200 hdec
      unfold AccrualClient.GetOrderInfo
      simp [h200, hdec]
    · intro h429
      unfold AccrualClient.GetOrderInfo
      simp [h429]
    · intro h1 h2 h3 h4
      unfold AccrualClient.GetOrderInfo
      simp [h1, h2, h3, h4]
  · intro reply
    refine ⟨getOrderInfoReturns_eq reply, ?_⟩
    intro herr
    rw [getOrderInfoReturns_eq] at herr ⊢
    cases h : AccrualClient.GetOrderInfo reply with
    | error err => rfl
    | ok r =>
      rw [h] at herr
      exact absurd rfl herr

/-- Witness for C24 (amended): against an accrual system that answers 429 with
`Retry-After: 5`, the call for order `18` issues one request and returns the
rate-limit error with the value 5 and no response; a 503 reply is classified as an
unexpected status. -/
theorem getOrderInfo_classification_witness :
    (AccrualClient.GetOrderInfoVia
        (fun _ => .ok { response := { StatusCode := 429, retryAfter := "5" } })
        "http://accrual" "18").2.length = 1 ∧
    AccrualClient.GetOrderInfo (replyStatus 429 "5")
      = .error ("rate limit exceeded, retry after: " ++ "5") ∧
    AccrualClient.GetOrderInfo (replyStatus 503 "")
      = .error ("unexpected status code " ++ toString 503 ++ ": " ++ "") ∧
    (AccrualClient.GetOrderInfoReturns (replyStatus 429 "5")).1 = none :=
  ⟨(getOrderInfo_classification
      (fun _ => .ok { response := { StatusCode := 429, retryAfter := "5" } })
      "http://accrual" "18").2.2.2.1.mpr
      (fun rt h => by cases h; rfl),
   ((getOrderInfo_classification (fun _ => .error "") "http://accrual" "18").2.2.2.2.2.1
      { StatusCode := 429, retryAfter := "5" }).2.2.1 rfl,
   ((getOrderInfo_classification (fun _ => .error "") "http://accrual" "18").2.2.2.2.2.1
      { StatusCode := 503 }).2.2.2.2 (by decide) (by decide) (by decide) (by decide),
   ((getOrderInfo_classification (fun _ => .error "") "http://accrual" "18").2.2.2.2.2.2
      (replyStatus 429 "5")).2 (by decide)⟩

/-! ## The scheduler: claim C25 -/

/-- C25, as stated, fails: the first order of `sampleDb` gets a 429 reply with
`Retry-After: 60`; the cycle is aborted after one call and returns nil.  If that
cycle started and returned at the tick at 5000 ms, the next cycle starts at the
tick at 10000 ms: 5 seconds after the abort, not 60. -/
theorem next_cycle_ignores_retry_after_counterexample :
    (Service.ProcessAccruals { gateway := fun _ => replyStatus 429 "60" } sampleDb).calls
      = ["18"] ∧
    (Service.ProcessAccruals { gateway := fun _ => replyStatus 429 "60" } sampleDb).err
      = none ∧
    nextCycleStart 5000 5000 = 10000 ∧
    ¬ (5000 + 60000 ≤ nextCycleStart 5000 5000) := by
  refine ⟨by decide, rfl, by decide, by decide⟩

/-- C25 (amended): after a reconciliation cycle, aborted by a rate-limit reply or
not, the next cycle starts at the next tick of the fixed 5-second ticker: not before
the cycle has returned and at most 5 seconds after it, whatever the backoff of the
reply was. -/
theorem next_cycle_within_ticker_period (started returned : Nat)
    (h : started ≤ returned) :
    returned ≤ nextCycleStart started returned ∧
    nextCycleStart started returned ≤ returned + accrualTickerPeriod := by
  unfold nextCycleStart accrualTickerPeriod
  simp only
  have hdiv := Nat.div_add_mod started 5000
  have hmod := Nat.mod_lt started (show 5000 > 0 by decide)
  split <;> constructor <;> omega

/-- Witness for C25 (amended): a cycle that started at 5000 ms and returned at
5200 ms is followed by one starting at 10000 ms. -/
theorem next_cycle_within_ticker_period_witness :
    5200 ≤ nextCycleStart 5000 5200 ∧ nextCycleStart 5000 5200 ≤ 5200 + accrualTickerPeriod :=
  next_cycle_within_ticker_period 5000 5200 (by decide)

/-! ## The frame of a withdrawal: claim C29 -/

/-- C29, as stated, fails in the float64 arithmetic of the amounts: a user holding
`{349.94, 375.53}` withdraws `169.03`.  The funds suffice and the row becomes
`{180.91, 544.56}`, each the correctly rounded result; but the sum
`current + withdrawn`, which was `725.47` before, is `725.4699999999999` after (the
float64 just below `725.47`). -/
theorem withdraw_sum_rounding_counterexample :
    withdrawRowFloat64 (Float64.round 34994 100) (Float64.round 37553 100)
        (Float64.round 16903 100)
      = some (Float64.round 18091 100, Float64.round 54456 100) ∧
    Float64.add (Float64.round 34994 100) (Float64.round 37553 100)
      = Float64.round 72547 100 ∧
    Float64.round 72547 100 = ⟨6381301604821238, -43⟩ ∧
    Float64.add (Float64.round 18091 100) (Float64.round 54456 100)
      = ⟨6381301604821237, -43⟩ ∧
    Float64.add (Float64.round 18091 100) (Float64.round 54456 100)
      ≠ Float64.add (Float64.round 34994 100) (Float64.round 37553 100) ∧
    Float64.lt (Float64.add (Float64.round 18091 100) (Float64.round 54456 100))
        (Float64.add (Float64.round 34994 100) (Float64.round 37553 100)) = true := by
  refine ⟨by decide, by decide, by decide, by decide, by decide, by decide⟩

/-- C29 (amended): every successful `Service.WithdrawBalance` call moves the amount
from `current` to `withdrawn` of the user's balance, which goes from `{c, w}` to
`{c - a, w + a}`, changes no other user's balance, and leaves the existing
withdrawal records as they are (the one record appended is the user's own),
whatever the store does. -/
theorem withdraw_moves_amount (fw : TxFaults) (fc : Option String) (db : Database)
    (u : Int) (n : String) (a : ℚ)
    (hok : (Service.WithdrawBalance fw fc db u n a).1 = none) :
    (∃ b, db.balanceOf u = some b ∧
      (Service.WithdrawBalance fw fc db u n a).2.balanceOf u
        = some ⟨b.Current - a, b.Withdrawn + a⟩) ∧
    (∀ v, v ≠ u →
      (Service.WithdrawBalance fw fc db u n a).2.balanceOf v = db.balanceOf v) ∧
    (Service.WithdrawBalance fw fc db u n a).2.withdrawals = db.withdrawals ++ [⟨u, n, a⟩] ∧
    (∀ v, v ≠ u →
      (Service.WithdrawBalance fw fc db u n a).2.withdrawals.filter (fun r => r.userID == v)
        = db.withdrawals.filter (fun r => r.userID == v)) := by
  rcases service_withdraw_cases fw fc db u n a with
    ⟨e, he⟩ | ⟨row, hrow, _, ⟨_, hres⟩ | ⟨x, _, hx⟩⟩
  · rw [he] at hok
    exact absurd hok (by simp)
  · rw [hres]
    simp only
    have hb : db.balanceOf u = some ⟨row.current, row.withdrawn⟩ := by
      unfold Database.balanceOf
      rw [hrow]
      rfl
    refine ⟨⟨_, hb, ?_⟩, ?_, rfl, ?_⟩
    · rw [balanceOf_record, balanceOf_debit, hb]
      simp
    · intro v hv
      rw [balanceOf_record, balanceOf_debit]
      cases db.balanceOf v <;> simp [hv]
    · intro v hv
      show (db.withdrawals ++ [(⟨u, n, a⟩ : WithdrawalRow)]).filter
        (fun r => r.userID == v) = _
      rw [List.filter_append]
      have : ([(⟨u, n, a⟩ : WithdrawalRow)].filter (fun r => r.userID == v)) = [] := by
        rw [List.filter_eq_nil_iff]
        intro r hr
        simp only [List.mem_singleton] at hr
        subst hr
        simpa using fun h => hv h.symm
      rw [this, List.append_nil]
  · rw [hx] at hok
    exact absurd hok (by simp)

/-- Witness for C29 (amended): user 1 holds `{500, 0}` and user 2 `{7, 0}`; user 1
withdraws 400 and user 2 still holds `{7, 0}`. -/
theorem withdraw_moves_amount_witness :
    (Service.WithdrawBalance {} none { balances := [⟨1, 500, 0⟩, ⟨2, 7, 0⟩] } 1 "2377225624"
      400).2.balanceOf 2 = Database.balanceOf { balances := [⟨1, 500, 0⟩, ⟨2, 7, 0⟩] } 2 := by
  have hok : (Service.WithdrawBalance {} none { balances := [⟨1, 500, 0⟩, ⟨2, 7, 0⟩] } 1
      "2377225624" 400).1 = none := by
    rw [service_withdraw_noFault { balances := [⟨1, 500, 0⟩, ⟨2, 7, 0⟩] } 1 "2377225624" 400
      ⟨1, 500, 0⟩ (by decide) rfl]
    rw [if_neg (by norm_num)]
  exact (withdraw_moves_amount {} none _ 1 "2377225624" 400 hok).2.1 2 (by decide)

/-! ## When a cycle stops early: claim C30 -/

theorem processOrders_calls_of_no_stop (env : CycleEnv) (l : List OrderRow)
    (h : ∀ p ∈ l, stopsCycle env p = false) (db : Database) :
    (processOrders env l db).2 = l.map (fun r => r.number) := by
  have := processOrders_append env l [] h db
  rw [List.append_nil] at this
  rw [this]
  simp [processOrders]

theorem rate_limit_text_of_429 (resp : HttpResponse) (h : resp.StatusCode = 429) :
    ∃ err, AccrualClient.GetOrderInfo (.ok resp) = .error err ∧
      stringsContains err "rate limit exceeded" = true := by
  refine ⟨"rate limit exceeded, retry after: " ++ resp.retryAfter, ?_, ?_⟩
  · unfold AccrualClient.GetOrderInfo
    simp [h]
  · unfold stringsContains
    rw [String.data_append]
    rfl

/-- C30, as stated, fails: no reply has status 429, but the reply for `18` has
status 503 and the body `rate limit exceeded`; the client's error text contains
that body, the loop breaks, and `26` is not queried. -/
theorem unexpected_status_body_counterexample :
    AccrualClient.GetOrderInfo (.ok { StatusCode := 503, body := "rate limit exceeded" })
      = .error "unexpected status code 503: rate limit exceeded" ∧
    (Service.ProcessAccruals
      { gateway := fun n =>
          if n == "18" then .ok { StatusCode := 503, body := "rate limit exceeded" }
          else replyFound ⟨n, "PROCESSED", 100⟩ }
      sampleDb).calls = ["18"] ∧
    (sampleDb.openOrders.map (fun r => r.number)) = ["18", "26"] := by
  refine ⟨rfl, by decide, by decide⟩

/-- C30 (amended): `ProcessAccruals` returns nil whenever the list of open orders
was loaded; and if no reply of the cycle gives an error whose text contains
`rate limit exceeded` (which excludes every reply with status 429, and also a
network error or an unexpected status code carrying that text), it calls the
gateway for every loaded order, in order: for every open order when the query
met no failure. -/
theorem cycle_runs_through (env : CycleEnv) (db : Database) (l : List OrderRow)
    (hload : OrderStorage.GetProcessingOrders env.select db = .ok l) :
    (Service.ProcessAccruals env db).err = none ∧
    ((∀ o ∈ l, ∀ err, AccrualClient.GetOrderInfo (env.gateway o.number) = .error err →
        stringsContains err "rate limit exceeded" = false) →
      (Service.ProcessAccruals env db).calls = l.map (fun r => r.number) ∧
      (env.select = {} →
        (Service.ProcessAccruals env db).calls = db.openOrders.map (fun r => r.number))) ∧
    (∀ resp : HttpResponse, resp.StatusCode = 429 →
      ∃ err, AccrualClient.GetOrderInfo (.ok resp) = .error err ∧
        stringsContains err "rate limit exceeded" = true) := by
  rw [processAccruals_of_load env db l hload]
  refine ⟨rfl, ?_, rate_limit_text_of_429⟩
  intro htext
  have hstop : ∀ p ∈ l, stopsCycle env p = false := by
    intro p hp
    unfold stopsCycle
    cases hr : AccrualClient.GetOrderInfo (env.gateway p.number) with
    | error err =>
      simp only
      rw [htext p hp err hr]
      simp
    | ok info => rfl
  have hcalls : (processOrders env l db).2 = l.map (fun r => r.number) :=
    processOrders_calls_of_no_stop env l hstop db
  refine ⟨hcalls, ?_⟩
  intro hsel
  rw [hsel, getProcessingOrders_noFault] at hload
  have hl : db.openOrders = l := Except.ok.inj hload
  show (processOrders env l db).2 = _
  rw [hcalls, hl]

/-- Witness for C30 (amended): in `sampleDb` the replies are 500 for `18` and an
undecodable 200 for `26`; both open orders are queried and nil is returned. -/
theorem cycle_runs_through_witness :
    (Service.ProcessAccruals
      { gateway := fun n => if n == "18" then replyStatus 500 "" else replyStatus 200 "" }
      sampleDb).err = none ∧
    (Service.ProcessAccruals
      { gateway := fun n => if n == "18" then replyStatus 500 "" else replyStatus 200 "" }
      sampleDb).calls = ["18", "26"] := by
  have h := cycle_runs_through
    { gateway := fun n => if n == "18" then replyStatus 500 "" else replyStatus 200 "" }
    sampleDb [⟨1, "18", "NEW", none⟩, ⟨2, "26", "PROCESSING", none⟩] rfl
  refine ⟨h.1, ?_⟩
  have h2 := (h.2.1 (by
    intro o ho err herr
    simp only [List.mem_cons, List.mem_singleton, List.not_mem_nil, or_false] at ho
    rcases ho with ho | ho
    · subst ho
      have : err = "internal server error in accrual system" := by
        have h' : (Except.error "internal server error in accrual system" :
            Except String AccrualResponse) = Except.error err := herr
        exact (Except.error.inj h').symm
      subst this
      decide
    · subst ho
      have : err = "failed to decode response: EOF" := by
        have h' : (Except.error "failed to decode response: EOF" :
            Except String AccrualResponse) = Except.error err := herr
        exact (Except.error.inj h').symm
      subst this
      decide)).1
  rw [h2]
  rfl


/-! ## Check digits and single-digit errors: claims C27 and C28 -/

theorem isDigit_toNat (c : Char) (h : c.isDigit = true) : 48 ≤ c.toNat ∧ c.toNat ≤ 57 := by
  have e1 : (c.val ≥ 48) ↔ (48 ≤ c.toNat) := Iff.rfl
  have e2 : (c.val ≤ 57) ↔ (c.toNat ≤ 57) := Iff.rfl
  unfold Char.isDigit at h
  simp only [Bool.and_eq_true, decide_eq_true_eq, e1, e2] at h
  exact h

theorem specDigitValue_le (c : Char) (h : c.isDigit = true) : specDigitValue c ≤ 9 := by
  have := isDigit_toNat c h
  unfold specDigitValue
  omega

theorem specDigitValue_inj (a b : Char) (ha : a.isDigit = true) (hb : b.isDigit = true)
    (h : specDigitValue a = specDigitValue b) : a = b := by
  have h1 := isDigit_toNat a ha
  have h2 := isDigit_toNat b hb
  unfold specDigitValue at h
  have hn : a.toNat = b.toNat := by omega
  rw [← Char.ofNat_toNat a, ← Char.ofNat_toNat b, hn]

theorem digit_of_value : ∀ v, v < 10 →
    (Char.ofNat (48 + v)).isDigit = true ∧ specDigitValue (Char.ofNat (48 + v)) = v := by
  decide

theorem filter_spaces_of_digits (t : List Char) (h : ∀ c ∈ t, c.isDigit = true) :
    t.filter (fun c => c != ' ') = t := by
  rw [List.filter_eq_self]
  intro c hc
  have := isDigit_toNat c (h c hc)
  have hne : c ≠ ' ' := by
    intro he
    rw [he] at this
    exact absurd this.1 (by decide)
  simpa using hne

/-- The validator on a string of digits. -/
theorem validate_digits_iff (t : List Char) (h : ∀ c ∈ t, c.isDigit = true) :
    validateOrderNumber ⟨t⟩ = true ↔
      2 ≤ t.length ∧ specLuhnSum (t.map specDigitValue) % 10 = 0 := by
  rw [validateOrderNumber_iff]
  show SpecLuhnValid (t.filter (fun c => c != ' ')) ↔ _
  rw [filter_spaces_of_digits t h]
  unfold SpecLuhnValid
  exact ⟨fun hv => ⟨hv.1, hv.2.2⟩, fun hv => ⟨hv.1, h, hv.2⟩⟩

/-- The Luhn sum with one more digit on the right: the new digit counts as it is. -/
theorem specLuhnSum_append_singleton (vals : List Nat) (v : Nat) :
    specLuhnSum (vals ++ [v]) =
      v + ((vals.reverse.enumFrom 1).map (fun p => specLuhnTerm p.1 p.2)).sum := by
  unfold specLuhnSum
  rw [List.reverse_append]
  simp [List.enum, List.enumFrom_cons, specLuhnTerm]

/-- The Luhn sum split at one position: the digit there contributes the term of
its distance from the right end. -/
theorem specLuhnSum_split (pre post : List Nat) (a : Nat) :
    specLuhnSum (pre ++ a :: post) =
      specLuhnTerm post.length a +
        (((post.reverse.enumFrom 0).map (fun p => specLuhnTerm p.1 p.2)).sum +
          ((pre.reverse.enumFrom (post.length + 1)).map
            (fun p => specLuhnTerm p.1 p.2)).sum) := by
  unfold specLuhnSum
  rw [List.reverse_append, List.reverse_cons, List.append_assoc, List.enum,
    List.enumFrom_append, List.enumFrom_append]
  simp only [List.map_append, List.sum_append, List.length_reverse, Nat.zero_add,
    List.enumFrom_cons, List.enumFrom_nil, List.map_cons, List.map_nil, List.sum_cons,
    List.sum_nil, List.length_cons, List.length_nil, List.singleton_append]
  omega

theorem specLuhnTerm_le (i d : Nat) (h : d ≤ 9) : specLuhnTerm i d ≤ 9 := by
  unfold specLuhnTerm
  split
  · split <;> omega
  · exact h

theorem specLuhnTerm_inj (i a b : Nat) (ha : a ≤ 9) (hb : b ≤ 9)
    (h : specLuhnTerm i a = specLuhnTerm i b) : a = b := by
  unfold specLuhnTerm at h
  split at h
  · split at h <;> split at h <;> omega
  · exact h


/-- C27: for every non-empty digit string `s` there is exactly one decimal digit
`c` such that `ValidateOrderNumber (s ++ c)` is true: every payload has a unique
Luhn check digit. -/
theorem unique_check_digit (s : String) (hs : IsDigitString s) (hne : s ≠ "") :
    ∃! c : Char, c.isDigit = true ∧ ValidateOrderNumber (s.push c) = true := by
  have hlen : 1 ≤ s.data.length := by
    cases hd : s.data with
    | nil =>
      exfalso
      apply hne
      cases s
      simp only at hd
      rw [hd]
    | cons x xs => simp
  have hall : ∀ c : Char, c.isDigit = true → ∀ x ∈ s.data ++ [c], x.isDigit = true := by
    intro c hc x hx
    rcases List.mem_append.mp hx with h | h
    · exact hs x h
    · simp only [List.mem_singleton] at h
      rw [h]; exact hc
  have hiff : ∀ c : Char, c.isDigit = true →
      (ValidateOrderNumber (s.push c) = true ↔
        (specDigitValue c +
          (((s.data.map specDigitValue).reverse.enumFrom 1).map
            (fun p => specLuhnTerm p.1 p.2)).sum) % 10 = 0) := by
    intro c hc
    have hpush : s.push c = ⟨s.data ++ [c]⟩ := rfl
    unfold ValidateOrderNumber
    rw [hpush, validate_digits_iff _ (hall c hc), List.map_append, List.map_cons, List.map_nil,
      specLuhnSum_append_singleton]
    constructor
    · exact fun h => h.2
    · intro h
      exact ⟨by simp only [List.length_append, List.length_singleton]; omega, h⟩
  generalize hK : (((s.data.map specDigitValue).reverse.enumFrom 1).map
    (fun p => specLuhnTerm p.1 p.2)).sum = K at hiff
  have hv0 : (10 - K % 10) % 10 < 10 := Nat.mod_lt _ (by decide)
  obtain ⟨hc0, hval0⟩ := digit_of_value ((10 - K % 10) % 10) hv0
  refine ⟨Char.ofNat (48 + (10 - K % 10) % 10), ⟨hc0, ?_⟩, ?_⟩
  · rw [hiff _ hc0, hval0]
    omega
  · rintro c ⟨hc, hvalid⟩
    have h1 := (hiff c hc).mp hvalid
    have hle := specDigitValue_le c hc
    apply specDigitValue_inj c _ hc hc0
    rw [hval0]
    omega

/-- C28: for every digit string `s` accepted by `ValidateOrderNumber`, replacing
the digit at any one position by a different digit gives a string that
`ValidateOrderNumber` rejects: every single-digit error is detected. -/
theorem single_digit_error_detected (s : String) (hs : IsDigitString s)
    (hvalid : ValidateOrderNumber s = true) (i : Nat) (hi : i < s.data.length) (b : Char)
    (hb : b.isDigit = true) (hne : b ≠ s.data[i]) :
    ValidateOrderNumber ⟨s.data.set i b⟩ = false := by
  have hsplit : s.data = s.data.take i ++ s.data[i] :: s.data.drop (i + 1) := by
    conv_lhs => rw [← List.take_append_drop i s.data, List.drop_eq_getElem_cons hi]
  have hset : s.data.set i b = s.data.take i ++ b :: s.data.drop (i + 1) :=
    List.set_eq_take_cons_drop b hi
  have ha : s.data[i].isDigit = true := hs _ (List.getElem_mem _)
  have hall' : ∀ x ∈ s.data.take i ++ b :: s.data.drop (i + 1), x.isDigit = true := by
    intro x hx
    rcases List.mem_append.mp hx with h | h
    · exact hs x (List.mem_of_mem_take h)
    · rcases List.mem_cons.mp h with h | h
      · rw [h]; exact hb
      · exact hs x (List.mem_of_mem_drop h)
  have hv : validateOrderNumber ⟨s.data⟩ = true := hvalid
  rw [validate_digits_iff s.data hs] at hv
  have hsum := hv.2
  rw [hsplit, List.map_append, List.map_cons, specLuhnSum_split] at hsum
  cases hres : ValidateOrderNumber ⟨s.data.set i b⟩
  · rfl
  · exfalso
    unfold ValidateOrderNumber at hres
    rw [hset, validate_digits_iff _ hall', List.map_append, List.map_cons,
      specLuhnSum_split] at hres
    have hsum' := hres.2
    have hta := specLuhnTerm_le ((s.data.drop (i + 1)).map specDigitValue).length
      (specDigitValue s.data[i]) (specDigitValue_le _ ha)
    have htb := specLuhnTerm_le ((s.data.drop (i + 1)).map specDigitValue).length
      (specDigitValue b) (specDigitValue_le _ hb)
    have hterm : specLuhnTerm ((s.data.drop (i + 1)).map specDigitValue).length
        (specDigitValue b) =
        specLuhnTerm ((s.data.drop (i + 1)).map specDigitValue).length
          (specDigitValue s.data[i]) := by
      omega
    have hval := specLuhnTerm_inj _ _ _ (specDigitValue_le _ hb) (specDigitValue_le _ ha) hterm
    exact hne (specDigitValue_inj b _ hb ha hval)


/-- Witness for C27: the payload `1234567890` has exactly one check digit (it is
`3`). -/
theorem unique_check_digit_witness :
    ∃! c : Char, c.isDigit = true ∧ ValidateOrderNumber ("1234567890".push c) = true :=
  unique_check_digit "1234567890" (by unfold IsDigitString; decide) (by decide)

/-- Witness for C28: `12345678903` is accepted, and with its first digit replaced
by `2` it is rejected. -/
theorem single_digit_error_detected_witness :
    ValidateOrderNumber ⟨"12345678903".data.set 0 '2'⟩ = false :=
  single_digit_error_detected "12345678903" (by unfold IsDigitString; decide) (by decide)
    0 (by decide) '2' (by decide) (by decide)


end Gophermart
